import Mathlib

/-!
# HAXinceL2: controller registry, session protocol, envelope codec, agent
dispatch and operator front-end

A shallow embedding of `internal/message.go`, `internal/server.go`, the dispatch
and reply code of `internal/client.go`, `fileops.go`, `registry.go`,
`registry_stub.go`, and of `telegram/bot.go`.

* JSON frames are represented by their value tree (`JSON`); the byte-level
  scanner and printer of `encoding/json` are not part of the repository and are
  abstracted to "the bytes are the text of this value" / "the bytes are not JSON".
* `*ConnectedClient` pointers are addresses (`Ptr`) into a heap that is part of
  the `Server` state; a session's `Send` channel and `Conn` are created with it
  and never shared, so their state lives in the heap cell of the session.
* `Server.Run` is one iteration of the `for { select { ... } }` loop, for the
  event received; a Go runtime panic is the `Except.error` outcome.
* `Server.SendCommand` is the call run as a whole; `Server.GetClient` followed
  by `Server.sendSelect` are its two steps, between which other steps can run.
* The agent's handlers call the operating system and libraries; the outcome of
  each such call is read from a `World`.
* `frameRejected` (the frames that decoding refuses) and `Handler.outcome` (the
  table of the failures each handler reports) are written from the decoding
  rules and from the handlers' contract; `ReadJSON` and the handlers are proved
  to agree with them.
* Strings are sequences of Unicode code points; Go strings that are not valid
  UTF-8 are outside the model.
-/

namespace HAXinceL2

/-! ## JSON values and the struct mapping of `encoding/json` -/

/-- JSON value trees.  A number literal without fraction or exponent is `int`;
any other number literal is `real` and keeps its text. -/
inductive JSON where
  | null
  | bool (b : Bool)
  | int (n : Int)
  | real (lit : String)
  | str (s : String)
  | arr (items : List JSON)
  | obj (members : List (String × JSON))

/-- Errors of `encoding/json` (and of the frame reader). -/
inductive JSONError where
  | readFailed
  | unexpectedEnd
  | invalidText
  | unmarshalType (field : String)
deriving DecidableEq, Repr

/-- Go `json.RawMessage`: a byte slice.  `nil` is the zero value (no bytes),
`text v` are bytes that are the JSON text of `v`, `garbage` are bytes that are
not a JSON text. -/
inductive RawMessage where
  | nil
  | text (v : JSON)
  | garbage

/-- The JSON value a raw payload denotes on the wire (`nil` is written as `null`). -/
def RawMessage.denotes : RawMessage → Option JSON
  | .nil => some .null
  | .text v => some v
  | .garbage => none

abbrev MessageType := String

def TypeAuth : MessageType := "auth"
def TypeHeartbeat : MessageType := "heartbeat"
def TypeCommand : MessageType := "command"
def TypeScreenshot : MessageType := "screenshot"
def TypeWebcam : MessageType := "webcam"
def TypeShowImage : MessageType := "show_image"
def TypeResponse : MessageType := "response"
def TypeError : MessageType := "error"
def TypeFileRead : MessageType := "file_read"
def TypeFileWrite : MessageType := "file_write"
def TypeFileDelete : MessageType := "file_delete"
def TypeFileList : MessageType := "file_list"
def TypeFileDownload : MessageType := "file_download"
def TypeRegRead : MessageType := "reg_read"
def TypeRegWrite : MessageType := "reg_write"
def TypeRegDelete : MessageType := "reg_delete"
def TypeRegList : MessageType := "reg_list"

/-- The 17 constants of the `const ( ... )` block of `message.go`. -/
def recognizedTypes : List MessageType :=
  [TypeAuth, TypeHeartbeat, TypeCommand, TypeScreenshot, TypeWebcam, TypeShowImage,
   TypeResponse, TypeError, TypeFileRead, TypeFileWrite, TypeFileDelete, TypeFileList,
   TypeFileDownload, TypeRegRead, TypeRegWrite, TypeRegDelete, TypeRegList]

/-- Go `Message`: `Type` (json "type", here `Type_`), `Payload` (json "payload"),
`Timestamp int64` (json "timestamp"). -/
structure Message where
  Type_ : MessageType
  Payload : RawMessage
  Timestamp : Int

/-- Go `AuthPayload`. -/
structure AuthPayload where
  ClientID : String
  Hostname : String
  Username : String
  OS : String
deriving DecidableEq, Repr

/-- The zero value of `Message` (`var msg protocol.Message`). -/
def Message.zero : Message := ⟨"", .nil, 0⟩

/-- The zero value of `AuthPayload`. -/
def AuthPayload.zero : AuthPayload := ⟨"", "", "", ""⟩

/-- Range of Go `int64`. -/
def isInt64 (n : Int) : Bool := decide (-9223372036854775808 ≤ n ∧ n ≤ 9223372036854775807)

/-- Case folding of one rune as `encoding/json` folds object keys: ASCII letters to
upper case, and the two non-ASCII runes whose fold orbit holds an ASCII letter
(U+017F long s, U+212A Kelvin sign). -/
def foldRune (c : Char) : Char :=
  if c = Char.ofNat 0x17F then 'S'
  else if c = Char.ofNat 0x212A then 'K'
  else c.toUpper

/-- Folded form of an object key. -/
def foldName (s : String) : String := String.mk (s.data.map foldRune)

/-- Field selection for an object key: an exact match of a json tag first, else
the first field whose folded tag equals the folded key; `none` when the key is
unknown (and skipped). -/
def findField (tags : List String) (key : String) : Option String :=
  if tags.contains key then some key
  else tags.find? (fun t => foldName t == foldName key)

/-- Storing a JSON value into a Go `string` field: a string is stored, `null`
leaves the field as it is, anything else is an `UnmarshalTypeError`. -/
def storeString (field : String) (v : JSON) (old : String) : Except JSONError String :=
  match v with
  | .str s => .ok s
  | .null => .ok old
  | _ => .error (.unmarshalType field)

/-- Storing a JSON value into a Go `int64` field: an integer literal in range is
stored, `null` leaves the field as it is, anything else (fraction, exponent, out
of range, other kinds) is an `UnmarshalTypeError`. -/
def storeInt64 (field : String) (v : JSON) (old : Int) : Except JSONError Int :=
  match v with
  | .int n => if isInt64 n then .ok n else .error (.unmarshalType field)
  | .null => .ok old
  | _ => .error (.unmarshalType field)

/-- One object member decoded into a `Message`.  `Payload` is a `RawMessage`
and takes the raw text of any value, `null` included. -/
def Message.setField (m : Message) (key : String) (v : JSON) : Except JSONError Message :=
  match findField ["type", "payload", "timestamp"] key with
  | none => .ok m
  | some f =>
    if f = "type" then
      (storeString "type" v m.Type_).map (fun t => { m with Type_ := t })
    else if f = "payload" then
      .ok { m with Payload := .text v }
    else
      (storeInt64 "timestamp" v m.Timestamp).map (fun t => { m with Timestamp := t })

/-- Members of an object decoded in order into a `Message`; the first type
error is the error returned. -/
def Message.setFields (m : Message) : List (String × JSON) → Except JSONError Message
  | [] => .ok m
  | (k, v) :: rest =>
    match m.setField k v with
    | .ok m1 => Message.setFields m1 rest
    | .error e => .error e

/-- Decoding a JSON value into a `Message` that starts as `m`: an object is
decoded member by member, `null` is a no-op, any other kind is an error. -/
def Message.unmarshal (m : Message) : JSON → Except JSONError Message
  | .obj members => m.setFields members
  | .null => .ok m
  | _ => .error (.unmarshalType "Message")

/-- What the transport hands to `conn.ReadJSON`: a read error (a broken or
timed-out connection) or bytes that do not start with a JSON value (`failed`),
or a message whose first JSON value is `j`. -/
inductive Frame where
  | failed
  | value (j : JSON)

/-- Go `conn.ReadJSON(&msg)` with `var msg protocol.Message` freshly zeroed. -/
def ReadJSON : Frame → Except JSONError Message
  | .failed => .error .readFailed
  | .value j => Message.zero.unmarshal j

/-- One object member decoded into an `AuthPayload`. -/
def AuthPayload.setField (a : AuthPayload) (key : String) (v : JSON) :
    Except JSONError AuthPayload :=
  match findField ["client_id", "hostname", "username", "os"] key with
  | none => .ok a
  | some f =>
    if f = "client_id" then
      (storeString "client_id" v a.ClientID).map (fun t => { a with ClientID := t })
    else if f = "hostname" then
      (storeString "hostname" v a.Hostname).map (fun t => { a with Hostname := t })
    else if f = "username" then
      (storeString "username" v a.Username).map (fun t => { a with Username := t })
    else
      (storeString "os" v a.OS).map (fun t => { a with OS := t })

/-- Members of an object decoded in order into an `AuthPayload`. -/
def AuthPayload.setFields (a : AuthPayload) : List (String × JSON) → Except JSONError AuthPayload
  | [] => .ok a
  | (k, v) :: rest =>
    match a.setField k v with
    | .ok a1 => AuthPayload.setFields a1 rest
    | .error e => .error e

/-- Go `json.Unmarshal(msg.Payload, &authPayload)` with `authPayload` zeroed. -/
def AuthPayload.unmarshal : RawMessage → Except JSONError AuthPayload
  | .nil => .error .unexpectedEnd
  | .garbage => .error .invalidText
  | .text (.obj members) => AuthPayload.zero.setFields members
  | .text .null => .ok AuthPayload.zero
  | .text _ => .error (.unmarshalType "AuthPayload")

/-- Go `json.Marshal` of a `Message` (as done by `conn.WriteJSON`): the three
tagged fields in declaration order; a nil payload is written as `null`, payload
bytes that are not JSON make the encoding fail. -/
def Message.marshal (m : Message) : Except JSONError JSON :=
  match m.Payload with
  | .nil => .ok (.obj [("type", .str m.Type_), ("payload", .null), ("timestamp", .int m.Timestamp)])
  | .text v => .ok (.obj [("type", .str m.Type_), ("payload", v), ("timestamp", .int m.Timestamp)])
  | .garbage => .error .invalidText

/-- The type tag a JSON frame carries: the string under its last member that
selects the `Type` field, if any. -/
def frameTypeTag : JSON → Option String
  | .obj members =>
    members.foldl (fun acc kv =>
      match findField ["type", "payload", "timestamp"] kv.1, kv.2 with
      | some "type", .str s => some s
      | _, _ => acc) none
  | _ => none

/-! ## Sessions, the registry and its operations (`internal/server.go`) -/

/-- Address of a `ConnectedClient` (`*ConnectedClient`). -/
abbrev Ptr := Nat

/-- Instants (`time.Time`), in seconds. -/
abbrev Time := Nat

/-- What one side writes to the transport: the text message of
`WriteJSON(message)`, the empty text message that `WriteJSON` flushes when the
message cannot be encoded, or a control message of `WriteMessage`. -/
inductive WireFrame where
  | json (m : Message)
  | emptyText
  | close
  | ping

/-- State of a `*websocket.Conn` as the controller sees it. -/
structure WSConn where
  written : List WireFrame
  closed : Bool
  readDeadline : Option Time
  writeDeadline : Option Time

/-- A freshly upgraded connection. -/
def WSConn.fresh : WSConn := ⟨[], false, none, none⟩

/-- Go `conn.Close()`. -/
def WSConn.Close (c : WSConn) : WSConn := { c with closed := true }

/-- A buffered Go channel of `*protocol.Message`: capacity, buffered values
(oldest first) and whether it was closed. -/
structure MsgChan where
  cap : Nat
  buf : List Message
  closed : Bool

/-- Go `make(chan *protocol.Message, cap)`. -/
def MsgChan.make (cap : Nat) : MsgChan := ⟨cap, [], false⟩

/-- Go runtime panics that the registry code can raise. -/
inductive Panic where
  | closeOfClosedChannel
  | sendOnClosedChannel
deriving DecidableEq, Repr

/-- Go `close(ch)`: closing a closed channel panics. -/
def MsgChan.close (ch : MsgChan) : Except Panic MsgChan :=
  if ch.closed then .error .closeOfClosedChannel else .ok { ch with closed := true }

/-- Go `ConnectedClient`. -/
structure ConnectedClient where
  ID : String
  Conn : WSConn
  Send : MsgChan
  Hostname : String
  Username : String
  OS : String
  LastSeen : Time

/-- Content of a heap cell that holds no session yet. -/
def ConnectedClient.zero : ConnectedClient := ⟨"", WSConn.fresh, MsgChan.make 0, "", "", "", 0⟩

/-- Go `map[string]*ConnectedClient`, as an association list. -/
abbrev ClientMap := List (String × Ptr)

/-- Go `m[k]` with the comma-ok form. -/
def ClientMap.get (m : ClientMap) (k : String) : Option Ptr :=
  (m.find? (fun e => e.1 == k)).map (fun e => e.2)

/-- Go `delete(m, k)`. -/
def ClientMap.delete (m : ClientMap) (k : String) : ClientMap :=
  m.filter (fun e => !(e.1 == k))

/-- Go `m[k] = v`. -/
def ClientMap.set (m : ClientMap) (k : String) (v : Ptr) : ClientMap :=
  (k, v) :: m.delete k

/-- Go `Server` (field `clients`) together with the heap its pointers address;
`next` is the first address not yet allocated.  The `register` and `unregister`
channels are unbuffered: an event sent is the event `Run` receives. -/
structure Server where
  clients : ClientMap
  heap : Ptr → ConnectedClient
  next : Ptr

/-- Go `NewServer`. -/
def NewServer : Server := ⟨[], fun _ => ConnectedClient.zero, 0⟩

/-- Heap update at one address. -/
def Server.store (s : Server) (p : Ptr) (c : ConnectedClient) : Server :=
  { s with heap := fun q => if q = p then c else s.heap q }

/-- Events of the `register` and `unregister` channels. -/
inductive Event where
  | register (client : Ptr)
  | unregister (client : Ptr)
deriving DecidableEq, Repr

/-- One iteration of the `select` loop of Go `Server.Run`, for the event received. -/
def Server.Run (s : Server) : Event → Except Panic Server
  | .register client =>
    .ok { s with clients := s.clients.set (s.heap client).ID client }
  | .unregister client =>
    match s.clients.get (s.heap client).ID with
    | some _ =>
      match (s.heap client).Send.close with
      | .ok ch =>
        .ok ({ s with clients := s.clients.delete (s.heap client).ID }.store client
              { s.heap client with Send := ch })
      | .error e => .error e
    | none => .ok s

/-- `Run` over a sequence of events, stopping at a panic. -/
def Server.RunAll (s : Server) : List Event → Except Panic Server
  | [] => .ok s
  | ev :: rest =>
    match s.Run ev with
    | .ok s1 => Server.RunAll s1 rest
    | .error e => .error e

/-- Result of one connection attempt: the state after it, the address of the
`ConnectedClient` built for the connection (if the upgrade succeeded) and the
event sent on `s.register` (if any). -/
structure Handshake where
  server : Server
  client : Option Ptr
  event : Option Event

/-- Go `Server.HandleWebSocket` up to and including `s.register <- client`.
`upgradeOk` is the outcome of `upgrader.Upgrade`, `first` what `conn.ReadJSON`
is handed, `now` the value of `time.Now()`. -/
def Server.HandleWebSocket (s : Server) (upgradeOk : Bool) (first : Frame) (now : Time) :
    Handshake :=
  if !upgradeOk then ⟨s, none, none⟩
  else
    let p := s.next
    let client : ConnectedClient :=
      { ConnectedClient.zero with Conn := WSConn.fresh, Send := MsgChan.make 256, LastSeen := now }
    let dropped : Server :=
      { s with next := p + 1 }.store p { client with Conn := client.Conn.Close }
    match ReadJSON first with
    | .error _ => ⟨dropped, some p, none⟩
    | .ok msg =>
      if msg.Type_ ≠ TypeAuth then ⟨dropped, some p, none⟩
      else
        match AuthPayload.unmarshal msg.Payload with
        | .error _ => ⟨dropped, some p, none⟩
        | .ok authPayload =>
          ⟨{ s with next := p + 1 }.store p
              { client with
                ID := authPayload.ClientID, Hostname := authPayload.Hostname,
                Username := authPayload.Username, OS := authPayload.OS },
            some p, some (.register p)⟩

/-- Go `Server.GetClients`: the values of the map (in the order of the model's
association list; Go's order is unspecified). -/
def Server.GetClients (s : Server) : List Ptr := s.clients.map (fun e => e.2)

/-- Errors built with `fmt.Errorf` in `server.go`. -/
inductive ServerError where
  | clientNotFound (id : String)
  | sendTimeout (id : String)
deriving DecidableEq, Repr

/-- Go `Server.GetClient`. -/
def Server.GetClient (s : Server) (id : String) : Except ServerError Ptr :=
  match s.clients.get id with
  | some client => .ok client
  | none => .error (.clientNotFound id)

/-- Go `Server.SendCommand`, run while no receiver takes from the queue: the
send case of the `select` proceeds when the buffer has room, panics on a closed
channel, and otherwise the `time.After(5 * time.Second)` case fires.  The result
is the state after the call and the returned `error` (`none` for `nil`).  A send
that completes because the writer pump drained the queue during the wait is the
interleaving in which that `writePump` step comes first. -/
def Server.SendCommand (s : Server) (clientID : String) (msg : Message) :
    Except Panic (Server × Option ServerError) :=
  match s.GetClient clientID with
  | .error err => .ok (s, some err)
  | .ok client =>
    let ch := (s.heap client).Send
    if ch.closed then .error .sendOnClosedChannel
    else if ch.buf.length < ch.cap then
      .ok (s.store client { s.heap client with Send := { ch with buf := ch.buf ++ [msg] } }, none)
    else .ok (s, some (.sendTimeout clientID))

/-- Which case of the `select` in `writePump` fires. -/
inductive PumpCase where
  | recv
  | tick
deriving DecidableEq, Repr

/-- Go `conn.WriteJSON(message)`: fails on a closed connection, on a transport
failure (`transportOk = false`) and on a message that cannot be encoded; no
envelope reaches the transport then.  The text message is opened before the
encoding and closed after it, so on an encoding failure an empty text message
is flushed before the error is returned. -/
def WSConn.WriteJSON (c : WSConn) (transportOk : Bool) (m : Message) : WSConn × Bool :=
  if c.closed || !transportOk then (c, false)
  else
    match m.marshal with
    | .error _ => ({ c with written := c.written ++ [.emptyText] }, false)
    | .ok _ => ({ c with written := c.written ++ [.json m] }, true)

/-- Go `conn.WriteMessage(kind, ...)` for the control messages of `writePump`. -/
def WSConn.WriteMessage (c : WSConn) (transportOk : Bool) (f : WireFrame) : WSConn × Bool :=
  if c.closed || !transportOk then (c, false)
  else ({ c with written := c.written ++ [f] }, true)

/-- One iteration of the loop of Go `Server.writePump`; the `Bool` tells whether
the loop goes on (`false`: the pump returned and its deferred `Conn.Close()`
ran).  A `recv` on an open, empty queue is not ready and leaves the state alone. -/
def Server.writePump (s : Server) (client : Ptr) (case : PumpCase) (transportOk : Bool)
    (now : Time) : Server × Bool :=
  let c := s.heap client
  match case with
  | .recv =>
    match c.Send.buf with
    | message :: rest =>
      let conn := { c.Conn with writeDeadline := some (now + 10) }
      let w := conn.WriteJSON transportOk message
      if w.2 then
        (s.store client { c with Send := { c.Send with buf := rest }, Conn := w.1 }, true)
      else
        (s.store client { c with Send := { c.Send with buf := rest }, Conn := w.1.Close }, false)
    | [] =>
      if c.Send.closed then
        let conn := { c.Conn with writeDeadline := some (now + 10) }
        let w := conn.WriteMessage transportOk .close
        (s.store client { c with Conn := w.1.Close }, false)
      else (s, true)
  | .tick =>
    let conn := { c.Conn with writeDeadline := some (now + 10) }
    let w := conn.WriteMessage transportOk .ping
    if w.2 then (s.store client { c with Conn := w.1 }, true)
    else (s.store client { c with Conn := w.1.Close }, false)

/-- Entry of Go `Server.readPump`: the read deadline set before the loop. -/
def Server.readPumpStart (s : Server) (client : Ptr) (now : Time) : Server :=
  s.store client
    { s.heap client with Conn := { (s.heap client).Conn with readDeadline := some (now + 60) } }

/-- One iteration of the loop of Go `Server.readPump` for what `ReadJSON` is
handed at time `now`.  On an error the loop breaks and the deferred function
runs: the returned event is the one sent on `s.unregister`, and the connection
is closed. -/
def Server.readPump (s : Server) (client : Ptr) (frame : Frame) (now : Time) :
    Server × Option Event :=
  match ReadJSON frame with
  | .error _ =>
    (s.store client { s.heap client with Conn := (s.heap client).Conn.Close },
      some (.unregister client))
  | .ok _ => (s.store client { s.heap client with LastSeen := now }, none)

/-! ## Predicates and drivers used to state the properties -/

/-- Registry invariant: every entry is filed under the ID of its session
(`Run` files a session under `client.ID`, and no code assigns `ID` later). -/
def Server.Keyed (s : Server) : Prop :=
  ∀ e ∈ s.clients, (s.heap e.2).ID = e.1

/-- The three reasons for which `HandleWebSocket` drops a first frame: it does
not decode as an envelope, or its type is not `auth`, or its payload does not
parse as an auth payload. -/
def firstFrameRejected (first : Frame) : Prop :=
  (∃ e, ReadJSON first = .error e) ∨
  (∃ msg, ReadJSON first = .ok msg ∧ msg.Type_ ≠ TypeAuth) ∨
  (∃ msg e, ReadJSON first = .ok msg ∧ AuthPayload.unmarshal msg.Payload = .error e)

/-- The first frame an agent sends (`Client.Connect`): an `auth` envelope. -/
def authFrame (id host user os : String) : Frame :=
  .value (.obj [("type", .str "auth"),
    ("payload", .obj [("client_id", .str id), ("hostname", .str host),
      ("username", .str user), ("os", .str os)]),
    ("timestamp", .int 1700000000)])

/-- A frame with a type tag outside the recognized set. -/
def bogusFrame : JSON :=
  .obj [("type", .str "bogus"), ("payload", .obj []), ("timestamp", .int 0)]

/-- Consecutive `SendCommand` calls to one identity with nothing taken from the
queue in between: the state after the last call and the `error` of each call. -/
def Server.SendAll (s : Server) (clientID : String) :
    List Message → Except Panic (Server × List (Option ServerError))
  | [] => .ok (s, [])
  | msg :: rest =>
    match s.SendCommand clientID msg with
    | .error e => .error e
    | .ok (s1, r) =>
      match Server.SendAll s1 clientID rest with
      | .error e => .error e
      | .ok (s2, rs) => .ok (s2, r :: rs)

/-- The envelopes among the frames written to a transport, in write order. -/
def envelopes : List WireFrame → List Message
  | [] => []
  | .json m :: rest => m :: envelopes rest
  | _ :: rest => envelopes rest

/-- One step of an interleaving on a session: a `SendCommand` call addressed to
it, or one `select` of its writer pump. -/
inductive SessionOp where
  | send (msg : Message)
  | pump (case : PumpCase) (transportOk : Bool) (now : Time)

/-- An interleaving in progress: the state, whether the writer-pump goroutine
is still running, and the envelopes whose `SendCommand` returned `nil` so far. -/
structure SessionRun where
  server : Server
  pumpRunning : Bool
  accepted : List Message

/-- One step of an interleaving for the session at `client`, registered under
`clientID`.  A pump that has returned takes no further step. -/
def SessionRun.step (clientID : String) (client : Ptr) (r : SessionRun) :
    SessionOp → Except Panic SessionRun
  | .send msg =>
    match r.server.SendCommand clientID msg with
    | .error e => .error e
    | .ok (s1, none) => .ok { r with server := s1, accepted := r.accepted ++ [msg] }
    | .ok (s1, some _) => .ok { r with server := s1 }
  | .pump case transportOk now =>
    if r.pumpRunning then
      .ok { r with
        server := (r.server.writePump client case transportOk now).1,
        pumpRunning := (r.server.writePump client case transportOk now).2 }
    else .ok r

/-- An interleaving, step by step. -/
def SessionRun.steps (clientID : String) (client : Ptr) (r : SessionRun) :
    List SessionOp → Except Panic SessionRun
  | [] => .ok r
  | op :: rest =>
    match r.step clientID client op with
    | .ok r1 => SessionRun.steps clientID client r1 rest
    | .error e => .error e

/-- `Run` receiving the event a handler or pump sent, if it sent one. -/
def Server.deliver (s : Server) : Option Event → Except Panic Server
  | none => .ok s
  | some ev => s.Run ev

/-- The state after one agent connected with `client_id` "c1" and `Run`
processed its register event; the session is at address 0. -/
def oneSession : Except Panic Server :=
  let h := NewServer.HandleWebSocket true (authFrame "c1" "h1" "u1" "linux") 10
  h.server.deliver h.event

/-- Two agents connect with the same `client_id` (sessions at addresses 0 and
1, both registered); then the second connection's reader pump ends and `Run`
processes its unregister event, then the first one's. -/
def sameIdScenario : Except Panic Server :=
  let h1 := NewServer.HandleWebSocket true (authFrame "c1" "h1" "u1" "linux") 10
  match h1.server.deliver h1.event with
  | .error e => .error e
  | .ok s1 =>
    let h2 := s1.HandleWebSocket true (authFrame "c1" "h2" "u2" "linux") 20
    match h2.server.deliver h2.event with
    | .error e => .error e
    | .ok s2 =>
      let r1 := s2.readPump 1 .failed 30
      match r1.1.deliver r1.2 with
      | .error e => .error e
      | .ok s3 =>
        let r0 := s3.readPump 0 .failed 40
        r0.1.deliver r0.2

/-- The state of `oneSession`. -/
def registeredState : Server :=
  match oneSession with
  | .ok s => s
  | .error _ => NewServer

/-- After `registeredState`, two more agents completed the handshake with the
same `client_id` "c2" (sessions at addresses 1 and 2), their register events
not yet processed. -/
def twoPending : Server :=
  ((registeredState.HandleWebSocket true (authFrame "c2" "h2" "u2" "linux") 20).server.HandleWebSocket
    true (authFrame "c2" "h3" "u3" "windows") 30).server

/-- A command envelope as the front-end builds it. -/
def whoami : Message :=
  ⟨TypeCommand, .text (.obj [("command", .str "whoami")]), 1700000000⟩

/-- Registry invariant of the running controller: entries are filed under the
ID of their session and point to allocated sessions. -/
def Server.Valid (s : Server) : Prop :=
  s.Keyed ∧ ∀ e ∈ s.clients, e.2 < s.next

/-- The pong handler installed by Go `Server.readPump` (`SetPongHandler`), run
when a pong control frame arrives at time `now`. -/
def Server.pongHandler (s : Server) (client : Ptr) (now : Time) : Server :=
  s.store client
    { s.heap client with Conn := { (s.heap client).Conn with readDeadline := some (now + 60) } }

/-- The session an event is about. -/
def Event.client : Event → Ptr
  | .register client => client
  | .unregister client => client

/-- States the controller can be in: from `NewServer`, by connection attempts,
by `Run` processing an event about an allocated session without panic, by
`SendCommand` calls and by iterations of the two pumps. -/
inductive Server.Reachable : Server → Prop where
  | init : Server.Reachable NewServer
  | connect (s : Server) (upgradeOk : Bool) (first : Frame) (now : Time) :
      Server.Reachable s → Server.Reachable (s.HandleWebSocket upgradeOk first now).server
  | run (s s1 : Server) (ev : Event) :
      Server.Reachable s → ev.client < s.next → s.Run ev = .ok s1 → Server.Reachable s1
  | send (s s1 : Server) (clientID : String) (msg : Message) (r : Option ServerError) :
      Server.Reachable s → s.SendCommand clientID msg = .ok (s1, r) → Server.Reachable s1
  | write (s : Server) (client : Ptr) (case : PumpCase) (transportOk : Bool) (now : Time) :
      Server.Reachable s → Server.Reachable (s.writePump client case transportOk now).1
  | read (s : Server) (client : Ptr) (frame : Frame) (now : Time) :
      Server.Reachable s → Server.Reachable (s.readPump client frame now).1

/-- The discipline `HandleWebSocket` and `readPump` follow, checked along a
sequence of events: given the sessions registered and unregistered so far, a
session is registered at most once, and unregistered at most once and only
after its own registration. -/
def disciplined (registered unregistered : List Ptr) : List Event → Bool
  | [] => true
  | .register client :: rest =>
    !registered.contains client && disciplined (client :: registered) unregistered rest
  | .unregister client :: rest =>
    registered.contains client && !unregistered.contains client &&
      disciplined registered (client :: unregistered) rest

/-- A heartbeat envelope as the agent sends it every 30 seconds. -/
def heartbeatFrame : Frame :=
  .value (.obj [("type", .str "heartbeat"), ("payload", .obj [("client_id", .str "c1")]),
    ("timestamp", .int 1700000030)])

/-- The state of `registeredState` once session 0's reader pump has started at
time 10. -/
def activeState : Server := registeredState.readPumpStart 0 10

/-- Two agents connect with the same `client_id` "c1" and `Run` processes both
register events: session 0 first, then session 1, which replaces it. -/
def twoRegistered : Except Panic Server :=
  let h1 := NewServer.HandleWebSocket true (authFrame "c1" "h1" "u1" "linux") 10
  match h1.server.deliver h1.event with
  | .error e => .error e
  | .ok s1 =>
    let h2 := s1.HandleWebSocket true (authFrame "c1" "h2" "u2" "linux") 20
    h2.server.deliver h2.event

/-- After `twoRegistered`, the first connection's reader pump ends and `Run`
processes its unregister event. -/
def replacedScenario : Except Panic Server :=
  match twoRegistered with
  | .error e => .error e
  | .ok s2 =>
    let r0 := s2.readPump 0 .failed 30
    r0.1.deliver r0.2

/-- A well-formed JSON frame that is not an envelope: its `type` is a number. -/
def malformedFrame : Frame :=
  .value (.obj [("type", .int 5), ("payload", .null), ("timestamp", .int 1700000040)])

/-- Two agents completed the handshake with the same `client_id` "c1" (sessions
at addresses 0 and 1); no event has been processed yet. -/
def twoConnected : Server :=
  ((NewServer.HandleWebSocket true (authFrame "c1" "h1" "u1" "linux") 10).server.HandleWebSocket
    true (authFrame "c1" "h2" "u2" "linux") 20).server

/-- The `select` of Go `Server.SendCommand`, run on the session `client` that
the preceding `GetClient` call returned.  `GetClient` has released the read
lock by then, so `Run` may process events between the lookup and this step. -/
def Server.sendSelect (s : Server) (client : Ptr) (clientID : String) (msg : Message) :
    Except Panic (Server × Option ServerError) :=
  let ch := (s.heap client).Send
  if ch.closed then .error .sendOnClosedChannel
  else if ch.buf.length < ch.cap then
    .ok (s.store client { s.heap client with Send := { ch with buf := ch.buf ++ [msg] } }, none)
  else .ok (s, some (.sendTimeout clientID))

/-- One agent is registered as "c1" (session 0).  A `SendCommand("c1", whoami)`
call looks the session up; before its `select` runs, the connection drops: the
reader pump ends and `Run` processes the unregister event; then the `select` of
the `SendCommand` call runs. -/
def sendRaceScenario : Except Panic (Server × Option ServerError) :=
  match oneSession with
  | .error e => .error e
  | .ok s =>
    match s.GetClient "c1" with
    | .error err => .ok (s, some err)
    | .ok client =>
      let r := s.readPump client .failed 30
      match r.1.deliver r.2 with
      | .error e => .error e
      | .ok s1 => s1.sendSelect client "c1" whoami

/-! ## The agent: dispatch, handlers and replies
(`internal/client.go`, `fileops.go`, `registry.go`, `registry_stub.go`) -/

/-- Go `registry.Key` roots used by `parseRegistryKey`. -/
inductive RootKey where
  | CLASSES_ROOT
  | CURRENT_USER
  | LOCAL_MACHINE
  | USERS
  | CURRENT_CONFIG
deriving DecidableEq, Repr

/-- The two errors of `parseRegistryKey`, with the text put after the colon. -/
inductive RegKeyError where
  | invalidFormat (keyPath : String)
  | unknownRoot (root : String)
deriving DecidableEq, Repr

/-- The text of a `RegKeyError` (`fmt.Errorf`). -/
def RegKeyError.text : RegKeyError → String
  | .invalidFormat keyPath => "invalid registry key format: " ++ keyPath
  | .unknownRoot root => "unknown root key: " ++ root

/-- Go `strings.SplitN(s, sep, 2)` for a one-rune separator, when it yields two
parts: the text before the first separator and everything after it. -/
def splitFirst (sep : Char) : List Char → Option (List Char × List Char)
  | [] => none
  | c :: cs =>
    if c = sep then some ([], cs)
    else (splitFirst sep cs).map (fun p => (c :: p.1, p.2))

/-- Go `unicode.ToUpper` as far as comparisons with ASCII names can tell: ASCII
letters go to upper case, and so do the only two other runes whose upper case
is an ASCII letter (U+0131 dotless i, U+017F long s); any other rune stays
outside ASCII. -/
def toUpperRune (c : Char) : Char :=
  if c = Char.ofNat 0x131 then 'I'
  else if c = Char.ofNat 0x17F then 'S'
  else c.toUpper

/-- Go `strings.ToUpper`. -/
def ToUpper (s : String) : String := String.mk (s.data.map toUpperRune)

/-- Go `unicode.ToLower` as far as comparisons with ASCII names can tell: ASCII
letters go to lower case, and so do the only two other runes whose lower case
is an ASCII letter (U+0130 dotted capital I, U+212A Kelvin sign). -/
def toLowerRune (c : Char) : Char :=
  if c = Char.ofNat 0x130 then 'i'
  else if c = Char.ofNat 0x212A then 'k'
  else c.toLower

/-- Go `strings.ToLower`. -/
def ToLower (s : String) : String := String.mk (s.data.map toLowerRune)

/-- Go `parseRegistryKey`. -/
def parseRegistryKey (keyPath : String) : Except RegKeyError (RootKey × String) :=
  match splitFirst (Char.ofNat 92) keyPath.data with
  | none => .error (.invalidFormat keyPath)
  | some (root, subKey) =>
    let upper := ToUpper (String.mk root)
    if upper = "HKEY_CLASSES_ROOT" ∨ upper = "HKCR" then .ok (.CLASSES_ROOT, String.mk subKey)
    else if upper = "HKEY_CURRENT_USER" ∨ upper = "HKCU" then .ok (.CURRENT_USER, String.mk subKey)
    else if upper = "HKEY_LOCAL_MACHINE" ∨ upper = "HKLM" then
      .ok (.LOCAL_MACHINE, String.mk subKey)
    else if upper = "HKEY_USERS" ∨ upper = "HKU" then .ok (.USERS, String.mk subKey)
    else if upper = "HKEY_CURRENT_CONFIG" ∨ upper = "HKCC" then
      .ok (.CURRENT_CONFIG, String.mk subKey)
    else .error (.unknownRoot (String.mk root))

/-- The calls a handler makes outside the repository that can fail. -/
inductive ExtCall where
  | unmarshal
  | combinedOutput
  | captureRect
  | pngEncode
  | writeFile
  | cmdStart
  | readFile
  | base64Decode
  | mkdirAll
  | stat
  | remove
  | readDir
  | marshal
  | openKey
  | createKey
  | getStringValue
  | getIntegerValue
  | getBinaryValue
  | parseUint
  | setValue
  | deleteKey
  | deleteValue
deriving DecidableEq, Repr

/-- What the surroundings of one handler run provide: the clock, whether the
transport accepts a write, the build (`registry.go` on Windows,
`registry_stub.go` elsewhere), for each outside call the error text if it fails,
the number of displays, whether the path is a directory, the fields of the
decoded payload and the data the successful calls produce. -/
structure World where
  now : Time
  transportOk : Bool
  windows : Bool
  fails : ExtCall → Option String
  displays : Nat
  isDir : Bool
  path : String
  key : String
  value : String
  dataType : String
  output : String

/-- Go `Client` (agent side). -/
structure Client where
  ID : String
  ServerURL : String
  conn : WSConn
  hostname : String
  username : String

/-- `json.Marshal` of a Go `ResponsePayload`: `data` and `error` are omitted
when empty. -/
def ResponsePayload.marshal (success : Bool) (data errMsg : String) : JSON :=
  .obj ([("success", .bool success)] ++
    (if data = "" then [] else [("data", .str data)]) ++
    (if errMsg = "" then [] else [("error", .str errMsg)]))

/-- `json.Marshal` of a Go `ErrorPayload`. -/
def ErrorPayload.marshal (code message : String) : JSON :=
  .obj [("code", .str code), ("message", .str message)]

/-- Go `Client.sendResponse`. -/
def Client.sendResponse (c : Client) (w : World) (success : Bool) (data errMsg : String) :
    Client :=
  { c with conn := (c.conn.WriteJSON w.transportOk
      ⟨TypeResponse, .text (ResponsePayload.marshal success data errMsg), w.now⟩).1 }

/-- Go `Client.sendError`; `err` is `none` for a nil error. -/
def Client.sendError (c : Client) (w : World) (message : String) (err : Option String) :
    Client :=
  let errMsg := match err with
    | some e => message ++ ": " ++ e
    | none => message
  { c with conn := (c.conn.WriteJSON w.transportOk
      ⟨TypeError, .text (ErrorPayload.marshal "ERROR" errMsg), w.now⟩).1 }

/-- Go `Client.handleCommand`.  A handler's outside calls are answered by the
`World`; the decoded payload is the `World`'s too. -/
def Client.handleCommand (c : Client) (w : World) : Client :=
  match w.fails .unmarshal with
  | some err => c.sendError w "Failed to parse command" (some err)
  | none =>
    match w.fails .combinedOutput with
    | some err => c.sendResponse w false w.output err
    | none => c.sendResponse w true w.output ""

/-- Go `Client.handleScreenshot`. -/
def Client.handleScreenshot (c : Client) (w : World) : Client :=
  if w.displays = 0 then c.sendError w "No active displays" none
  else
    match w.fails .captureRect with
    | some err => c.sendError w "Failed to capture screenshot" (some err)
    | none =>
      match w.fails .pngEncode with
      | some err => c.sendError w "Failed to encode screenshot" (some err)
      | none => c.sendResponse w true w.output ""

/-- Go `Client.handleWebcam`. -/
def Client.handleWebcam (c : Client) (w : World) : Client :=
  match w.fails .unmarshal with
  | some err => c.sendError w "Failed to parse webcam payload" (some err)
  | none => c.sendResponse w true "Webcam streaming not implemented yet" ""

/-- Go `Client.handleShowImage`. -/
def Client.handleShowImage (c : Client) (w : World) : Client :=
  match w.fails .unmarshal with
  | some err => c.sendError w "Failed to parse show image payload" (some err)
  | none =>
    match w.fails .writeFile with
    | some err => c.sendError w "Failed to create HTML file" (some err)
    | none =>
      match w.fails .cmdStart with
      | some err => c.sendError w "Failed to open image" (some err)
      | none => c.sendResponse w true "Image displayed" ""

/-- Go `Client.handleFileRead`. -/
def Client.handleFileRead (c : Client) (w : World) : Client :=
  match w.fails .unmarshal with
  | some err => c.sendError w "Failed to parse file read payload" (some err)
  | none =>
    match w.fails .readFile with
    | some err => c.sendError w ("Failed to read file " ++ w.path) (some err)
    | none => c.sendResponse w true w.output ""

/-- Go `Client.handleFileWrite`. -/
def Client.handleFileWrite (c : Client) (w : World) : Client :=
  match w.fails .unmarshal with
  | some err => c.sendError w "Failed to parse file write payload" (some err)
  | none =>
    match w.fails .base64Decode with
    | some err => c.sendError w "Failed to decode file content" (some err)
    | none =>
      match w.fails .mkdirAll with
      | some err => c.sendError w "Failed to create directory" (some err)
      | none =>
        match w.fails .writeFile with
        | some err => c.sendError w ("Failed to write file " ++ w.path) (some err)
        | none => c.sendResponse w true w.output ""

/-- Go `Client.handleFileDelete`. -/
def Client.handleFileDelete (c : Client) (w : World) : Client :=
  match w.fails .unmarshal with
  | some err => c.sendError w "Failed to parse file delete payload" (some err)
  | none =>
    match w.fails .stat with
    | some err => c.sendError w ("File/directory not found: " ++ w.path) (some err)
    | none =>
      match w.fails .remove with
      | some err => c.sendError w ("Failed to delete " ++ w.path) (some err)
      | none => c.sendResponse w true ("Deleted successfully: " ++ w.path) ""

/-- Go `Client.handleFileList`. -/
def Client.handleFileList (c : Client) (w : World) : Client :=
  match w.fails .unmarshal with
  | some err => c.sendError w "Failed to parse file list payload" (some err)
  | none =>
    match w.fails .readDir with
    | some err => c.sendError w ("Failed to read directory " ++ w.path) (some err)
    | none =>
      match w.fails .marshal with
      | some err => c.sendError w "Failed to serialize file list" (some err)
      | none => c.sendResponse w true w.output ""

/-- Go `Client.handleFileDownload`. -/
def Client.handleFileDownload (c : Client) (w : World) : Client :=
  match w.fails .unmarshal with
  | some err => c.sendError w "Failed to parse file download payload" (some err)
  | none =>
    match w.fails .stat with
    | some err => c.sendError w ("File not found: " ++ w.path) (some err)
    | none =>
      if w.isDir then c.sendError w "Cannot download directory" (some "path is a directory")
      else
        match w.fails .readFile with
        | some err => c.sendError w ("Failed to read file " ++ w.path) (some err)
        | none =>
          match w.fails .marshal with
          | some err => c.sendError w "Failed to serialize download result" (some err)
          | none => c.sendResponse w true w.output ""

/-- The handlers of `registry_stub.go` (build tag `!windows`): all four are
this one call. -/
def Client.handleRegUnsupported (c : Client) (w : World) : Client :=
  c.sendError w "Registry operations are only supported on Windows" (some "unsupported platform")

/-- Go `Client.handleRegRead`: `registry.go` on Windows, the stub elsewhere. -/
def Client.handleRegRead (c : Client) (w : World) : Client :=
  if !w.windows then c.handleRegUnsupported w
  else
    match w.fails .unmarshal with
    | some err => c.sendError w "Failed to parse registry read payload" (some err)
    | none =>
      match parseRegistryKey w.key with
      | .error err => c.sendError w "Invalid registry key" (some err.text)
      | .ok _ =>
        match w.fails .openKey with
        | some err => c.sendError w ("Failed to open registry key " ++ w.key) (some err)
        | none =>
          match w.fails .getStringValue with
          | some err =>
            match w.fails .getIntegerValue with
            | none => c.sendResponse w true w.output ""
            | some _ =>
              match w.fails .getBinaryValue with
              | none => c.sendResponse w true w.output ""
              | some _ =>
                c.sendError w ("Failed to read registry value " ++ w.value) (some err)
          | none =>
            match w.fails .marshal with
            | some err => c.sendError w "Failed to serialize registry data" (some err)
            | none => c.sendResponse w true w.output ""

/-- Go `Client.handleRegWrite`: `registry.go` on Windows, the stub elsewhere. -/
def Client.handleRegWrite (c : Client) (w : World) : Client :=
  if !w.windows then c.handleRegUnsupported w
  else
    match w.fails .unmarshal with
    | some err => c.sendError w "Failed to parse registry write payload" (some err)
    | none =>
      match parseRegistryKey w.key with
      | .error err => c.sendError w "Invalid registry key" (some err.text)
      | .ok _ =>
        match w.fails .createKey with
        | some err =>
          c.sendError w ("Failed to create/open registry key " ++ w.key) (some err)
        | none =>
          let written : Client :=
            match w.fails .setValue with
            | some err =>
              c.sendError w ("Failed to write registry value " ++ w.value) (some err)
            | none => c.sendResponse w true w.output ""
          let dataType := ToLower w.dataType
          if dataType = "string" ∨ dataType = "sz" then written
          else if dataType = "expand_string" ∨ dataType = "expand_sz" then written
          else if dataType = "dword" then
            match w.fails .parseUint with
            | some err => c.sendError w "Invalid DWORD value" (some err)
            | none => written
          else if dataType = "qword" then
            match w.fails .parseUint with
            | some err => c.sendError w "Invalid QWORD value" (some err)
            | none => written
          else c.sendError w "Unsupported data type" (some ("type: " ++ w.dataType))

/-- Go `Client.handleRegDelete`: `registry.go` on Windows, the stub elsewhere. -/
def Client.handleRegDelete (c : Client) (w : World) : Client :=
  if !w.windows then c.handleRegUnsupported w
  else
    match w.fails .unmarshal with
    | some err => c.sendError w "Failed to parse registry delete payload" (some err)
    | none =>
      match parseRegistryKey w.key with
      | .error err => c.sendError w "Invalid registry key" (some err.text)
      | .ok _ =>
        if w.value = "" then
          match w.fails .deleteKey with
          | some err => c.sendError w ("Failed to delete registry key " ++ w.key) (some err)
          | none => c.sendResponse w true w.output ""
        else
          match w.fails .openKey with
          | some err => c.sendError w ("Failed to open registry key " ++ w.key) (some err)
          | none =>
            match w.fails .deleteValue with
            | some err =>
              c.sendError w ("Failed to delete registry value " ++ w.value) (some err)
            | none => c.sendResponse w true w.output ""

/-- Go `Client.handleRegList`: `registry.go` on Windows, the stub elsewhere. -/
def Client.handleRegList (c : Client) (w : World) : Client :=
  if !w.windows then c.handleRegUnsupported w
  else
    match w.fails .unmarshal with
    | some err => c.sendError w "Failed to parse registry list payload" (some err)
    | none =>
      match parseRegistryKey w.key with
      | .error err => c.sendError w "Invalid registry key" (some err.text)
      | .ok _ =>
        match w.fails .openKey with
        | some err => c.sendError w ("Failed to open registry key " ++ w.key) (some err)
        | none =>
          match w.fails .marshal with
          | some err => c.sendError w "Failed to serialize registry list" (some err)
          | none => c.sendResponse w true w.output ""

/-- The thirteen handlers the `switch` of `handleMessage` can call. -/
inductive Handler where
  | handleCommand
  | handleScreenshot
  | handleWebcam
  | handleShowImage
  | handleFileRead
  | handleFileWrite
  | handleFileDelete
  | handleFileList
  | handleFileDownload
  | handleRegRead
  | handleRegWrite
  | handleRegDelete
  | handleRegList
deriving DecidableEq, Repr

/-- The `switch msg.Type` of Go `Client.handleMessage`: the handler of each
case, `none` for the `default` case (which only logs). -/
def Client.route (t : MessageType) : Option Handler :=
  if t = TypeCommand then some .handleCommand
  else if t = TypeScreenshot then some .handleScreenshot
  else if t = TypeWebcam then some .handleWebcam
  else if t = TypeShowImage then some .handleShowImage
  else if t = TypeFileRead then some .handleFileRead
  else if t = TypeFileWrite then some .handleFileWrite
  else if t = TypeFileDelete then some .handleFileDelete
  else if t = TypeFileList then some .handleFileList
  else if t = TypeFileDownload then some .handleFileDownload
  else if t = TypeRegRead then some .handleRegRead
  else if t = TypeRegWrite then some .handleRegWrite
  else if t = TypeRegDelete then some .handleRegDelete
  else if t = TypeRegList then some .handleRegList
  else none

/-- The call of one handler. -/
def Client.invoke (c : Client) (w : World) : Handler → Client
  | .handleCommand => c.handleCommand w
  | .handleScreenshot => c.handleScreenshot w
  | .handleWebcam => c.handleWebcam w
  | .handleShowImage => c.handleShowImage w
  | .handleFileRead => c.handleFileRead w
  | .handleFileWrite => c.handleFileWrite w
  | .handleFileDelete => c.handleFileDelete w
  | .handleFileList => c.handleFileList w
  | .handleFileDownload => c.handleFileDownload w
  | .handleRegRead => c.handleRegRead w
  | .handleRegWrite => c.handleRegWrite w
  | .handleRegDelete => c.handleRegDelete w
  | .handleRegList => c.handleRegList w

/-- Go `Client.handleMessage`. -/
def Client.handleMessage (c : Client) (w : World) (msg : Message) : Client :=
  match Client.route msg.Type_ with
  | some h => c.invoke w h
  | none => c

/-- The 13 capability type tags. -/
def capabilityTypes : List MessageType :=
  [TypeCommand, TypeScreenshot, TypeWebcam, TypeShowImage, TypeFileRead, TypeFileWrite,
   TypeFileDelete, TypeFileList, TypeFileDownload, TypeRegRead, TypeRegWrite, TypeRegDelete,
   TypeRegList]

/-- The reply envelopes an agent can write: a `response` envelope carrying
`{success, data, error}`, or an `error` envelope carrying `{code, message}`. -/
def isReplyEnvelope (now : Time) (m : Message) : Prop :=
  m.Timestamp = now ∧
  ((∃ success data errMsg, m.Type_ = TypeResponse ∧
      m.Payload = .text (ResponsePayload.marshal success data errMsg)) ∨
   (∃ message, m.Type_ = TypeError ∧ m.Payload = .text (ErrorPayload.marshal "ERROR" message)))

/-- An agent just connected, nothing written yet after the handshake. -/
def agent0 : Client := ⟨"c1", "ws://controller/ws", WSConn.fresh, "h1", "u1"⟩

/-- A non-Windows agent whose outside calls all succeed. -/
def posixWorld : World :=
  ⟨100, true, false, fun _ => none, 1, false, "/etc/hostname", "HKLM\\Software", "Version", "",
    "root\n"⟩

/-- A `reg_read` request as the controller would send it. -/
def regReadRequest : Message :=
  ⟨TypeRegRead, .text (.obj [("key", .str "HKLM\\Software"), ("value", .str "Version")]),
    1700000050⟩

/-- An envelope with an unknown type tag. -/
def bogusMessage : Message := ⟨"bogus", .text (.obj []), 1700000060⟩

/-! ## The operator front-end (`telegram/bot.go`) -/

/-- Go `strings.Split(s, sep)` for a one-rune separator, on the runes of `s`. -/
def splitAll (sep : Char) : List Char → List (List Char)
  | [] => [[]]
  | c :: cs =>
    if c = sep then [] :: splitAll sep cs
    else
      match splitAll sep cs with
      | [] => [[c]]
      | part :: parts => (c :: part) :: parts

/-- Go `Bot`: the admin list; the `*internal.Server` it holds is the state the
bot's methods are run on. -/
structure Bot where
  adminIDs : List Int

/-- What a bot method does to its collaborators, in call order: calls of the
chat API (`b.api.Send`, `b.api.Request`) and of the three `Server` methods. -/
inductive BotCall where
  | apiSend (chatID : Int)
  | apiRequest (callbackID : String)
  | GetClients
  | GetClient (id : String)
  | SendCommand (clientID : String) (msg : Message)

/-- Whether a call is one of `Server.SendCommand`, `GetClient`, `GetClients`. -/
def BotCall.isServerCall : BotCall → Bool
  | .apiSend _ => false
  | .apiRequest _ => false
  | _ => true

/-- The fields of a chat message the bot reads: `message.From.ID`,
`message.Chat.ID` and the result of `message.Command()`. -/
structure ChatMessage where
  fromID : Int
  chatID : Int
  command : String

/-- The fields of a callback query the bot reads: `callback.ID`,
`callback.From.ID`, `callback.Message.Chat.ID` and `callback.Data`. -/
structure CallbackQuery where
  id : String
  fromID : Int
  chatID : Int
  data : String

/-- The loop of Go `Bot.isAdmin`. -/
def isAdminLoop (userID : Int) : List Int → Bool
  | [] => false
  | id :: rest => if id = userID then true else isAdminLoop userID rest

/-- Go `Bot.isAdmin`. -/
def Bot.isAdmin (b : Bot) (userID : Int) : Bool := isAdminLoop userID b.adminIDs

/-- Go `Bot.listClients`: one `GetClients` call, then one message either way. -/
def Bot.listClients (_b : Bot) (s : Server) (chatID : Int) : Server × List BotCall :=
  (s, [.GetClients, .apiSend chatID])

/-- Go `Bot.showClientMenu`: one `GetClient` call, then one message either way. -/
def Bot.showClientMenu (_b : Bot) (s : Server) (chatID : Int) (clientID : String) :
    Server × List BotCall :=
  (s, [.GetClient clientID, .apiSend chatID])

/-- The request sent by `requestScreenshot` (`Quality: 85`) or `requestWebcam`
(`Duration: 30`), and the message that reports the outcome. -/
def Bot.request (_b : Bot) (s : Server) (chatID : Int) (clientID : String) (msg : Message) :
    Except Panic (Server × List BotCall) :=
  match s.SendCommand clientID msg with
  | .error e => .error e
  | .ok (s1, _) => .ok (s1, [.SendCommand clientID msg, .apiSend chatID])

/-- Go `Bot.requestScreenshot`. -/
def Bot.requestScreenshot (b : Bot) (s : Server) (now : Time) (chatID : Int)
    (clientID : String) : Except Panic (Server × List BotCall) :=
  b.request s chatID clientID ⟨TypeScreenshot, .text (.obj [("quality", .int 85)]), now⟩

/-- Go `Bot.requestWebcam`. -/
def Bot.requestWebcam (b : Bot) (s : Server) (now : Time) (chatID : Int)
    (clientID : String) : Except Panic (Server × List BotCall) :=
  b.request s chatID clientID ⟨TypeWebcam, .text (.obj [("duration", .int 30)]), now⟩

/-- Go `Bot.handleMessage`. -/
def Bot.handleMessage (b : Bot) (s : Server) (message : ChatMessage) :
    Except Panic (Server × List BotCall) :=
  if !b.isAdmin message.fromID then .ok (s, [.apiSend message.chatID])
  else if message.command = "start" then .ok (s, [.apiSend message.chatID])
  else if message.command = "clients" then .ok (b.listClients s message.chatID)
  else .ok (s, [.apiSend message.chatID])

/-- Go `Bot.handleCallback`; the prompts and menus (`cmd`, `showimg`, `files`,
`registry`) send one message each. -/
def Bot.handleCallback (b : Bot) (s : Server) (now : Time) (callback : CallbackQuery) :
    Except Panic (Server × List BotCall) :=
  if !b.isAdmin callback.fromID then .ok (s, [])
  else
    match splitAll ':' callback.data.data with
    | actionRunes :: clientRunes :: _ =>
      let action := String.mk actionRunes
      let clientID := String.mk clientRunes
      let done (r : Server × List BotCall) : Except Panic (Server × List BotCall) :=
        .ok (r.1, r.2 ++ [.apiRequest callback.id])
      if action = "select" then done (b.showClientMenu s callback.chatID clientID)
      else if action = "cmd" then done (s, [.apiSend callback.chatID])
      else if action = "screenshot" then
        match b.requestScreenshot s now callback.chatID clientID with
        | .error e => .error e
        | .ok r => done r
      else if action = "webcam" then
        match b.requestWebcam s now callback.chatID clientID with
        | .error e => .error e
        | .ok r => done r
      else if action = "showimg" then done (s, [.apiSend callback.chatID])
      else if action = "files" then done (s, [.apiSend callback.chatID])
      else if action = "registry" then done (s, [.apiSend callback.chatID])
      else if action = "back" then done (b.listClients s callback.chatID)
      else done (s, [])
    | _ => .ok (s, [])

/-- A bot with one admin, user 42. -/
def demoBot : Bot := ⟨[42]⟩

/-- Go `unicode.IsSpace`. -/
def isSpace (c : Char) : Bool :=
  let n := c.toNat
  n = 0x09 || n = 0x0A || n = 0x0B || n = 0x0C || n = 0x0D || n = 0x20 || n = 0x85 ||
  n = 0xA0 || n = 0x1680 || (0x2000 ≤ n && n ≤ 0x200A) || n = 0x2028 || n = 0x2029 ||
  n = 0x202F || n = 0x205F || n = 0x3000

/-- Go `strings.TrimSpace`, on the runes of the string. -/
def TrimSpace (s : List Char) : List Char :=
  ((s.dropWhile isSpace).reverse.dropWhile isSpace).reverse

/-- The digit loop of Go `strconv.ParseUint(s, 10, 64)`: `none` for a rune that
is not a decimal digit and when the value leaves the `uint64` range. -/
def parseUintLoop (n : Nat) : List Char → Option Nat
  | [] => some n
  | c :: cs =>
    if c.isDigit then
      if 1844674407370955162 ≤ n then none
      else if 18446744073709551615 < n * 10 + (c.toNat - 48) then none
      else parseUintLoop (n * 10 + (c.toNat - 48)) cs
    else none

/-- Go `strconv.ParseUint(s, 10, 64)`; `none` for any error. -/
def ParseUint (s : List Char) : Option Nat :=
  if s = [] then none else parseUintLoop 0 s

/-- Go `strconv.ParseInt(s, 10, 64)`; `none` for any error (`ParseAdminIDs`
treats all of them alike). -/
def ParseInt (s : List Char) : Option Int :=
  match s with
  | [] => none
  | c :: rest =>
    let neg : Bool := c = '-'
    match ParseUint (if c = '+' ∨ c = '-' then rest else c :: rest) with
    | none => none
    | some un =>
      if !neg && 9223372036854775808 ≤ un then none
      else if neg && 9223372036854775808 < un then none
      else some (if neg then -(un : Int) else (un : Int))

/-- The loop of Go `ParseAdminIDs` over the comma-separated parts. -/
def parseAdminLoop (ids : List Int) : List (List Char) → Except String (List Int)
  | [] => .ok ids
  | part :: rest =>
    if TrimSpace part = [] then parseAdminLoop ids rest
    else
      match ParseInt (TrimSpace part) with
      | none => .error ("invalid admin ID: " ++ String.mk (TrimSpace part))
      | some id => parseAdminLoop (ids ++ [id]) rest

/-- Go `ParseAdminIDs`. -/
def ParseAdminIDs (idsStr : String) : Except String (List Int) :=
  parseAdminLoop [] (splitAll ',' idsStr.data)

/-- The number a sequence of decimal digits denotes. -/
def decimalValue (digits : List Char) : Nat :=
  digits.foldl (fun acc c => acc * 10 + (c.toNat - 48)) 0

/-- The text `s` is a base-10 integer in the `int64` range and `n` is its
value: an optional sign followed by one or more decimal digits. -/
def IsDecimalInt64 (s : List Char) (n : Int) : Prop :=
  ∃ (neg : Bool) (digits : List Char),
    digits ≠ [] ∧ (∀ c ∈ digits, c.isDigit = true) ∧
    (s = digits ∧ neg = false ∨ s = '+' :: digits ∧ neg = false ∨
      s = '-' :: digits ∧ neg = true) ∧
    n = (if neg then -(decimalValue digits : Int) else (decimalValue digits : Int)) ∧
    isInt64 n = true

/-- The decimal rendering of an integer. -/
def renderInt : Int → List Char
  | .ofNat m => Nat.toDigits 10 m
  | .negSucc m => '-' :: Nat.toDigits 10 (m + 1)

/-- Texts joined by a separator (Go `strings.Join`). -/
def joinWith (sep : Char) : List (List Char) → List Char
  | [] => []
  | [part] => part
  | part :: next :: rest => part ++ sep :: joinWith sep (next :: rest)

/-- The separator of registry key paths, the backslash. -/
def backslash : Char := Char.ofNat 92

/-- The ten root names `parseRegistryKey` knows, full names and abbreviations,
each with its root. -/
def rootTable : List (String × RootKey) :=
  [("HKEY_CLASSES_ROOT", .CLASSES_ROOT), ("HKCR", .CLASSES_ROOT),
   ("HKEY_CURRENT_USER", .CURRENT_USER), ("HKCU", .CURRENT_USER),
   ("HKEY_LOCAL_MACHINE", .LOCAL_MACHINE), ("HKLM", .LOCAL_MACHINE),
   ("HKEY_USERS", .USERS), ("HKU", .USERS),
   ("HKEY_CURRENT_CONFIG", .CURRENT_CONFIG), ("HKCC", .CURRENT_CONFIG)]

/-- A key path built from a root text, a backslash and a sub-key. -/
def keyPathOf (root subKey : String) : String :=
  String.mk (root.data ++ backslash :: subKey.data)

/-! ## The sequential orders of a removal and a `SendCommand` call -/

/-- The operations of `sendRaceScenario` in the sequential order that puts the
`SendCommand` call first: one agent is registered as "c1" (session 0), the call
`SendCommand("c1", whoami)` runs as a whole, then the connection drops, the
reader pump ends and `Run` processes the unregister event.  The result is the
final state and what `SendCommand` returned. -/
def sendThenRemove : Except Panic (Server × Option ServerError) :=
  match oneSession with
  | .error e => .error e
  | .ok s =>
    match s.SendCommand "c1" whoami with
    | .error e => .error e
    | .ok (s1, err) =>
      let r := s1.readPump 0 .failed 30
      match r.1.deliver r.2 with
      | .error e => .error e
      | .ok s2 => .ok (s2, err)

/-- The operations of `sendRaceScenario` in the sequential order that puts the
removal first: the connection of session 0 drops, the reader pump ends and
`Run` processes the unregister event, then `SendCommand("c1", whoami)` runs as
a whole. -/
def removeThenSend : Except Panic (Server × Option ServerError) :=
  match oneSession with
  | .error e => .error e
  | .ok s =>
    let r := s.readPump 0 .failed 30
    match r.1.deliver r.2 with
    | .error e => .error e
    | .ok s1 => s1.SendCommand "c1" whoami

/-! ## The frames that decoding refuses -/

/-- The members for which decoding an object into a `Message` fails, in the
words of the decoding rules: a member whose key selects the `type` field and
whose value is neither a string nor `null`, or whose key selects the
`timestamp` field and whose value is neither `null` nor an integer literal in
the range of `int64`.  No value is refused under a key that selects `payload`
or that selects no field. -/
def memberRejected (key : String) (v : JSON) : Bool :=
  if findField ["type", "payload", "timestamp"] key = some "type" then
    match v with
    | .str _ => false
    | .null => false
    | _ => true
  else if findField ["type", "payload", "timestamp"] key = some "timestamp" then
    match v with
    | .int n => !isInt64 n
    | .null => false
    | _ => true
  else false

/-- The frames for which decoding into a `Message` fails, in the words of the
decoding rules: a frame that cannot be read as JSON, a JSON value that is
neither an object nor `null`, and an object with a member that is refused. -/
def frameRejected : Frame → Bool
  | .failed => true
  | .value (.obj members) => members.any (fun kv => memberRejected kv.1 kv.2)
  | .value .null => false
  | .value _ => true

/-! ## Handler outcomes and the envelopes that report them -/

/-- The outcome of one handler run, in the words of the invocation contract: a
success result with its data, or a failure with a human-readable message and an
optional underlying cause; and, for a command that was started and failed, the
failure of the execution with the output it produced and the error text. -/
inductive Outcome where
  | success (data : String)
  | failure (message : String) (cause : Option String)
  | executionFailed (output error : String)

/-- One of the failures a handler reports: whether it occurs in this run, the
message reported and the underlying cause. -/
structure Check where
  failed : Bool
  message : String
  cause : Option String

/-- The failure of one outside call: it occurs when the `World` gives an error
text for the call, and that text is the cause. -/
def World.check (w : World) (call : ExtCall) (message : String) : Check :=
  ⟨(w.fails call).isSome, message, w.fails call⟩

/-- The failure of a registry key that `parseRegistryKey` refuses; the cause is
the text of its error. -/
def World.keyCheck (w : World) : Check :=
  match parseRegistryKey w.key with
  | .error err => ⟨true, "Invalid registry key", some err.text⟩
  | .ok _ => ⟨false, "Invalid registry key", none⟩

/-- The failure every registry handler reports on a build that is not for
Windows. -/
def unsupportedPlatform : Check :=
  ⟨true, "Registry operations are only supported on Windows", some "unsupported platform"⟩

/-- The table of the failures each capability reports, per handler and in the
order in which they are tested: payload parse failures, execution failures of
the outside calls, and the unsupported platform.  A registry value is read as
a string, else as an integer, else as binary data, and the read fails when all
three do; the result of a string read is serialized, the other two are not
checked.  A `dword` or `qword` is parsed before it is written, and only the six
data types listed are supported.  A registry delete with an empty value name
deletes the key, and otherwise opens the key and deletes the value. -/
def Handler.checks (w : World) : Handler → List Check
  | .handleCommand => [w.check .unmarshal "Failed to parse command"]
  | .handleScreenshot =>
    [⟨decide (w.displays = 0), "No active displays", none⟩,
     w.check .captureRect "Failed to capture screenshot",
     w.check .pngEncode "Failed to encode screenshot"]
  | .handleWebcam => [w.check .unmarshal "Failed to parse webcam payload"]
  | .handleShowImage =>
    [w.check .unmarshal "Failed to parse show image payload",
     w.check .writeFile "Failed to create HTML file",
     w.check .cmdStart "Failed to open image"]
  | .handleFileRead =>
    [w.check .unmarshal "Failed to parse file read payload",
     w.check .readFile ("Failed to read file " ++ w.path)]
  | .handleFileWrite =>
    [w.check .unmarshal "Failed to parse file write payload",
     w.check .base64Decode "Failed to decode file content",
     w.check .mkdirAll "Failed to create directory",
     w.check .writeFile ("Failed to write file " ++ w.path)]
  | .handleFileDelete =>
    [w.check .unmarshal "Failed to parse file delete payload",
     w.check .stat ("File/directory not found: " ++ w.path),
     w.check .remove ("Failed to delete " ++ w.path)]
  | .handleFileList =>
    [w.check .unmarshal "Failed to parse file list payload",
     w.check .readDir ("Failed to read directory " ++ w.path),
     w.check .marshal "Failed to serialize file list"]
  | .handleFileDownload =>
    [w.check .unmarshal "Failed to parse file download payload",
     w.check .stat ("File not found: " ++ w.path),
     ⟨w.isDir, "Cannot download directory", some "path is a directory"⟩,
     w.check .readFile ("Failed to read file " ++ w.path),
     w.check .marshal "Failed to serialize download result"]
  | .handleRegRead =>
    if w.windows then
      [w.check .unmarshal "Failed to parse registry read payload",
       w.keyCheck,
       w.check .openKey ("Failed to open registry key " ++ w.key),
       ⟨(w.fails .getStringValue).isSome && (w.fails .getIntegerValue).isSome &&
          (w.fails .getBinaryValue).isSome,
        "Failed to read registry value " ++ w.value, w.fails .getStringValue⟩,
       ⟨(w.fails .getStringValue).isNone && (w.fails .marshal).isSome,
        "Failed to serialize registry data", w.fails .marshal⟩]
    else [unsupportedPlatform]
  | .handleRegWrite =>
    if w.windows then
      [w.check .unmarshal "Failed to parse registry write payload",
       w.keyCheck,
       w.check .createKey ("Failed to create/open registry key " ++ w.key),
       ⟨ToLower w.dataType == "dword" && (w.fails .parseUint).isSome,
        "Invalid DWORD value", w.fails .parseUint⟩,
       ⟨ToLower w.dataType == "qword" && (w.fails .parseUint).isSome,
        "Invalid QWORD value", w.fails .parseUint⟩,
       ⟨!(["string", "sz", "expand_string", "expand_sz", "dword", "qword"].contains
          (ToLower w.dataType)),
        "Unsupported data type", some ("type: " ++ w.dataType)⟩,
       w.check .setValue ("Failed to write registry value " ++ w.value)]
    else [unsupportedPlatform]
  | .handleRegDelete =>
    if w.windows then
      [w.check .unmarshal "Failed to parse registry delete payload",
       w.keyCheck,
       ⟨w.value == "" && (w.fails .deleteKey).isSome,
        "Failed to delete registry key " ++ w.key, w.fails .deleteKey⟩,
       ⟨w.value != "" && (w.fails .openKey).isSome,
        "Failed to open registry key " ++ w.key, w.fails .openKey⟩,
       ⟨w.value != "" && (w.fails .deleteValue).isSome,
        "Failed to delete registry value " ++ w.value, w.fails .deleteValue⟩]
    else [unsupportedPlatform]
  | .handleRegList =>
    if w.windows then
      [w.check .unmarshal "Failed to parse registry list payload",
       w.keyCheck,
       w.check .openKey ("Failed to open registry key " ++ w.key),
       w.check .marshal "Failed to serialize registry list"]
    else [unsupportedPlatform]

/-- The data of a success result: a fixed text for the handlers that report
one, the data produced by the outside calls for the others. -/
def Handler.data (w : World) : Handler → String
  | .handleWebcam => "Webcam streaming not implemented yet"
  | .handleShowImage => "Image displayed"
  | .handleFileDelete => "Deleted successfully: " ++ w.path
  | _ => w.output

/-- The type tag each handler serves. -/
def Handler.tag : Handler → MessageType
  | .handleCommand => TypeCommand
  | .handleScreenshot => TypeScreenshot
  | .handleWebcam => TypeWebcam
  | .handleShowImage => TypeShowImage
  | .handleFileRead => TypeFileRead
  | .handleFileWrite => TypeFileWrite
  | .handleFileDelete => TypeFileDelete
  | .handleFileList => TypeFileList
  | .handleFileDownload => TypeFileDownload
  | .handleRegRead => TypeRegRead
  | .handleRegWrite => TypeRegWrite
  | .handleRegDelete => TypeRegDelete
  | .handleRegList => TypeRegList

/-- The outcome of a handler run: the first failure of its table that occurs,
if any; else, for a command whose execution fails, that failure; else success
with the handler's data. -/
def Handler.outcome (h : Handler) (w : World) : Outcome :=
  match (h.checks w).find? (fun k => k.failed) with
  | some k => .failure k.message k.cause
  | none =>
    match h, w.fails .combinedOutput with
    | .handleCommand, some err => .executionFailed w.output err
    | _, _ => .success (h.data w)

/-- The envelope that reports an outcome at time `now`: a `response` envelope
with `success = true` and the data for a success, a `response` envelope with
`success = false`, the output and the error text for a failed execution of a
command, and an `error` envelope with code "ERROR" and the failure message,
followed by its cause if it has one, for every other failure. -/
def Outcome.envelope (now : Time) : Outcome → Message
  | .success data => ⟨TypeResponse, .text (ResponsePayload.marshal true data ""), now⟩
  | .executionFailed output error =>
    ⟨TypeResponse, .text (ResponsePayload.marshal false output error), now⟩
  | .failure message none => ⟨TypeError, .text (ErrorPayload.marshal "ERROR" message), now⟩
  | .failure message (some cause) =>
    ⟨TypeError, .text (ErrorPayload.marshal "ERROR" (message ++ ": " ++ cause)), now⟩

/-! ## Lemmas on the registry map -/

theorem ClientMap.get_nil (k : String) : ClientMap.get [] k = none := rfl

theorem ClientMap.get_cons (a : String) (b : Ptr) (rest : ClientMap) (k : String) :
    ClientMap.get ((a, b) :: rest) k = if a = k then some b else ClientMap.get rest k := by
  by_cases h : a = k <;> simp [ClientMap.get, List.find?_cons, h]

theorem ClientMap.delete_cons (a : String) (b : Ptr) (rest : ClientMap) (k : String) :
    ClientMap.delete ((a, b) :: rest) k =
      if a = k then ClientMap.delete rest k else (a, b) :: ClientMap.delete rest k := by
  by_cases h : a = k <;> simp [ClientMap.delete, List.filter_cons, h]

theorem ClientMap.get_delete_same (m : ClientMap) (k : String) :
    (m.delete k).get k = none := by
  induction m with
  | nil => rfl
  | cons e rest ih =>
    obtain ⟨a, b⟩ := e
    rw [ClientMap.delete_cons]
    by_cases h : a = k
    · rw [if_pos h]; exact ih
    · rw [if_neg h, ClientMap.get_cons, if_neg h]; exact ih

theorem ClientMap.get_delete_ne (m : ClientMap) (k k1 : String) (h : k1 ≠ k) :
    (m.delete k).get k1 = m.get k1 := by
  induction m with
  | nil => rfl
  | cons e rest ih =>
    obtain ⟨a, b⟩ := e
    rw [ClientMap.delete_cons, ClientMap.get_cons]
    by_cases hk : a = k
    · have hne : ¬ a = k1 := fun h1 => h (h1.symm.trans hk)
      rw [if_pos hk, if_neg hne]; exact ih
    · rw [if_neg hk, ClientMap.get_cons]
      by_cases hk1 : a = k1
      · rw [if_pos hk1, if_pos hk1]
      · rw [if_neg hk1, if_neg hk1]; exact ih

theorem ClientMap.get_set_same (m : ClientMap) (k : String) (v : Ptr) :
    (m.set k v).get k = some v := by
  unfold ClientMap.set
  rw [ClientMap.get_cons, if_pos rfl]

theorem ClientMap.get_set_ne (m : ClientMap) (k k1 : String) (v : Ptr) (h : k1 ≠ k) :
    (m.set k v).get k1 = m.get k1 := by
  unfold ClientMap.set
  rw [ClientMap.get_cons, if_neg (fun h1 => h h1.symm)]
  exact ClientMap.get_delete_ne m k k1 h

theorem ClientMap.delete_of_get_none (m : ClientMap) (k : String) (h : m.get k = none) :
    m.delete k = m := by
  induction m with
  | nil => rfl
  | cons e rest ih =>
    obtain ⟨a, b⟩ := e
    rw [ClientMap.get_cons] at h
    by_cases hk : a = k
    · rw [if_pos hk] at h; cases h
    · rw [if_neg hk] at h
      rw [ClientMap.delete_cons, if_neg hk, ih h]

theorem ClientMap.mem_delete (m : ClientMap) (k : String) (e : String × Ptr) :
    e ∈ m.delete k ↔ e ∈ m ∧ e.1 ≠ k := by
  simp [ClientMap.delete]

theorem ClientMap.delete_delete (m : ClientMap) (k : String) :
    (m.delete k).delete k = m.delete k := by
  simp [ClientMap.delete, List.filter_filter]

theorem ClientMap.delete_set (m : ClientMap) (k : String) (v : Ptr) :
    (m.set k v).delete k = m.delete k := by
  unfold ClientMap.set
  rw [ClientMap.delete_cons, if_pos rfl, ClientMap.delete_delete]

/-! ## Lemmas on decoding -/

theorem findField_type : findField ["type", "payload", "timestamp"] "type" = some "type" := by
  decide

theorem findField_payload :
    findField ["type", "payload", "timestamp"] "payload" = some "payload" := by
  decide

theorem findField_timestamp :
    findField ["type", "payload", "timestamp"] "timestamp" = some "timestamp" := by
  decide

/-- Decoding the canonical three-member object. -/
theorem ReadJSON_canonical (t : String) (p : JSON) (n : Int) (hn : isInt64 n = true) :
    ReadJSON (.value (.obj [("type", .str t), ("payload", p), ("timestamp", .int n)])) =
      .ok ⟨t, .text p, n⟩ := by
  simp [ReadJSON, Message.unmarshal, Message.setFields, Message.setField, findField_type,
    findField_payload, findField_timestamp, storeString, storeInt64, hn, Message.zero,
    Except.map]

theorem Message.setField_isOk_indep (m m1 : Message) (k : String) (v : JSON) :
    (m.setField k v).isOk = (m1.setField k v).isOk := by
  unfold Message.setField
  cases findField ["type", "payload", "timestamp"] k with
  | none => rfl
  | some f =>
    simp only
    split
    · cases v <;> rfl
    · split
      · rfl
      · cases v with
        | int n => cases hn : isInt64 n <;> simp [storeInt64, hn, Except.map, Except.isOk, Except.toBool]
        | _ => rfl

theorem Message.setFields_isOk_indep (members : List (String × JSON)) (m m1 : Message) :
    (m.setFields members).isOk = (m1.setFields members).isOk := by
  induction members generalizing m m1 with
  | nil => rfl
  | cons kv rest ih =>
    obtain ⟨k, v⟩ := kv
    have h := Message.setField_isOk_indep m m1 k v
    unfold Message.setFields
    cases h1 : m.setField k v with
    | error e =>
      cases h2 : m1.setField k v with
      | error e2 => rfl
      | ok b => rw [h1, h2] at h; cases h
    | ok a =>
      cases h2 : m1.setField k v with
      | error e2 => rw [h1, h2] at h; cases h
      | ok b => exact ih a b

theorem Message.setFields_append (pre post : List (String × JSON)) (m : Message) :
    m.setFields (pre ++ post) =
      match m.setFields pre with
      | .ok m1 => m1.setFields post
      | .error e => .error e := by
  induction pre generalizing m with
  | nil => rfl
  | cons kv rest ih =>
    obtain ⟨k, v⟩ := kv
    simp only [List.cons_append, Message.setFields]
    cases m.setField k v with
    | error e => rfl
    | ok a => exact ih a

/-! ## Lemmas on `SendCommand` and the writer pump -/

theorem Server.SendCommand_room (s : Server) (clientID : String) (client : Ptr) (msg : Message)
    (hreg : s.clients.get clientID = some client) (hopen : (s.heap client).Send.closed = false)
    (hroom : (s.heap client).Send.buf.length < (s.heap client).Send.cap) :
    s.SendCommand clientID msg =
      .ok (s.store client { s.heap client with
          Send := { (s.heap client).Send with buf := (s.heap client).Send.buf ++ [msg] } },
        none) := by
  simp [Server.SendCommand, Server.GetClient, hreg, hopen, hroom]

theorem Server.SendCommand_full (s : Server) (clientID : String) (client : Ptr) (msg : Message)
    (hreg : s.clients.get clientID = some client) (hopen : (s.heap client).Send.closed = false)
    (hfull : ¬ (s.heap client).Send.buf.length < (s.heap client).Send.cap) :
    s.SendCommand clientID msg = .ok (s, some (.sendTimeout clientID)) := by
  simp [Server.SendCommand, Server.GetClient, hreg, hopen, hfull]

theorem Server.SendAll_undrained (msgs : List Message) (s : Server) (clientID : String)
    (client : Ptr) (room : Nat)
    (hreg : s.clients.get clientID = some client) (hopen : (s.heap client).Send.closed = false)
    (hroom : (s.heap client).Send.buf.length + room = (s.heap client).Send.cap) :
    ∃ s1, s.SendAll clientID msgs =
        .ok (s1, List.replicate (min msgs.length room) none ++
                 List.replicate (msgs.length - room) (some (.sendTimeout clientID))) ∧
      (s1.heap client).Send.buf = (s.heap client).Send.buf ++ msgs.take room ∧
      (s1.heap client).Send.cap = (s.heap client).Send.cap ∧
      (s1.heap client).Send.closed = false ∧
      s1.clients = s.clients := by
  induction msgs generalizing s room with
  | nil => exact ⟨s, by simp [Server.SendAll], by simp, rfl, hopen, rfl⟩
  | cons msg rest ih =>
    cases room with
    | zero =>
      have hfull : ¬ (s.heap client).Send.buf.length < (s.heap client).Send.cap := by omega
      obtain ⟨s1, h1, h2, h3, h4, h5⟩ := ih s 0 hreg hopen hroom
      refine ⟨s1, ?_, ?_, h3, h4, h5⟩
      · simp only [Server.SendAll, Server.SendCommand_full s clientID client msg hreg hopen hfull,
          h1]
        simp [List.replicate_succ]
      · simpa using h2
    | succ k =>
      have hlt : (s.heap client).Send.buf.length < (s.heap client).Send.cap := by omega
      have hstep := Server.SendCommand_room s clientID client msg hreg hopen hlt
      obtain ⟨s1, h1, h2, h3, h4, h5⟩ := ih
        (s.store client { s.heap client with
          Send := { (s.heap client).Send with buf := (s.heap client).Send.buf ++ [msg] } })
        k (by simpa [Server.store] using hreg) (by simpa [Server.store] using hopen)
        (by simp [Server.store]; omega)
      refine ⟨s1, ?_, ?_, ?_, h4, ?_⟩
      · simp only [Server.SendAll, hstep, h1]
        simp [List.replicate_succ, Nat.succ_min_succ]
      · simpa [Server.store] using h2
      · simpa [Server.store] using h3
      · simpa [Server.store] using h5

theorem envelopes_append (a b : List WireFrame) :
    envelopes (a ++ b) = envelopes a ++ envelopes b := by
  induction a with
  | nil => rfl
  | cons f rest ih => cases f <;> simp [envelopes, ih]

theorem WSConn.WriteJSON_envelopes (c : WSConn) (transportOk : Bool) (m : Message) :
    envelopes (c.WriteJSON transportOk m).1.written =
      if (c.WriteJSON transportOk m).2 then envelopes c.written ++ [m]
      else envelopes c.written := by
  unfold WSConn.WriteJSON
  by_cases h : (c.closed || !transportOk) = true
  · simp [h]
  · cases m.marshal with
    | error e => simp [h, envelopes_append, envelopes]
    | ok j => simp [h, envelopes_append, envelopes]

theorem WSConn.WriteMessage_ping_envelopes (c : WSConn) (transportOk : Bool) :
    envelopes (c.WriteMessage transportOk .ping).1.written = envelopes c.written := by
  unfold WSConn.WriteMessage
  by_cases h : (c.closed || !transportOk) = true
  · simp [h]
  · simp [h, envelopes_append, envelopes]

theorem WSConn.WriteMessage_close_envelopes (c : WSConn) (transportOk : Bool) :
    envelopes (c.WriteMessage transportOk .close).1.written = envelopes c.written := by
  unfold WSConn.WriteMessage
  by_cases h : (c.closed || !transportOk) = true
  · simp [h]
  · simp [h, envelopes_append, envelopes]

/-- What one `writePump` iteration does to the registry map, the queue and the
envelopes on the transport of its session. -/
theorem Server.writePump_effect (s : Server) (client : Ptr) (case : PumpCase)
    (transportOk : Bool) (now : Time) (hopen : (s.heap client).Send.closed = false) :
    (s.writePump client case transportOk now).1.clients = s.clients ∧
    ((s.writePump client case transportOk now).1.heap client).Send.closed = false ∧
    (∃ lost,
      envelopes ((s.writePump client case transportOk now).1.heap client).Conn.written ++ lost ++
        ((s.writePump client case transportOk now).1.heap client).Send.buf =
      envelopes (s.heap client).Conn.written ++ (s.heap client).Send.buf ∧
      ((s.writePump client case transportOk now).2 = true → lost = [])) := by
  cases case with
  | tick =>
    have hw := WSConn.WriteMessage_ping_envelopes
      { (s.heap client).Conn with writeDeadline := some (now + 10) } transportOk
    simp only [Server.writePump]
    split
    · refine ⟨rfl, by simpa [Server.store] using hopen, [], ?_, fun _ => rfl⟩
      simpa [Server.store] using hw
    · refine ⟨rfl, by simpa [Server.store] using hopen, [], ?_, fun _ => rfl⟩
      simpa [Server.store, WSConn.Close] using hw
  | recv =>
    simp only [Server.writePump]
    cases hb : (s.heap client).Send.buf with
    | nil =>
      simp only [hopen]
      exact ⟨rfl, hopen, [], by simp [hb], fun _ => rfl⟩
    | cons message rest =>
      have hw := WSConn.WriteJSON_envelopes
        { (s.heap client).Conn with writeDeadline := some (now + 10) } transportOk message
      simp only
      split
      · rename_i hok
        rw [if_pos hok] at hw
        refine ⟨rfl, by simpa [Server.store] using hopen, [], ?_, fun _ => rfl⟩
        simp [Server.store, hw]
      · rename_i hok
        rw [if_neg hok] at hw
        refine ⟨rfl, by simpa [Server.store] using hopen, [message], ?_, fun h => by cases h⟩
        simp [Server.store, WSConn.Close, hw]

theorem SessionRun.step_fifo (clientID : String) (client : Ptr) (base : List Message)
    (r : SessionRun) (op : SessionOp)
    (hreg : r.server.clients.get clientID = some client)
    (hopen : (r.server.heap client).Send.closed = false)
    (hinv : ∃ lost, envelopes (r.server.heap client).Conn.written ++ lost ++
        (r.server.heap client).Send.buf = base ++ r.accepted ∧
        (r.pumpRunning = true → lost = [])) :
    ∃ r1, r.step clientID client op = .ok r1 ∧
      r1.server.clients.get clientID = some client ∧
      (r1.server.heap client).Send.closed = false ∧
      ∃ lost, envelopes (r1.server.heap client).Conn.written ++ lost ++
        (r1.server.heap client).Send.buf = base ++ r1.accepted ∧
        (r1.pumpRunning = true → lost = []) := by
  obtain ⟨lost, heq, hlost⟩ := hinv
  cases op with
  | send msg =>
    by_cases hroom : (r.server.heap client).Send.buf.length < (r.server.heap client).Send.cap
    · refine ⟨{ r with
          server := r.server.store client { r.server.heap client with
            Send := { (r.server.heap client).Send with
              buf := (r.server.heap client).Send.buf ++ [msg] } },
          accepted := r.accepted ++ [msg] },
        by simp only [SessionRun.step,
          Server.SendCommand_room r.server clientID client msg hreg hopen hroom], ?_, ?_, lost,
          ?_, hlost⟩
      · simpa [Server.store] using hreg
      · simpa [Server.store] using hopen
      · simp only [Server.store, if_true]
        rw [← List.append_assoc, heq, List.append_assoc]
    · exact ⟨r, by simp only [SessionRun.step,
          Server.SendCommand_full r.server clientID client msg hreg hopen hroom], hreg, hopen,
          lost, heq, hlost⟩
  | pump case transportOk now =>
    cases hrun : r.pumpRunning with
    | false =>
      refine ⟨r, by simp [SessionRun.step, hrun], hreg, hopen, lost, heq, ?_⟩
      intro h; rw [hrun] at h; cases h
    | true =>
      obtain ⟨h1, h2, lost1, h3, h4⟩ :=
        Server.writePump_effect r.server client case transportOk now hopen
      have hl : lost = [] := hlost hrun
      subst hl
      refine ⟨{ r with
          server := (r.server.writePump client case transportOk now).1,
          pumpRunning := (r.server.writePump client case transportOk now).2 },
        by simp only [SessionRun.step, hrun, if_true], ?_, h2, lost1, ?_, h4⟩
      · show (r.server.writePump client case transportOk now).1.clients.get clientID = some client
        rw [h1]; exact hreg
      · show envelopes ((r.server.writePump client case transportOk now).1.heap client).Conn.written
            ++ lost1 ++ ((r.server.writePump client case transportOk now).1.heap client).Send.buf
            = base ++ r.accepted
        rw [h3, ← heq, List.append_nil]

theorem SessionRun.steps_fifo (clientID : String) (client : Ptr) (base : List Message)
    (ops : List SessionOp) (r : SessionRun)
    (hreg : r.server.clients.get clientID = some client)
    (hopen : (r.server.heap client).Send.closed = false)
    (hinv : ∃ lost, envelopes (r.server.heap client).Conn.written ++ lost ++
        (r.server.heap client).Send.buf = base ++ r.accepted ∧
        (r.pumpRunning = true → lost = [])) :
    ∃ r1, SessionRun.steps clientID client r ops = .ok r1 ∧
      ∃ lost, envelopes (r1.server.heap client).Conn.written ++ lost ++
        (r1.server.heap client).Send.buf = base ++ r1.accepted ∧
        (r1.pumpRunning = true → lost = []) := by
  induction ops generalizing r with
  | nil => exact ⟨r, rfl, hinv⟩
  | cons op rest ih =>
    obtain ⟨r1, hstep, hreg1, hopen1, hinv1⟩ :=
      SessionRun.step_fifo clientID client base r op hreg hopen hinv
    obtain ⟨r2, hsteps, hinv2⟩ := ih r1 hreg1 hopen1 hinv1
    exact ⟨r2, by simp only [SessionRun.steps, hstep, hsteps], hinv2⟩

/-! ## The registry invariant is kept by every operation -/

theorem NewServer_valid : NewServer.Valid :=
  ⟨fun e he => (by cases he), fun e he => (by cases he)⟩

/-- A step that keeps the map, does not lower `next` and keeps every session's
ID keeps the invariant. -/
theorem Server.Valid.of_same_ids (s s1 : Server) (hv : s.Valid)
    (hc : s1.clients = s.clients) (hn : s.next ≤ s1.next)
    (hid : ∀ q, (s1.heap q).ID = (s.heap q).ID) : s1.Valid := by
  refine ⟨fun e he => ?_, fun e he => ?_⟩
  · rw [hc] at he; rw [hid]; exact hv.1 e he
  · rw [hc] at he; exact Nat.lt_of_lt_of_le (hv.2 e he) hn

theorem Server.Run_valid (s s1 : Server) (ev : Event) (hv : s.Valid)
    (hev : match ev with | .register c => c < s.next | .unregister c => c < s.next)
    (hrun : s.Run ev = .ok s1) : s1.Valid := by
  cases ev with
  | register c =>
    simp only [Server.Run, Except.ok.injEq] at hrun
    subst hrun
    refine ⟨fun e he => ?_, fun e he => ?_⟩
    · rcases List.mem_cons.1 he with h | h
      · subst h; rfl
      · exact hv.1 e ((ClientMap.mem_delete _ _ _).1 h).1
    · rcases List.mem_cons.1 he with h | h
      · subst h; exact hev
      · exact hv.2 e ((ClientMap.mem_delete _ _ _).1 h).1
  | unregister c =>
    simp only [Server.Run] at hrun
    cases hg : s.clients.get (s.heap c).ID with
    | none => rw [hg] at hrun; cases hrun; exact hv
    | some q =>
      rw [hg] at hrun
      cases hc : (s.heap c).Send.close with
      | error e => rw [hc] at hrun; cases hrun
      | ok ch =>
        rw [hc] at hrun
        cases hrun
        refine ⟨fun e he => ?_, fun e he => ?_⟩
        · have hm := ((ClientMap.mem_delete _ _ _).1 he).1
          have := hv.1 e hm
          by_cases hq : e.2 = c
          · simpa [Server.store, hq] using (hq ▸ this)
          · simpa [Server.store, hq] using this
        · exact hv.2 e ((ClientMap.mem_delete _ _ _).1 he).1

theorem Server.HandleWebSocket_valid (s : Server) (upgradeOk : Bool) (first : Frame)
    (now : Time) (hv : s.Valid) : (s.HandleWebSocket upgradeOk first now).server.Valid := by
  have key : ∀ c : ConnectedClient, ({ s with next := s.next + 1 }.store s.next c).Valid := by
    intro c
    refine ⟨fun e he => ?_, fun e he => Nat.lt_succ_of_lt (hv.2 e he)⟩
    have hne : e.2 ≠ s.next := Nat.ne_of_lt (hv.2 e he)
    simpa [Server.store, hne] using hv.1 e he
  unfold Server.HandleWebSocket
  cases upgradeOk with
  | false => exact hv
  | true =>
    simp only [Bool.not_true, Bool.false_eq_true, if_false]
    split
    · exact key _
    · split
      · exact key _
      · split
        · exact key _
        · exact key _

theorem Server.SendCommand_valid (s s1 : Server) (clientID : String) (msg : Message)
    (r : Option ServerError) (hv : s.Valid) (h : s.SendCommand clientID msg = .ok (s1, r)) :
    s1.Valid := by
  unfold Server.SendCommand at h
  split at h
  · cases h; exact hv
  · rename_i client _
    simp only at h
    split at h
    · cases h
    · split at h
      · cases h
        refine Server.Valid.of_same_ids s _ hv rfl (Nat.le_refl _) (fun q => ?_)
        by_cases hq : q = client
        · simp [Server.store, hq]
        · simp [Server.store, hq]
      · cases h; exact hv

theorem Server.readPump_valid (s : Server) (client : Ptr) (frame : Frame) (now : Time)
    (hv : s.Valid) : (s.readPump client frame now).1.Valid := by
  unfold Server.readPump
  split
  · refine Server.Valid.of_same_ids s _ hv rfl (Nat.le_refl _) (fun q => ?_)
    by_cases hq : q = client
    · simp [Server.store, hq]
    · simp [Server.store, hq]
  · refine Server.Valid.of_same_ids s _ hv rfl (Nat.le_refl _) (fun q => ?_)
    by_cases hq : q = client
    · simp [Server.store, hq]
    · simp [Server.store, hq]

theorem Server.writePump_valid (s : Server) (client : Ptr) (case : PumpCase)
    (transportOk : Bool) (now : Time) (hv : s.Valid) :
    (s.writePump client case transportOk now).1.Valid := by
  have key : ∀ (conn : WSConn) (ch : MsgChan),
      (s.store client { s.heap client with Send := ch, Conn := conn }).Valid := by
    intro conn ch
    refine Server.Valid.of_same_ids s _ hv rfl (Nat.le_refl _) (fun q => ?_)
    by_cases hq : q = client
    · simp [Server.store, hq]
    · simp [Server.store, hq]
  unfold Server.writePump
  cases case with
  | recv =>
    simp only
    split
    · split
      · exact key _ _
      · exact key _ _
    · split
      · exact key _ _
      · exact hv
  | tick =>
    simp only
    split
    · exact key _ _
    · exact key _ _

/-! ## Reachable states: unique keys and the registry invariant -/

theorem ClientMap.nodup_delete (m : ClientMap) (k : String)
    (h : (m.map (fun e => e.1)).Nodup) : ((m.delete k).map (fun e => e.1)).Nodup :=
  h.sublist ((List.filter_sublist m).map _)

theorem ClientMap.nodup_set (m : ClientMap) (k : String) (v : Ptr)
    (h : (m.map (fun e => e.1)).Nodup) : ((m.set k v).map (fun e => e.1)).Nodup := by
  unfold ClientMap.set
  rw [List.map_cons, List.nodup_cons]
  refine ⟨?_, ClientMap.nodup_delete m k h⟩
  intro hk
  obtain ⟨e, he, hek⟩ := List.mem_map.1 hk
  exact ((ClientMap.mem_delete m k e).1 he).2 hek

theorem ClientMap.get_eq_none_iff (m : ClientMap) (k : String) :
    m.get k = none ↔ ∀ e ∈ m, e.1 ≠ k := by
  induction m with
  | nil => simp [ClientMap.get_nil]
  | cons e rest ih =>
    obtain ⟨a, b⟩ := e
    rw [ClientMap.get_cons]
    by_cases h : a = k
    · simp [h]
    · simp [h, ih]

theorem ClientMap.mem_of_get (m : ClientMap) (k : String) (p : Ptr)
    (h : m.get k = some p) : (k, p) ∈ m := by
  induction m with
  | nil => simp [ClientMap.get_nil] at h
  | cons e rest ih =>
    obtain ⟨a, b⟩ := e
    rw [ClientMap.get_cons] at h
    by_cases hk : a = k
    · rw [if_pos hk] at h
      cases h
      subst hk
      exact List.mem_cons_self _ _
    · rw [if_neg hk] at h
      exact List.mem_cons_of_mem _ (ih h)

theorem ClientMap.get_of_mem (m : ClientMap) (k : String) (p : Ptr)
    (hnd : (m.map (fun e => e.1)).Nodup) (h : (k, p) ∈ m) : m.get k = some p := by
  induction m with
  | nil => cases h
  | cons e rest ih =>
    obtain ⟨a, b⟩ := e
    rw [List.map_cons, List.nodup_cons] at hnd
    rw [ClientMap.get_cons]
    rcases List.mem_cons.1 h with heq | hmem
    · cases heq
      rw [if_pos rfl]
    · have hne : ¬ a = k := by
        intro hak
        apply hnd.1
        rw [hak]
        exact List.mem_map.2 ⟨(k, p), hmem, rfl⟩
      rw [if_neg hne]
      exact ih hnd.2 hmem

theorem Server.HandleWebSocket_clients (s : Server) (upgradeOk : Bool) (first : Frame)
    (now : Time) : (s.HandleWebSocket upgradeOk first now).server.clients = s.clients := by
  unfold Server.HandleWebSocket
  cases upgradeOk with
  | false => rfl
  | true =>
    simp only [Bool.not_true, Bool.false_eq_true, if_false]
    split
    · rfl
    · split
      · rfl
      · split
        · rfl
        · rfl

theorem Server.SendCommand_clients (s s1 : Server) (clientID : String) (msg : Message)
    (r : Option ServerError) (h : s.SendCommand clientID msg = .ok (s1, r)) :
    s1.clients = s.clients := by
  unfold Server.SendCommand at h
  split at h
  · cases h; rfl
  · simp only at h
    split at h
    · cases h
    · split at h
      · cases h; rfl
      · cases h; rfl

theorem Server.writePump_clients (s : Server) (client : Ptr) (case : PumpCase)
    (transportOk : Bool) (now : Time) :
    (s.writePump client case transportOk now).1.clients = s.clients := by
  unfold Server.writePump
  cases case with
  | recv =>
    simp only
    split
    · split <;> rfl
    · split <;> rfl
  | tick =>
    simp only
    split <;> rfl

theorem Server.readPump_clients (s : Server) (client : Ptr) (frame : Frame) (now : Time) :
    (s.readPump client frame now).1.clients = s.clients := by
  unfold Server.readPump
  split <;> rfl

theorem Server.Run_nodup (s s1 : Server) (ev : Event)
    (h : (s.clients.map (fun e => e.1)).Nodup) (hrun : s.Run ev = .ok s1) :
    (s1.clients.map (fun e => e.1)).Nodup := by
  cases ev with
  | register c =>
    simp only [Server.Run, Except.ok.injEq] at hrun
    subst hrun
    exact ClientMap.nodup_set _ _ _ h
  | unregister c =>
    simp only [Server.Run] at hrun
    cases hg : s.clients.get (s.heap c).ID with
    | none => rw [hg] at hrun; cases hrun; exact h
    | some q =>
      rw [hg] at hrun
      cases hc : (s.heap c).Send.close with
      | error e => rw [hc] at hrun; cases hrun
      | ok ch =>
        rw [hc] at hrun
        cases hrun
        exact ClientMap.nodup_delete _ _ h

/-- Every reachable state files each session under its own ID, points only to
allocated sessions and has no two entries under one key. -/
theorem Server.Reachable.invariant (s : Server) (h : s.Reachable) :
    s.Valid ∧ (s.clients.map (fun e => e.1)).Nodup := by
  induction h with
  | init => exact ⟨NewServer_valid, List.nodup_nil⟩
  | connect s upgradeOk first now _ ih =>
    refine ⟨Server.HandleWebSocket_valid s upgradeOk first now ih.1, ?_⟩
    rw [Server.HandleWebSocket_clients]; exact ih.2
  | run s s1 ev _ hev hrun ih =>
    refine ⟨Server.Run_valid s s1 ev ih.1 ?_ hrun, Server.Run_nodup s s1 ev ih.2 hrun⟩
    cases ev <;> exact hev
  | send s s1 clientID msg r _ hsend ih =>
    refine ⟨Server.SendCommand_valid s s1 clientID msg r ih.1 hsend, ?_⟩
    rw [Server.SendCommand_clients s s1 clientID msg r hsend]; exact ih.2
  | write s client case transportOk now _ ih =>
    refine ⟨Server.writePump_valid s client case transportOk now ih.1, ?_⟩
    rw [Server.writePump_clients]; exact ih.2
  | read s client frame now _ ih =>
    refine ⟨Server.readPump_valid s client frame now ih.1, ?_⟩
    rw [Server.readPump_clients]; exact ih.2

/-! ## Disciplined event sequences -/

/-- `SendCommand` cannot panic when every session in the registry has an open
queue. -/
theorem Server.SendCommand_no_panic (s : Server)
    (hopen : ∀ e ∈ s.clients, (s.heap e.2).Send.closed = false)
    (clientID : String) (msg : Message) : ∃ r, s.SendCommand clientID msg = .ok r := by
  unfold Server.SendCommand Server.GetClient
  cases hg : s.clients.get clientID with
  | none => exact ⟨_, rfl⟩
  | some client =>
    have hc := hopen _ (ClientMap.mem_of_get _ _ _ hg)
    simp only at hc
    simp only [hc, Bool.false_eq_true, if_false]
    split
    · exact ⟨_, rfl⟩
    · exact ⟨_, rfl⟩

theorem disciplined_register (registered unregistered : List Ptr) (c : Ptr)
    (rest : List Event) :
    disciplined registered unregistered (.register c :: rest) = true ↔
      c ∉ registered ∧ disciplined (c :: registered) unregistered rest = true := by
  simp [disciplined]

theorem disciplined_unregister (registered unregistered : List Ptr) (c : Ptr)
    (rest : List Event) :
    disciplined registered unregistered (.unregister c :: rest) = true ↔
      c ∈ registered ∧ c ∉ unregistered ∧
        disciplined registered (c :: unregistered) rest = true := by
  simp [disciplined, and_assoc]

/-- The invariant carried along a disciplined sequence: entries are filed under
their session's ID and are sessions registered and not yet unregistered;
unregistered sessions were registered; and a session not yet unregistered that
is registered or still to come has an open queue. -/
theorem Server.RunAll_disciplined (pre : List Event) (s : Server)
    (registered unregistered : List Ptr) (post : List Event)
    (hkeyed : s.Keyed)
    (hentries : ∀ e ∈ s.clients, e.2 ∈ registered ∧ e.2 ∉ unregistered)
    (hsub : ∀ p ∈ unregistered, p ∈ registered)
    (hopen : ∀ p, p ∉ unregistered →
      (p ∈ registered ∨ ∃ ev ∈ pre ++ post, ev.client = p) → (s.heap p).Send.closed = false)
    (hdisc : disciplined registered unregistered (pre ++ post) = true) :
    ∃ s1, s.RunAll pre = .ok s1 ∧ ∀ e ∈ s1.clients, (s1.heap e.2).Send.closed = false := by
  induction pre generalizing s registered unregistered with
  | nil =>
    exact ⟨s, rfl, fun e he => hopen e.2 (hentries e he).2 (Or.inl (hentries e he).1)⟩
  | cons ev rest ih =>
    cases ev with
    | register c =>
      rw [List.cons_append, disciplined_register] at hdisc
      obtain ⟨hcreg, hrest⟩ := hdisc
      have hstep : s.Run (.register c) =
          .ok { s with clients := s.clients.set (s.heap c).ID c } := rfl
      obtain ⟨s1, hrun, hall⟩ := ih { s with clients := s.clients.set (s.heap c).ID c }
        (c :: registered) unregistered
        (by
          intro e he
          rcases List.mem_cons.1 he with h | h
          · subst h; rfl
          · exact hkeyed e ((ClientMap.mem_delete _ _ _).1 h).1)
        (by
          intro e he
          rcases List.mem_cons.1 he with h | h
          · subst h
            exact ⟨List.mem_cons_self _ _, fun hu => hcreg (hsub c hu)⟩
          · have := hentries e ((ClientMap.mem_delete _ _ _).1 h).1
            exact ⟨List.mem_cons_of_mem _ this.1, this.2⟩)
        (fun p hp => List.mem_cons_of_mem _ (hsub p hp))
        (by
          intro p hp hor
          apply hopen p hp
          rcases hor with h | ⟨ev, hev, hevp⟩
          · rcases List.mem_cons.1 h with h1 | h1
            · exact Or.inr ⟨.register c, List.mem_cons_self _ _, h1.symm⟩
            · exact Or.inl h1
          · exact Or.inr ⟨ev, List.mem_cons_of_mem _ hev, hevp⟩)
        hrest
      exact ⟨s1, by simp only [Server.RunAll, hstep, hrun], hall⟩
    | unregister x =>
      rw [List.cons_append, disciplined_unregister] at hdisc
      obtain ⟨hx, hcun, hrest⟩ := hdisc
      have hcopen : (s.heap x).Send.closed = false := hopen x hcun (Or.inl hx)
      cases hg : s.clients.get (s.heap x).ID with
      | none =>
        have hstep : s.Run (.unregister x) = .ok s := by simp [Server.Run, hg]
        obtain ⟨s1, hrun, hall⟩ := ih s registered (x :: unregistered) hkeyed
          (by
            intro e he
            refine ⟨(hentries e he).1, ?_⟩
            intro hmem
            rcases List.mem_cons.1 hmem with h | h
            · have hkey := hkeyed e he
              rw [h] at hkey
              exact (ClientMap.get_eq_none_iff _ _).1 hg e he hkey.symm
            · exact (hentries e he).2 h)
          (by
            intro p hp
            rcases List.mem_cons.1 hp with h | h
            · rw [h]; exact hx
            · exact hsub p h)
          (by
            intro p hp hor
            apply hopen p (fun h => hp (List.mem_cons_of_mem _ h))
            rcases hor with h | ⟨ev, hev, hevp⟩
            · exact Or.inl h
            · exact Or.inr ⟨ev, List.mem_cons_of_mem _ hev, hevp⟩)
          hrest
        exact ⟨s1, by simp only [Server.RunAll, hstep, hrun], hall⟩
      | some q =>
        have hstep : s.Run (.unregister x) =
            .ok ({ s with clients := s.clients.delete (s.heap x).ID }.store x
              { s.heap x with Send := { (s.heap x).Send with closed := true } }) := by
          simp [Server.Run, hg, MsgChan.close, hcopen]
        obtain ⟨s1, hrun, hall⟩ := ih
          ({ s with clients := s.clients.delete (s.heap x).ID }.store x
              { s.heap x with Send := { (s.heap x).Send with closed := true } })
          registered (x :: unregistered)
          (by
            intro e he
            have hm := ((ClientMap.mem_delete _ _ _).1 he).1
            have := hkeyed e hm
            by_cases hq : e.2 = x
            · simpa [Server.store, hq] using (hq ▸ this)
            · simpa [Server.store, hq] using this)
          (by
            intro e he
            have hm := (ClientMap.mem_delete _ _ _).1 he
            refine ⟨(hentries e hm.1).1, ?_⟩
            intro hmem
            rcases List.mem_cons.1 hmem with h | h
            · have hkey := hkeyed e hm.1
              rw [h] at hkey
              exact hm.2 hkey.symm
            · exact (hentries e hm.1).2 h)
          (by
            intro p hp
            rcases List.mem_cons.1 hp with h | h
            · rw [h]; exact hx
            · exact hsub p h)
          (by
            intro p hp hor
            have hne : p ≠ x := fun h => hp (h ▸ List.mem_cons_self _ _)
            have : (s.heap p).Send.closed = false := by
              apply hopen p (fun h => hp (List.mem_cons_of_mem _ h))
              rcases hor with h | ⟨ev, hev, hevp⟩
              · exact Or.inl h
              · exact Or.inr ⟨ev, List.mem_cons_of_mem _ hev, hevp⟩
            simpa [Server.store, hne] using this)
          hrest
        exact ⟨s1, by simp only [Server.RunAll, hstep, hrun], hall⟩

/-- From a state with an empty registry in which the sessions concerned
have open queues, for every sequence of register and unregister events that
follows the discipline (each session registered at most once, unregistered at
most once and only after its registration; sessions may share an ID) and every
initial segment `pre` of it: `Run` processes `pre` without panic (so no queue is
closed twice), every session then present in the registry has an open queue,
and no `SendCommand` call that runs as a whole in that state panics by sending
on a closed queue. -/
theorem Server.disciplined_queues_open (s0 : Server) (pre post : List Event)
    (hempty : s0.clients = [])
    (hopen : ∀ ev ∈ pre ++ post, (s0.heap ev.client).Send.closed = false)
    (hdisc : disciplined [] [] (pre ++ post) = true) :
    ∃ s, s0.RunAll pre = .ok s ∧
      (∀ e ∈ s.clients, (s.heap e.2).Send.closed = false) ∧
      (∀ clientID msg, ∃ r, s.SendCommand clientID msg = .ok r) := by
  obtain ⟨s, hrun, hall⟩ := Server.RunAll_disciplined pre s0 [] [] post
    (by intro e he; rw [hempty] at he; cases he)
    (by intro e he; rw [hempty] at he; cases he)
    (by intro p hp; cases hp)
    (by
      intro p _ hor
      rcases hor with h | ⟨ev, hev, hevp⟩
      · cases h
      · rw [← hevp]; exact hopen ev hev)
    hdisc
  exact ⟨s, hrun, hall, Server.SendCommand_no_panic s hall⟩

/-- `SendCommand` is the lookup followed by the `select`. -/
theorem Server.SendCommand_eq_lookup_then_select (s : Server) (clientID : String)
    (msg : Message) :
    s.SendCommand clientID msg =
      match s.GetClient clientID with
      | .error err => .ok (s, some err)
      | .ok client => s.sendSelect client clientID msg := by
  unfold Server.SendCommand Server.sendSelect
  cases s.GetClient clientID <;> rfl

/-! ## Lemmas on the agent's replies -/

theorem Client.sendResponse_written (c : Client) (w : World) (success : Bool)
    (data errMsg : String) (hopen : c.conn.closed = false) (hok : w.transportOk = true) :
    (c.sendResponse w success data errMsg).conn.written =
      c.conn.written ++
        [.json ⟨TypeResponse, .text (ResponsePayload.marshal success data errMsg), w.now⟩] := by
  simp [Client.sendResponse, WSConn.WriteJSON, Message.marshal, hopen, hok]

theorem Client.sendError_written (c : Client) (w : World) (message : String)
    (err : Option String) (hopen : c.conn.closed = false) (hok : w.transportOk = true) :
    (c.sendError w message err).conn.written =
      c.conn.written ++
        [.json ⟨TypeError, .text (ErrorPayload.marshal "ERROR"
          (match err with
            | some e => message ++ ": " ++ e
            | none => message)), w.now⟩] := by
  simp [Client.sendError, WSConn.WriteJSON, Message.marshal, hopen, hok]

theorem Client.sendResponse_once (c : Client) (w : World) (success : Bool)
    (data errMsg : String) (hopen : c.conn.closed = false) (hok : w.transportOk = true) :
    ∃ m, (c.sendResponse w success data errMsg).conn.written = c.conn.written ++ [.json m] ∧
      isReplyEnvelope w.now m :=
  ⟨_, Client.sendResponse_written c w success data errMsg hopen hok, rfl,
    Or.inl ⟨success, data, errMsg, rfl, rfl⟩⟩

theorem Client.sendError_once (c : Client) (w : World) (message : String)
    (err : Option String) (hopen : c.conn.closed = false) (hok : w.transportOk = true) :
    ∃ m, (c.sendError w message err).conn.written = c.conn.written ++ [.json m] ∧
      isReplyEnvelope w.now m :=
  ⟨_, Client.sendError_written c w message err hopen hok, rfl, Or.inr ⟨_, rfl, rfl⟩⟩

/-- Every handler writes exactly one reply envelope on an open connection whose
transport accepts the write. -/
theorem Client.invoke_once (c : Client) (w : World) (h : Handler)
    (hopen : c.conn.closed = false) (hok : w.transportOk = true) :
    ∃ m, (c.invoke w h).conn.written = c.conn.written ++ [.json m] ∧
      isReplyEnvelope w.now m := by
  cases h <;>
    simp only [Client.invoke, Client.handleCommand, Client.handleScreenshot,
      Client.handleWebcam, Client.handleShowImage, Client.handleFileRead,
      Client.handleFileWrite, Client.handleFileDelete, Client.handleFileList,
      Client.handleFileDownload, Client.handleRegRead, Client.handleRegWrite,
      Client.handleRegDelete, Client.handleRegList, Client.handleRegUnsupported] <;>
    (repeat' split) <;>
    first
      | exact Client.sendResponse_once c w _ _ _ hopen hok
      | exact Client.sendError_once c w _ _ hopen hok

theorem Client.route_capability (t : MessageType) :
    t ∈ capabilityTypes ↔ ∃ h, Client.route t = some h := by
  constructor
  · intro ht
    simp only [capabilityTypes, List.mem_cons, List.mem_singleton, List.not_mem_nil,
      or_false] at ht
    rcases ht with h | h | h | h | h | h | h | h | h | h | h | h | h <;>
      subst h <;> exact ⟨_, rfl⟩
  · rintro ⟨h, hr⟩
    unfold Client.route at hr
    simp only [capabilityTypes, List.mem_cons, List.mem_singleton, List.not_mem_nil, or_false]
    by_contra hne
    simp only [not_or] at hne
    obtain ⟨h1, h2, h3, h4, h5, h6, h7, h8, h9, h10, h11, h12, h13⟩ := hne
    simp [h1, h2, h3, h4, h5, h6, h7, h8, h9, h10, h11, h12, h13] at hr

/-! ## Lemmas on the front-end -/

theorem isAdminLoop_iff (userID : Int) (ids : List Int) :
    isAdminLoop userID ids = true ↔ userID ∈ ids := by
  induction ids with
  | nil => simp [isAdminLoop]
  | cons id rest ih =>
    by_cases h : id = userID
    · simp [isAdminLoop, h]
    · have h2 : ¬ userID = id := fun e => h e.symm
      simp [isAdminLoop, h, h2, ih]

/-! ## Lemmas on number parsing -/

/-- The value of a digit sequence read after the value `n`. -/
theorem foldl_digits_ge (cs : List Char) (n : Nat) :
    n ≤ cs.foldl (fun acc c => acc * 10 + (c.toNat - 48)) n := by
  induction cs generalizing n with
  | nil => exact Nat.le_refl _
  | cons c cs ih =>
    simp only [List.foldl_cons]
    exact Nat.le_trans (by omega) (ih (n * 10 + (c.toNat - 48)))

theorem parseUintLoop_eq_some (cs : List Char) (n v : Nat) (hn : n ≤ 18446744073709551615) :
    parseUintLoop n cs = some v ↔
      (∀ c ∈ cs, c.isDigit = true) ∧
      v = cs.foldl (fun acc c => acc * 10 + (c.toNat - 48)) n ∧
      v ≤ 18446744073709551615 := by
  induction cs generalizing n with
  | nil =>
    simp only [parseUintLoop, Option.some.injEq, List.not_mem_nil, false_implies, implies_true,
      List.foldl_nil, true_and]
    constructor
    · intro h; subst h; exact ⟨rfl, hn⟩
    · intro h; exact h.1.symm
  | cons c cs ih =>
    simp only [parseUintLoop, List.foldl_cons, List.mem_cons, forall_eq_or_imp]
    by_cases hd : c.isDigit = true
    · simp only [hd, if_true, true_and]
      have hge := foldl_digits_ge cs (n * 10 + (c.toNat - 48))
      by_cases h1 : 1844674407370955162 ≤ n
      · simp only [h1, if_true]
        constructor
        · intro h; cases h
        · rintro ⟨_, hv, hle⟩
          omega
      · simp only [h1, if_false]
        by_cases h2 : 18446744073709551615 < n * 10 + (c.toNat - 48)
        · simp only [h2, if_true]
          constructor
          · intro h; cases h
          · rintro ⟨_, hv, hle⟩
            omega
        · simp only [h2, if_false]
          exact ih (n * 10 + (c.toNat - 48)) (by omega)
    · simp only [hd, Bool.false_eq_true, if_false, false_and]
      constructor
      · intro h; cases h
      · intro h; exact h.elim

theorem ParseUint_eq_some (s : List Char) (v : Nat) :
    ParseUint s = some v ↔
      s ≠ [] ∧ (∀ c ∈ s, c.isDigit = true) ∧ v = decimalValue s ∧
        v ≤ 18446744073709551615 := by
  unfold ParseUint decimalValue
  by_cases hs : s = []
  · simp [hs]
  · simp only [hs, if_false, ne_eq, not_false_eq_true, true_and]
    exact parseUintLoop_eq_some s 0 v (by omega)

theorem isInt64_iff (n : Int) :
    isInt64 n = true ↔ -9223372036854775808 ≤ n ∧ n ≤ 9223372036854775807 := by
  simp [isInt64]

theorem plus_not_digit : Char.isDigit '+' = false := by decide

theorem minus_not_digit : Char.isDigit '-' = false := by decide

theorem ParseInt_plus (rest : List Char) :
    ParseInt ('+' :: rest) =
      match ParseUint rest with
      | none => none
      | some un => if 9223372036854775808 ≤ un then none else some (un : Int) := by
  cases h : ParseUint rest <;> simp [ParseInt, h]

theorem ParseInt_minus (rest : List Char) :
    ParseInt ('-' :: rest) =
      match ParseUint rest with
      | none => none
      | some un => if 9223372036854775808 < un then none else some (-(un : Int)) := by
  cases h : ParseUint rest <;> simp [ParseInt, h]

theorem ParseInt_unsigned (c : Char) (rest : List Char) (hplus : c ≠ '+') (hminus : c ≠ '-') :
    ParseInt (c :: rest) =
      match ParseUint (c :: rest) with
      | none => none
      | some un => if 9223372036854775808 ≤ un then none else some (un : Int) := by
  cases h : ParseUint (c :: rest) <;> simp [ParseInt, h, hplus, hminus]

/-- `strconv.ParseInt(s, 10, 64)` succeeds with value `n` exactly when `s` is a
base-10 integer in the `int64` range with value `n`. -/
theorem ParseInt_eq_some (s : List Char) (n : Int) :
    ParseInt s = some n ↔ IsDecimalInt64 s n := by
  unfold IsDecimalInt64
  cases s with
  | nil =>
    simp only [ParseInt]
    constructor
    · intro h; cases h
    · rintro ⟨neg, digits, hne, _, hs, _⟩
      rcases hs with ⟨h, _⟩ | ⟨h, _⟩ | ⟨h, _⟩
      · exact absurd h.symm hne
      · cases h
      · cases h
  | cons c rest =>
    by_cases hplus : c = '+'
    · subst hplus
      rw [ParseInt_plus]
      constructor
      · intro h
        cases hu : ParseUint rest with
        | none => rw [hu] at h; cases h
        | some un =>
          rw [hu] at h
          obtain ⟨hne, hdig, hval, _⟩ := (ParseUint_eq_some rest un).1 hu
          simp only at h
          by_cases hbig : 9223372036854775808 ≤ un
          · rw [if_pos hbig] at h; cases h
          · rw [if_neg hbig] at h
            cases h
            refine ⟨false, rest, hne, hdig, Or.inr (Or.inl ⟨rfl, rfl⟩), ?_, ?_⟩
            · simp [hval]
            · rw [isInt64_iff]; omega
      · rintro ⟨neg, digits, hne, hdig, hs, hn, h64⟩
        rcases hs with ⟨h, _⟩ | ⟨h, hf⟩ | ⟨h, _⟩
        · have := hdig '+' (by rw [← h]; exact List.mem_cons_self _ _)
          rw [plus_not_digit] at this; cases this
        · cases h
          subst hf
          simp only [Bool.false_eq_true, if_false] at hn
          rw [isInt64_iff] at h64
          have hu : ParseUint rest = some (decimalValue rest) :=
            (ParseUint_eq_some rest _).2 ⟨hne, hdig, rfl, by omega⟩
          rw [hu]
          simp only
          rw [if_neg (by omega), hn]
        · cases h
    · by_cases hminus : c = '-'
      · subst hminus
        rw [ParseInt_minus]
        constructor
        · intro h
          cases hu : ParseUint rest with
          | none => rw [hu] at h; cases h
          | some un =>
            rw [hu] at h
            obtain ⟨hne, hdig, hval, _⟩ := (ParseUint_eq_some rest un).1 hu
            simp only at h
            by_cases hbig : 9223372036854775808 < un
            · rw [if_pos hbig] at h; cases h
            · rw [if_neg hbig] at h
              cases h
              refine ⟨true, rest, hne, hdig, Or.inr (Or.inr ⟨rfl, rfl⟩), ?_, ?_⟩
              · simp [hval]
              · rw [isInt64_iff]; omega
        · rintro ⟨neg, digits, hne, hdig, hs, hn, h64⟩
          rcases hs with ⟨h, _⟩ | ⟨h, _⟩ | ⟨h, hf⟩
          · have := hdig '-' (by rw [← h]; exact List.mem_cons_self _ _)
            rw [minus_not_digit] at this; cases this
          · cases h
          · cases h
            subst hf
            simp only [if_true] at hn
            rw [isInt64_iff] at h64
            have hu : ParseUint rest = some (decimalValue rest) :=
              (ParseUint_eq_some rest _).2 ⟨hne, hdig, rfl, by omega⟩
            rw [hu]
            simp only
            rw [if_neg (by omega), hn]
      · rw [ParseInt_unsigned c rest hplus hminus]
        constructor
        · intro h
          cases hu : ParseUint (c :: rest) with
          | none => rw [hu] at h; cases h
          | some un =>
            rw [hu] at h
            obtain ⟨hne, hdig, hval, _⟩ := (ParseUint_eq_some (c :: rest) un).1 hu
            simp only at h
            by_cases hbig : 9223372036854775808 ≤ un
            · rw [if_pos hbig] at h; cases h
            · rw [if_neg hbig] at h
              cases h
              refine ⟨false, c :: rest, hne, hdig, Or.inl ⟨rfl, rfl⟩, ?_, ?_⟩
              · simp [hval]
              · rw [isInt64_iff]; omega
        · rintro ⟨neg, digits, hne, hdig, hs, hn, h64⟩
          rcases hs with ⟨h, hf⟩ | ⟨h, _⟩ | ⟨h, _⟩
          · subst hf
            rw [← h] at hne hdig hn
            simp only [Bool.false_eq_true, if_false] at hn
            rw [isInt64_iff] at h64
            have hu : ParseUint (c :: rest) = some (decimalValue (c :: rest)) :=
              (ParseUint_eq_some _ _).2 ⟨hne, hdig, rfl, by omega⟩
            rw [hu]
            simp only
            rw [if_neg (by omega), hn]
          · cases h; exact absurd rfl hplus
          · cases h; exact absurd rfl hminus

theorem ParseInt_eq_none (s : List Char) :
    ParseInt s = none ↔ ¬ ∃ n, IsDecimalInt64 s n := by
  constructor
  · rintro h ⟨n, hn⟩
    rw [(ParseInt_eq_some s n).2 hn] at h
    cases h
  · intro h
    cases hp : ParseInt s with
    | none => rfl
    | some n => exact absurd ⟨n, (ParseInt_eq_some s n).1 hp⟩ h

/-! ## Lemmas on `ParseAdminIDs` -/

theorem parseAdminLoop_error_iff (parts : List (List Char)) (acc : List Int) :
    (∃ e, parseAdminLoop acc parts = .error e) ↔
      ∃ part ∈ parts, TrimSpace part ≠ [] ∧ ParseInt (TrimSpace part) = none := by
  induction parts generalizing acc with
  | nil => simp [parseAdminLoop]
  | cons part rest ih =>
    simp only [parseAdminLoop, List.mem_cons, exists_eq_or_imp]
    by_cases hempty : TrimSpace part = []
    · simp only [hempty, if_true, ne_eq, not_true_eq_false, false_and, false_or]
      exact ih acc
    · simp only [hempty, if_false, ne_eq, not_false_eq_true, true_and]
      cases hp : ParseInt (TrimSpace part) with
      | none => simp
      | some id =>
        simp only [reduceCtorEq, false_or]
        exact ih (acc ++ [id])

theorem parseAdminLoop_ok (parts : List (List Char)) (acc ids : List Int)
    (h : parseAdminLoop acc parts = .ok ids) :
    ∃ vals, ids = acc ++ vals ∧
      List.Forall₂ (fun part n => ParseInt part = some n)
        ((parts.map TrimSpace).filter (fun part => decide (part ≠ []))) vals := by
  induction parts generalizing acc with
  | nil =>
    simp only [parseAdminLoop, Except.ok.injEq] at h
    exact ⟨[], by simp [h], by simp⟩
  | cons part rest ih =>
    simp only [parseAdminLoop] at h
    by_cases hempty : TrimSpace part = []
    · simp only [hempty, if_true] at h
      obtain ⟨vals, hv, hf⟩ := ih acc h
      exact ⟨vals, hv, by simpa [hempty] using hf⟩
    · simp only [hempty, if_false] at h
      cases hp : ParseInt (TrimSpace part) with
      | none => rw [hp] at h; cases h
      | some id =>
        rw [hp] at h
        obtain ⟨vals, hv, hf⟩ := ih (acc ++ [id]) h
        refine ⟨id :: vals, by simp [hv], ?_⟩
        simp only [List.map_cons, List.filter_cons, ne_eq, hempty, not_false_eq_true,
          decide_True, if_true]
        exact List.Forall₂.cons hp hf

theorem parseAdminLoop_blank (parts : List (List Char)) (acc : List Int)
    (h : ∀ part ∈ parts, TrimSpace part = []) : parseAdminLoop acc parts = .ok acc := by
  induction parts with
  | nil => rfl
  | cons part rest ih =>
    simp only [parseAdminLoop, h part (List.mem_cons_self _ _), if_true]
    exact ih (fun p hp => h p (List.mem_cons_of_mem _ hp))

theorem splitAll_ne_nil (sep : Char) (s : List Char) : splitAll sep s ≠ [] := by
  induction s with
  | nil => simp [splitAll]
  | cons c cs ih =>
    simp only [splitAll]
    split
    · simp
    · split <;> simp

theorem mem_of_mem_splitAll (sep : Char) (s part : List Char) (c : Char)
    (hp : part ∈ splitAll sep s) (hc : c ∈ part) : c ∈ s ∧ c ≠ sep := by
  induction s generalizing part with
  | nil =>
    simp only [splitAll, List.mem_singleton] at hp
    subst hp; cases hc
  | cons d ds ih =>
    simp only [splitAll] at hp
    by_cases hd : d = sep
    · simp only [hd, if_true, List.mem_cons] at hp
      rcases hp with h | h
      · subst h; cases hc
      · have := ih part h hc
        exact ⟨List.mem_cons_of_mem _ this.1, this.2⟩
    · simp only [hd, if_false] at hp
      cases hs : splitAll sep ds with
      | nil => exact absurd hs (splitAll_ne_nil sep ds)
      | cons p ps =>
        rw [hs] at hp ih
        simp only [List.mem_cons] at hp
        rcases hp with h | h
        · subst h
          rcases List.mem_cons.1 hc with h1 | h1
          · subst h1; exact ⟨List.mem_cons_self _ _, hd⟩
          · have := ih p (List.mem_cons_self _ _) h1
            exact ⟨List.mem_cons_of_mem _ this.1, this.2⟩
        · have := ih part (List.mem_cons_of_mem _ h) hc
          exact ⟨List.mem_cons_of_mem _ this.1, this.2⟩

theorem splitAll_no_sep (sep : Char) (p : List Char) (h : sep ∉ p) :
    splitAll sep p = [p] := by
  induction p with
  | nil => rfl
  | cons c cs ih =>
    have hc : ¬ c = sep := fun e => h (e ▸ List.mem_cons_self _ _)
    have hcs : sep ∉ cs := fun e => h (List.mem_cons_of_mem _ e)
    simp [splitAll, hc, ih hcs]

theorem splitAll_append_sep (sep : Char) (p t : List Char) (h : sep ∉ p) :
    splitAll sep (p ++ sep :: t) = p :: splitAll sep t := by
  induction p with
  | nil => simp [splitAll]
  | cons c cs ih =>
    have hc : ¬ c = sep := fun e => h (e ▸ List.mem_cons_self _ _)
    have hcs : sep ∉ cs := fun e => h (List.mem_cons_of_mem _ e)
    simp [splitAll, hc, ih hcs]

theorem splitAll_joinWith (sep : Char) (parts : List (List Char)) (hne : parts ≠ [])
    (h : ∀ p ∈ parts, sep ∉ p) : splitAll sep (joinWith sep parts) = parts := by
  induction parts with
  | nil => exact absurd rfl hne
  | cons p rest ih =>
    cases rest with
    | nil => exact splitAll_no_sep sep p (h p (List.mem_cons_self _ _))
    | cons q rest2 =>
      simp only [joinWith]
      rw [splitAll_append_sep sep p _ (h p (List.mem_cons_self _ _)),
        ih (by simp) (fun x hx => h x (List.mem_cons_of_mem _ hx))]

theorem TrimSpace_of_all_space (s : List Char) (h : ∀ c ∈ s, isSpace c = true) :
    TrimSpace s = [] := by
  have : s.dropWhile isSpace = [] := by
    rw [List.dropWhile_eq_nil_iff]; exact h
  simp [TrimSpace, this]

theorem dropWhile_of_none (p : Char → Bool) (s : List Char) (h : ∀ c ∈ s, p c = false) :
    s.dropWhile p = s := by
  cases s with
  | nil => rfl
  | cons c cs => simp [List.dropWhile_cons, h c (List.mem_cons_self _ _)]

theorem TrimSpace_of_no_space (s : List Char) (h : ∀ c ∈ s, isSpace c = false) :
    TrimSpace s = s := by
  unfold TrimSpace
  rw [dropWhile_of_none isSpace s h,
    dropWhile_of_none isSpace s.reverse (fun c hc => h c (List.mem_reverse.1 hc)),
    List.reverse_reverse]

/-! ## Lemmas on decimal renderings -/

theorem digitChar_isDigit : ∀ k, k < 10 → (Nat.digitChar k).isDigit = true := by decide

theorem digitChar_value : ∀ k, k < 10 → (Nat.digitChar k).toNat - 48 = k := by decide

theorem toDigitsCore_digits (fuel n : Nat) (ds : List Char)
    (h : ∀ c ∈ ds, c.isDigit = true) :
    ∀ c ∈ Nat.toDigitsCore 10 fuel n ds, c.isDigit = true := by
  induction fuel generalizing n ds with
  | zero => simpa [Nat.toDigitsCore] using h
  | succ fuel ih =>
    have hd : (Nat.digitChar (n % 10)).isDigit = true :=
      digitChar_isDigit _ (Nat.mod_lt _ (by decide))
    have hds : ∀ c ∈ Nat.digitChar (n % 10) :: ds, c.isDigit = true := by
      intro c hc
      rcases List.mem_cons.1 hc with h1 | h1
      · rw [h1]; exact hd
      · exact h c h1
    simp only [Nat.toDigitsCore]
    split
    · exact hds
    · exact ih _ _ hds

theorem toDigitsCore_value (fuel n : Nat) (ds : List Char) (h : n < fuel) :
    (Nat.toDigitsCore 10 fuel n ds).foldl (fun acc c => acc * 10 + (c.toNat - 48)) 0 =
      ds.foldl (fun acc c => acc * 10 + (c.toNat - 48)) n := by
  induction fuel generalizing n ds with
  | zero => omega
  | succ fuel ih =>
    have hv := digitChar_value (n % 10) (Nat.mod_lt _ (by decide))
    simp only [Nat.toDigitsCore]
    split
    · rename_i h0
      simp only [List.foldl_cons, hv]
      congr 1
      omega
    · rename_i h0
      rw [ih (n / 10) _ (by omega)]
      simp only [List.foldl_cons, hv]
      congr 1
      omega

theorem toDigitsCore_ne_nil (fuel n : Nat) (ds : List Char) :
    Nat.toDigitsCore 10 (fuel + 1) n ds ≠ [] := by
  induction fuel generalizing n ds with
  | zero =>
    simp only [Nat.toDigitsCore]
    split <;> simp
  | succ fuel ih =>
    rw [Nat.toDigitsCore]
    split
    · simp
    · exact ih _ _

theorem toDigits_spec (m : Nat) :
    Nat.toDigits 10 m ≠ [] ∧ (∀ c ∈ Nat.toDigits 10 m, c.isDigit = true) ∧
      decimalValue (Nat.toDigits 10 m) = m := by
  refine ⟨toDigitsCore_ne_nil m m [], toDigitsCore_digits _ _ _ (by simp), ?_⟩
  unfold decimalValue Nat.toDigits
  rw [toDigitsCore_value (m + 1) m [] (by omega)]
  rfl

theorem isSpace_of_isDigit (c : Char) (h : c.isDigit = true) : isSpace c = false := by
  simp only [Char.isDigit, Bool.and_eq_true, decide_eq_true_eq] at h
  have h1 : 48 ≤ c.toNat := by
    have := h.1
    simpa [Char.toNat, UInt32.le_def, Fin.le_def] using this
  have h2 : c.toNat ≤ 57 := by
    have := h.2
    simpa [Char.toNat, UInt32.le_def, Fin.le_def] using this
  simp only [isSpace, Bool.or_eq_false_iff, decide_eq_false_iff_not, Bool.and_eq_false_imp,
    decide_eq_true_eq]
  omega

theorem comma_of_isDigit (c : Char) (h : c.isDigit = true) : c ≠ ',' := by
  intro hc
  rw [hc] at h
  exact absurd h (by decide)

theorem renderInt_spec (n : Int) (h64 : isInt64 n = true) :
    renderInt n ≠ [] ∧ (∀ c ∈ renderInt n, isSpace c = false) ∧ ',' ∉ renderInt n ∧
      ParseInt (renderInt n) = some n := by
  cases n with
  | ofNat m =>
    obtain ⟨hne, hdig, hval⟩ := toDigits_spec m
    refine ⟨hne, fun c hc => isSpace_of_isDigit c (hdig c hc),
      fun hc => comma_of_isDigit _ (hdig _ hc) rfl, ?_⟩
    rw [ParseInt_eq_some]
    exact ⟨false, Nat.toDigits 10 m, hne, hdig, Or.inl ⟨rfl, rfl⟩, by simp [hval], h64⟩
  | negSucc m =>
    obtain ⟨hne, hdig, hval⟩ := toDigits_spec (m + 1)
    refine ⟨by simp [renderInt], ?_, ?_, ?_⟩
    · intro c hc
      rcases List.mem_cons.1 hc with h1 | h1
      · rw [h1]; decide
      · exact isSpace_of_isDigit c (hdig c h1)
    · intro hc
      rcases List.mem_cons.1 hc with h1 | h1
      · exact absurd h1 (by decide)
      · exact comma_of_isDigit _ (hdig _ h1) rfl
    · rw [ParseInt_eq_some]
      refine ⟨true, Nat.toDigits 10 (m + 1), hne, hdig, Or.inr (Or.inr ⟨rfl, rfl⟩), ?_, h64⟩
      simp only [if_true, hval]
      rfl

theorem parseAdminLoop_render (ns acc : List Int) (h : ∀ n ∈ ns, isInt64 n = true) :
    parseAdminLoop acc (ns.map renderInt) = .ok (acc ++ ns) := by
  induction ns generalizing acc with
  | nil => simp [parseAdminLoop]
  | cons n rest ih =>
    obtain ⟨hne, hsp, _, hparse⟩ := renderInt_spec n (h n (List.mem_cons_self _ _))
    simp only [List.map_cons, parseAdminLoop, TrimSpace_of_no_space _ hsp, hne, if_false,
      hparse]
    rw [ih (acc ++ [n]) (fun x hx => h x (List.mem_cons_of_mem _ hx))]
    simp

/-- The three shapes a handler's reply can have: a `response` with
`success = true`; for `handleCommand` only, a `response` with `success = false`
carrying the output and the error text of the failed execution; or an `error`
envelope. -/
theorem Client.invoke_shape (c : Client) (w : World) (h : Handler)
    (hopen : c.conn.closed = false) (hok : w.transportOk = true) :
    ∃ m, (c.invoke w h).conn.written = c.conn.written ++ [.json m] ∧
      ((∃ data, m = ⟨TypeResponse, .text (ResponsePayload.marshal true data ""), w.now⟩) ∨
       (h = .handleCommand ∧ ∃ err, w.fails .combinedOutput = some err ∧
          m = ⟨TypeResponse, .text (ResponsePayload.marshal false w.output err), w.now⟩) ∨
       (∃ message,
          m = ⟨TypeError, .text (ErrorPayload.marshal "ERROR" message), w.now⟩)) := by
  have hresp : ∀ data, ∃ m,
      (c.sendResponse w true data "").conn.written = c.conn.written ++ [.json m] ∧
      ((∃ data, m = ⟨TypeResponse, .text (ResponsePayload.marshal true data ""), w.now⟩) ∨
       (h = .handleCommand ∧ ∃ err, w.fails .combinedOutput = some err ∧
          m = ⟨TypeResponse, .text (ResponsePayload.marshal false w.output err), w.now⟩) ∨
       (∃ message,
          m = ⟨TypeError, .text (ErrorPayload.marshal "ERROR" message), w.now⟩)) :=
    fun data => ⟨_, Client.sendResponse_written c w true data "" hopen hok, Or.inl ⟨data, rfl⟩⟩
  have herr : ∀ message err, ∃ m,
      (c.sendError w message err).conn.written = c.conn.written ++ [.json m] ∧
      ((∃ data, m = ⟨TypeResponse, .text (ResponsePayload.marshal true data ""), w.now⟩) ∨
       (h = .handleCommand ∧ ∃ err, w.fails .combinedOutput = some err ∧
          m = ⟨TypeResponse, .text (ResponsePayload.marshal false w.output err), w.now⟩) ∨
       (∃ message,
          m = ⟨TypeError, .text (ErrorPayload.marshal "ERROR" message), w.now⟩)) :=
    fun message err =>
      ⟨_, Client.sendError_written c w message err hopen hok, Or.inr (Or.inr ⟨_, rfl⟩)⟩
  cases h with
  | handleCommand =>
    cases h1 : w.fails .unmarshal with
    | some e =>
      have hrun : c.invoke w .handleCommand =
          c.sendError w "Failed to parse command" (some e) := by
        simp only [Client.invoke, Client.handleCommand, h1]
      rw [hrun]; exact herr _ _
    | none =>
      cases h2 : w.fails .combinedOutput with
      | some e =>
        have hrun : c.invoke w .handleCommand = c.sendResponse w false w.output e := by
          simp only [Client.invoke, Client.handleCommand, h1, h2]
        rw [hrun]
        exact ⟨_, Client.sendResponse_written c w false w.output e hopen hok,
          Or.inr (Or.inl ⟨rfl, e, rfl, rfl⟩)⟩
      | none =>
        have hrun : c.invoke w .handleCommand = c.sendResponse w true w.output "" := by
          simp only [Client.invoke, Client.handleCommand, h1, h2]
        rw [hrun]
        exact ⟨_, Client.sendResponse_written c w true w.output "" hopen hok,
          Or.inl ⟨_, rfl⟩⟩
  | _ =>
    simp only [Client.invoke, Client.handleScreenshot,
      Client.handleWebcam, Client.handleShowImage, Client.handleFileRead,
      Client.handleFileWrite, Client.handleFileDelete, Client.handleFileList,
      Client.handleFileDownload, Client.handleRegRead, Client.handleRegWrite,
      Client.handleRegDelete, Client.handleRegList, Client.handleRegUnsupported]
    (repeat' split) <;>
    first
      | exact hresp _
      | exact herr _ _

theorem Client.route_handleCommand (t : MessageType)
    (h : Client.route t = some .handleCommand) : t = TypeCommand := by
  have hcap := (Client.route_capability t).2 ⟨_, h⟩
  simp only [capabilityTypes, List.mem_cons, List.mem_singleton, List.not_mem_nil,
    or_false] at hcap
  rcases hcap with h1 | h1 | h1 | h1 | h1 | h1 | h1 | h1 | h1 | h1 | h1 | h1 | h1 <;>
    subst h1 <;>
    first
      | rfl
      | exact absurd h (by decide)

/-! ## Lemmas on `parseRegistryKey` -/

theorem splitFirst_eq_none_iff (sep : Char) (s : List Char) :
    splitFirst sep s = none ↔ sep ∉ s := by
  induction s with
  | nil => simp [splitFirst]
  | cons c cs ih =>
    by_cases h : c = sep
    · simp [splitFirst, h]
    · have h2 : ¬ sep = c := fun e => h e.symm
      simp [splitFirst, h, h2, ih]

theorem splitFirst_eq_some (sep : Char) (s a b : List Char)
    (h : splitFirst sep s = some (a, b)) : s = a ++ sep :: b ∧ sep ∉ a := by
  induction s generalizing a with
  | nil => simp [splitFirst] at h
  | cons c cs ih =>
    by_cases hc : c = sep
    · simp only [splitFirst, hc, if_true, Option.some.injEq, Prod.mk.injEq] at h
      obtain ⟨ha, hb⟩ := h
      subst ha; subst hb
      exact ⟨by simp [hc], by simp⟩
    · simp only [splitFirst, hc, if_false, Option.map_eq_some', Prod.mk.injEq] at h
      obtain ⟨⟨a1, b1⟩, hs, ha, hb⟩ := h
      simp only at ha hb
      subst ha; subst hb
      obtain ⟨h1, h2⟩ := ih a1 hs
      refine ⟨by rw [h1]; rfl, ?_⟩
      intro hmem
      rcases List.mem_cons.1 hmem with h3 | h3
      · exact hc h3.symm
      · exact h2 h3

theorem splitFirst_append (sep : Char) (a b : List Char) (h : sep ∉ a) :
    splitFirst sep (a ++ sep :: b) = some (a, b) := by
  induction a with
  | nil => simp [splitFirst]
  | cons c cs ih =>
    have hc : ¬ c = sep := fun e => h (e ▸ List.mem_cons_self _ _)
    have hcs : sep ∉ cs := fun e => h (List.mem_cons_of_mem _ e)
    simp [splitFirst, hc, ih hcs]

/-- `parseRegistryKey` once the path is split: the `switch` on the upper-cased
root text. -/
theorem parseRegistryKey_of_split (keyPath : String) (root subKey : List Char)
    (h : splitFirst backslash keyPath.data = some (root, subKey)) :
    parseRegistryKey keyPath =
      if ToUpper (String.mk root) = "HKEY_CLASSES_ROOT" ∨ ToUpper (String.mk root) = "HKCR"
      then .ok (.CLASSES_ROOT, String.mk subKey)
      else if ToUpper (String.mk root) = "HKEY_CURRENT_USER" ∨
          ToUpper (String.mk root) = "HKCU"
      then .ok (.CURRENT_USER, String.mk subKey)
      else if ToUpper (String.mk root) = "HKEY_LOCAL_MACHINE" ∨
          ToUpper (String.mk root) = "HKLM"
      then .ok (.LOCAL_MACHINE, String.mk subKey)
      else if ToUpper (String.mk root) = "HKEY_USERS" ∨ ToUpper (String.mk root) = "HKU"
      then .ok (.USERS, String.mk subKey)
      else if ToUpper (String.mk root) = "HKEY_CURRENT_CONFIG" ∨
          ToUpper (String.mk root) = "HKCC"
      then .ok (.CURRENT_CONFIG, String.mk subKey)
      else .error (.unknownRoot (String.mk root)) := by
  unfold parseRegistryKey
  have h2 : splitFirst (Char.ofNat 92) keyPath.data = some (root, subKey) := h
  rw [h2]

theorem parseRegistryKey_known (keyPath : String) (root subKey : List Char)
    (h : splitFirst backslash keyPath.data = some (root, subKey))
    (entry : String × RootKey) (he : entry ∈ rootTable)
    (hup : ToUpper (String.mk root) = entry.1) :
    parseRegistryKey keyPath = .ok (entry.2, String.mk subKey) := by
  rw [parseRegistryKey_of_split keyPath root subKey h, hup]
  simp only [rootTable, List.mem_cons, List.mem_singleton, List.not_mem_nil, or_false] at he
  rcases he with e | e | e | e | e | e | e | e | e | e <;> subst e <;> rfl

theorem parseRegistryKey_unknown (keyPath : String) (root subKey : List Char)
    (h : splitFirst backslash keyPath.data = some (root, subKey))
    (hnone : ∀ entry ∈ rootTable, ToUpper (String.mk root) ≠ entry.1) :
    parseRegistryKey keyPath = .error (.unknownRoot (String.mk root)) := by
  rw [parseRegistryKey_of_split keyPath root subKey h]
  have h1 := hnone ("HKEY_CLASSES_ROOT", .CLASSES_ROOT) (by simp [rootTable])
  have h2 := hnone ("HKCR", .CLASSES_ROOT) (by simp [rootTable])
  have h3 := hnone ("HKEY_CURRENT_USER", .CURRENT_USER) (by simp [rootTable])
  have h4 := hnone ("HKCU", .CURRENT_USER) (by simp [rootTable])
  have h5 := hnone ("HKEY_LOCAL_MACHINE", .LOCAL_MACHINE) (by simp [rootTable])
  have h6 := hnone ("HKLM", .LOCAL_MACHINE) (by simp [rootTable])
  have h7 := hnone ("HKEY_USERS", .USERS) (by simp [rootTable])
  have h8 := hnone ("HKU", .USERS) (by simp [rootTable])
  have h9 := hnone ("HKEY_CURRENT_CONFIG", .CURRENT_CONFIG) (by simp [rootTable])
  have h10 := hnone ("HKCC", .CURRENT_CONFIG) (by simp [rootTable])
  simp only [ne_eq] at h1 h2 h3 h4 h5 h6 h7 h8 h9 h10
  simp only [h1, h2, h3, h4, h5, h6, h7, h8, h9, h10, or_self, if_false]

theorem toUpperRune_of_ascii (c : Char) (h : c.toUpper.toNat < 128) :
    toUpperRune c = c.toUpper := by
  unfold toUpperRune
  by_cases h1 : c = Char.ofNat 0x131
  · subst h1; exact absurd h (by decide)
  · by_cases h2 : c = Char.ofNat 0x17F
    · subst h2; exact absurd h (by decide)
    · simp [h1, h2]

theorem rootTable_ascii :
    ∀ entry ∈ rootTable, ∀ c ∈ entry.1.data, c.toNat < 128 ∧ c ≠ backslash := by decide

/-- A root text that equals a known name up to the case of its ASCII letters
upper-cases to that name and holds no backslash. -/
theorem ToUpper_of_same_letters (root : String) (entry : String × RootKey)
    (he : entry ∈ rootTable) (hcase : root.data.map Char.toUpper = entry.1.data) :
    ToUpper root = entry.1 ∧ backslash ∉ root.data := by
  have hmem : ∀ c ∈ root.data, c.toUpper ∈ entry.1.data := by
    intro c hc
    rw [← hcase]
    exact List.mem_map.2 ⟨c, hc, rfl⟩
  constructor
  · unfold ToUpper
    have : root.data.map toUpperRune = root.data.map Char.toUpper :=
      List.map_congr_left (fun c hc =>
        toUpperRune_of_ascii c (rootTable_ascii entry he _ (hmem c hc)).1)
    rw [this, hcase]
  · intro hb
    have h1 := hmem backslash hb
    have h2 : backslash.toUpper = backslash := by decide
    rw [h2] at h1
    exact (rootTable_ascii entry he _ h1).2 rfl

/-! ## Lemmas on the read deadline -/

theorem Server.Run_readDeadline (s s1 : Server) (ev : Event) (p : Ptr)
    (h : s.Run ev = .ok s1) :
    (s1.heap p).Conn.readDeadline = (s.heap p).Conn.readDeadline := by
  cases ev with
  | register client =>
    simp only [Server.Run, Except.ok.injEq] at h
    subst h
    rfl
  | unregister client =>
    simp only [Server.Run] at h
    split at h
    · split at h
      · simp only [Except.ok.injEq] at h
        subst h
        simp only [Server.store]
        split
        · next hq => subst hq; rfl
        · rfl
      · cases h
    · simp only [Except.ok.injEq] at h
      subst h
      rfl

theorem Server.sendSelect_readDeadline (s s1 : Server) (client p : Ptr) (clientID : String)
    (msg : Message) (r : Option ServerError)
    (h : s.sendSelect client clientID msg = .ok (s1, r)) :
    (s1.heap p).Conn.readDeadline = (s.heap p).Conn.readDeadline := by
  simp only [Server.sendSelect] at h
  split at h
  · cases h
  · split at h
    · simp only [Except.ok.injEq, Prod.mk.injEq] at h
      obtain ⟨h, -⟩ := h
      subst h
      simp only [Server.store]
      split
      · next hq => subst hq; rfl
      · rfl
    · simp only [Except.ok.injEq, Prod.mk.injEq] at h
      obtain ⟨h, -⟩ := h
      subst h
      rfl

theorem Server.SendCommand_readDeadline (s s1 : Server) (p : Ptr) (clientID : String)
    (msg : Message) (r : Option ServerError)
    (h : s.SendCommand clientID msg = .ok (s1, r)) :
    (s1.heap p).Conn.readDeadline = (s.heap p).Conn.readDeadline := by
  simp only [Server.SendCommand] at h
  split at h
  · simp only [Except.ok.injEq, Prod.mk.injEq] at h
    obtain ⟨h, -⟩ := h
    subst h
    rfl
  · next client _ =>
    exact Server.sendSelect_readDeadline s s1 client p clientID msg r h

theorem WSConn.WriteJSON_readDeadline (c : WSConn) (transportOk : Bool) (m : Message) :
    (c.WriteJSON transportOk m).1.readDeadline = c.readDeadline := by
  simp only [WSConn.WriteJSON]
  split
  · rfl
  · split <;> rfl

theorem WSConn.WriteMessage_readDeadline (c : WSConn) (transportOk : Bool) (f : WireFrame) :
    (c.WriteMessage transportOk f).1.readDeadline = c.readDeadline := by
  simp only [WSConn.WriteMessage]
  split <;> rfl

theorem Server.writePump_readDeadline (s : Server) (client p : Ptr) (case : PumpCase)
    (transportOk : Bool) (now : Time) :
    ((s.writePump client case transportOk now).1.heap p).Conn.readDeadline =
      (s.heap p).Conn.readDeadline := by
  by_cases hq : p = client
  · subst hq
    cases case with
    | recv =>
      simp only [Server.writePump]
      split
      · split <;>
          simp [Server.store, WSConn.Close, WSConn.WriteJSON_readDeadline]
      · split
        · simp [Server.store, WSConn.Close, WSConn.WriteMessage_readDeadline]
        · rfl
    | tick =>
      simp only [Server.writePump]
      split <;> simp [Server.store, WSConn.Close, WSConn.WriteMessage_readDeadline]
  · cases case with
    | recv =>
      simp only [Server.writePump]
      split
      · split <;> simp [Server.store, hq]
      · split
        · simp [Server.store, hq]
        · rfl
    | tick =>
      simp only [Server.writePump]
      split <;> simp [Server.store, hq]

theorem Server.readPump_readDeadline (s : Server) (client p : Ptr) (frame : Frame)
    (now : Time) :
    ((s.readPump client frame now).1.heap p).Conn.readDeadline =
      (s.heap p).Conn.readDeadline := by
  simp only [Server.readPump]
  split <;>
  · simp only [Server.store]
    split
    · next hq => subst hq; rfl
    · rfl

theorem Server.HandleWebSocket_readDeadline (s : Server) (upgradeOk : Bool) (first : Frame)
    (now : Time) (p : Ptr) (hp : p ≠ s.next) :
    ((s.HandleWebSocket upgradeOk first now).server.heap p).Conn.readDeadline =
      (s.heap p).Conn.readDeadline := by
  simp only [Server.HandleWebSocket]
  (repeat' split) <;> simp [Server.store, hp]

theorem Server.HandleWebSocket_new_readDeadline (s : Server) (first : Frame) (now : Time) :
    ((s.HandleWebSocket true first now).server.heap s.next).Conn.readDeadline = none := by
  simp only [Server.HandleWebSocket]
  (repeat' split) <;> simp_all [Server.store, WSConn.Close, WSConn.fresh]

/-! ## Lemmas on the frames that decoding refuses -/

theorem findField_mem (tags : List String) (key f : String)
    (h : findField tags key = some f) : f ∈ tags := by
  unfold findField at h
  split at h
  · next hc =>
    simp only [Option.some.injEq] at h
    subst h
    simpa using hc
  · exact List.mem_of_find?_eq_some h

theorem Message.setField_isOk (m : Message) (k : String) (v : JSON) :
    (m.setField k v).isOk = !memberRejected k v := by
  unfold Message.setField memberRejected
  cases h : findField ["type", "payload", "timestamp"] k with
  | none => simp [Except.isOk, Except.toBool]
  | some f =>
    have hf := findField_mem _ _ _ h
    simp only [List.mem_cons, List.mem_singleton, List.not_mem_nil, or_false] at hf
    rcases hf with hf | hf | hf
    · subst hf
      cases v <;> simp [storeString, Except.map, Except.isOk, Except.toBool]
    · subst hf
      simp [Except.isOk, Except.toBool]
    · subst hf
      cases v with
      | int n =>
        cases hn : isInt64 n <;>
          simp [storeInt64, hn, Except.map, Except.isOk, Except.toBool]
      | _ => simp [storeInt64, Except.map, Except.isOk, Except.toBool]

theorem Message.setFields_isOk (members : List (String × JSON)) (m : Message) :
    (m.setFields members).isOk = !members.any (fun kv => memberRejected kv.1 kv.2) := by
  induction members generalizing m with
  | nil => rfl
  | cons kv rest ih =>
    obtain ⟨k, v⟩ := kv
    have h := Message.setField_isOk m k v
    unfold Message.setFields
    cases h1 : m.setField k v with
    | error e =>
      rw [h1] at h
      have h2 : memberRejected k v = true := by
        cases hr : memberRejected k v
        · rw [hr] at h; cases h
        · rfl
      simp [h2, Except.isOk, Except.toBool]
    | ok a =>
      rw [h1] at h
      have h2 : memberRejected k v = false := by
        cases hr : memberRejected k v
        · rfl
        · rw [hr] at h; cases h
      simp only [List.any_cons, h2, Bool.false_or]
      exact ih a

theorem ReadJSON_isOk (frame : Frame) : (ReadJSON frame).isOk = !frameRejected frame := by
  cases frame with
  | failed => rfl
  | value j =>
    cases j with
    | obj members => exact Message.setFields_isOk members Message.zero
    | _ => rfl

/-! ## Lemmas on handler outcomes -/

theorem Client.handleCommand_outcome (c : Client) (w : World)
    (hopen : c.conn.closed = false) (hok : w.transportOk = true) :
    (c.handleCommand w).conn.written =
      c.conn.written ++ [.json ((Handler.handleCommand.outcome w).envelope w.now)] := by
  simp only [Client.handleCommand, Handler.outcome, Handler.checks, World.check]
  cases h1 : w.fails .unmarshal <;> cases h2 : w.fails .combinedOutput <;>
    simp [Client.sendResponse_written, Client.sendError_written, hopen, hok, Outcome.envelope,
      Handler.data]

theorem Client.handleScreenshot_outcome (c : Client) (w : World)
    (hopen : c.conn.closed = false) (hok : w.transportOk = true) :
    (c.handleScreenshot w).conn.written =
      c.conn.written ++ [.json ((Handler.handleScreenshot.outcome w).envelope w.now)] := by
  simp only [Client.handleScreenshot, Handler.outcome, Handler.checks, World.check]
  by_cases h0 : w.displays = 0 <;>
  cases h1 : w.fails .captureRect <;> cases h2 : w.fails .pngEncode <;>
    simp [Client.sendResponse_written, Client.sendError_written, hopen, hok, Outcome.envelope,
      Handler.data, h0]

theorem Client.handleWebcam_outcome (c : Client) (w : World)
    (hopen : c.conn.closed = false) (hok : w.transportOk = true) :
    (c.handleWebcam w).conn.written =
      c.conn.written ++ [.json ((Handler.handleWebcam.outcome w).envelope w.now)] := by
  simp only [Client.handleWebcam, Handler.outcome, Handler.checks, World.check]
  cases h1 : w.fails .unmarshal <;>
    simp [Client.sendResponse_written, Client.sendError_written, hopen, hok, Outcome.envelope,
      Handler.data]

theorem Client.handleShowImage_outcome (c : Client) (w : World)
    (hopen : c.conn.closed = false) (hok : w.transportOk = true) :
    (c.handleShowImage w).conn.written =
      c.conn.written ++ [.json ((Handler.handleShowImage.outcome w).envelope w.now)] := by
  simp only [Client.handleShowImage, Handler.outcome, Handler.checks, World.check]
  cases h1 : w.fails .unmarshal <;> cases h2 : w.fails .writeFile <;>
  cases h3 : w.fails .cmdStart <;>
    simp [Client.sendResponse_written, Client.sendError_written, hopen, hok, Outcome.envelope,
      Handler.data]

theorem Client.handleFileRead_outcome (c : Client) (w : World)
    (hopen : c.conn.closed = false) (hok : w.transportOk = true) :
    (c.handleFileRead w).conn.written =
      c.conn.written ++ [.json ((Handler.handleFileRead.outcome w).envelope w.now)] := by
  simp only [Client.handleFileRead, Handler.outcome, Handler.checks, World.check]
  cases h1 : w.fails .unmarshal <;> cases h2 : w.fails .readFile <;>
    simp [Client.sendResponse_written, Client.sendError_written, hopen, hok, Outcome.envelope,
      Handler.data]

theorem Client.handleFileWrite_outcome (c : Client) (w : World)
    (hopen : c.conn.closed = false) (hok : w.transportOk = true) :
    (c.handleFileWrite w).conn.written =
      c.conn.written ++ [.json ((Handler.handleFileWrite.outcome w).envelope w.now)] := by
  simp only [Client.handleFileWrite, Handler.outcome, Handler.checks, World.check]
  cases h1 : w.fails .unmarshal <;> cases h2 : w.fails .base64Decode <;>
  cases h3 : w.fails .mkdirAll <;> cases h4 : w.fails .writeFile <;>
    simp [Client.sendResponse_written, Client.sendError_written, hopen, hok, Outcome.envelope,
      Handler.data]

theorem Client.handleFileDelete_outcome (c : Client) (w : World)
    (hopen : c.conn.closed = false) (hok : w.transportOk = true) :
    (c.handleFileDelete w).conn.written =
      c.conn.written ++ [.json ((Handler.handleFileDelete.outcome w).envelope w.now)] := by
  simp only [Client.handleFileDelete, Handler.outcome, Handler.checks, World.check]
  cases h1 : w.fails .unmarshal <;> cases h2 : w.fails .stat <;>
  cases h3 : w.fails .remove <;>
    simp [Client.sendResponse_written, Client.sendError_written, hopen, hok, Outcome.envelope,
      Handler.data]

theorem Client.handleFileList_outcome (c : Client) (w : World)
    (hopen : c.conn.closed = false) (hok : w.transportOk = true) :
    (c.handleFileList w).conn.written =
      c.conn.written ++ [.json ((Handler.handleFileList.outcome w).envelope w.now)] := by
  simp only [Client.handleFileList, Handler.outcome, Handler.checks, World.check]
  cases h1 : w.fails .unmarshal <;> cases h2 : w.fails .readDir <;>
  cases h3 : w.fails .marshal <;>
    simp [Client.sendResponse_written, Client.sendError_written, hopen, hok, Outcome.envelope,
      Handler.data]

theorem Client.handleFileDownload_outcome (c : Client) (w : World)
    (hopen : c.conn.closed = false) (hok : w.transportOk = true) :
    (c.handleFileDownload w).conn.written =
      c.conn.written ++ [.json ((Handler.handleFileDownload.outcome w).envelope w.now)] := by
  simp only [Client.handleFileDownload, Handler.outcome, Handler.checks, World.check]
  cases h1 : w.fails .unmarshal <;> cases h2 : w.fails .stat <;>
  cases h0 : w.isDir <;>
  cases h3 : w.fails .readFile <;> cases h4 : w.fails .marshal <;>
    simp [Client.sendResponse_written, Client.sendError_written, hopen, hok, Outcome.envelope,
      Handler.data]

theorem Client.handleRegRead_outcome (c : Client) (w : World)
    (hopen : c.conn.closed = false) (hok : w.transportOk = true) :
    (c.handleRegRead w).conn.written =
      c.conn.written ++ [.json ((Handler.handleRegRead.outcome w).envelope w.now)] := by
  simp only [Client.handleRegRead, Client.handleRegUnsupported, Handler.outcome,
    Handler.checks, World.check, World.keyCheck, unsupportedPlatform]
  cases hw : w.windows <;>
  cases h1 : w.fails .unmarshal <;> cases hk : parseRegistryKey w.key <;>
  cases h2 : w.fails .openKey <;> cases h3 : w.fails .getStringValue <;>
  cases h4 : w.fails .getIntegerValue <;> cases h5 : w.fails .getBinaryValue <;>
  cases h6 : w.fails .marshal <;>
    simp [Client.sendResponse_written, Client.sendError_written, hopen, hok, Outcome.envelope,
      Handler.data]

theorem Client.handleRegList_outcome (c : Client) (w : World)
    (hopen : c.conn.closed = false) (hok : w.transportOk = true) :
    (c.handleRegList w).conn.written =
      c.conn.written ++ [.json ((Handler.handleRegList.outcome w).envelope w.now)] := by
  simp only [Client.handleRegList, Client.handleRegUnsupported, Handler.outcome,
    Handler.checks, World.check, World.keyCheck, unsupportedPlatform]
  cases hw : w.windows <;>
  cases h1 : w.fails .unmarshal <;> cases hk : parseRegistryKey w.key <;>
  cases h2 : w.fails .openKey <;> cases h6 : w.fails .marshal <;>
    simp [Client.sendResponse_written, Client.sendError_written, hopen, hok, Outcome.envelope,
      Handler.data]

theorem Client.handleRegDelete_outcome (c : Client) (w : World)
    (hopen : c.conn.closed = false) (hok : w.transportOk = true) :
    (c.handleRegDelete w).conn.written =
      c.conn.written ++ [.json ((Handler.handleRegDelete.outcome w).envelope w.now)] := by
  simp only [Client.handleRegDelete, Client.handleRegUnsupported, Handler.outcome,
    Handler.checks, World.check, World.keyCheck, unsupportedPlatform]
  by_cases hv : w.value = "" <;>
  cases hw : w.windows <;>
  cases h1 : w.fails .unmarshal <;> cases hk : parseRegistryKey w.key <;>
  cases h2 : w.fails .deleteKey <;> cases h3 : w.fails .openKey <;>
  cases h4 : w.fails .deleteValue <;>
    simp [Client.sendResponse_written, Client.sendError_written, hopen, hok, Outcome.envelope,
      Handler.data, hv]

theorem Client.handleRegWrite_outcome (c : Client) (w : World)
    (hopen : c.conn.closed = false) (hok : w.transportOk = true) :
    (c.handleRegWrite w).conn.written =
      c.conn.written ++ [.json ((Handler.handleRegWrite.outcome w).envelope w.now)] := by
  simp only [Client.handleRegWrite, Client.handleRegUnsupported, Handler.outcome,
    Handler.checks, World.check, World.keyCheck, unsupportedPlatform]
  generalize ToLower w.dataType = dt
  cases hw : w.windows
  · simp [Client.sendError_written, hopen, hok, Outcome.envelope]
  cases h1 : w.fails .unmarshal
  case some e => simp [Client.sendError_written, hopen, hok, Outcome.envelope]
  cases hk : parseRegistryKey w.key
  case error e => simp [Client.sendError_written, hopen, hok, Outcome.envelope]
  cases h2 : w.fails .createKey
  case some e => simp [Client.sendError_written, hopen, hok, Outcome.envelope]
  by_cases d1 : dt = "string"
  · subst d1
    cases h3 : w.fails .setValue <;>
      simp [Client.sendResponse_written, Client.sendError_written, hopen, hok,
        Outcome.envelope, Handler.data]
  by_cases d2 : dt = "sz"
  · subst d2
    cases h3 : w.fails .setValue <;>
      simp [Client.sendResponse_written, Client.sendError_written, hopen, hok,
        Outcome.envelope, Handler.data]
  by_cases d3 : dt = "expand_string"
  · subst d3
    cases h3 : w.fails .setValue <;>
      simp [Client.sendResponse_written, Client.sendError_written, hopen, hok,
        Outcome.envelope, Handler.data]
  by_cases d4 : dt = "expand_sz"
  · subst d4
    cases h3 : w.fails .setValue <;>
      simp [Client.sendResponse_written, Client.sendError_written, hopen, hok,
        Outcome.envelope, Handler.data]
  by_cases d5 : dt = "dword"
  · subst d5
    cases h3 : w.fails .setValue <;> cases h4 : w.fails .parseUint <;>
      simp [Client.sendResponse_written, Client.sendError_written, hopen, hok,
        Outcome.envelope, Handler.data]
  by_cases d6 : dt = "qword"
  · subst d6
    cases h3 : w.fails .setValue <;> cases h4 : w.fails .parseUint <;>
      simp [Client.sendResponse_written, Client.sendError_written, hopen, hok,
        Outcome.envelope, Handler.data]
  simp [Client.sendError_written, hopen, hok, Outcome.envelope, d1, d2, d3, d4, d5, d6]

/-- Every handler writes the one envelope that reports its outcome. -/
theorem Client.invoke_outcome (c : Client) (w : World) (h : Handler)
    (hopen : c.conn.closed = false) (hok : w.transportOk = true) :
    (c.invoke w h).conn.written =
      c.conn.written ++ [.json ((h.outcome w).envelope w.now)] := by
  cases h with
  | handleCommand => exact Client.handleCommand_outcome c w hopen hok
  | handleScreenshot => exact Client.handleScreenshot_outcome c w hopen hok
  | handleWebcam => exact Client.handleWebcam_outcome c w hopen hok
  | handleShowImage => exact Client.handleShowImage_outcome c w hopen hok
  | handleFileRead => exact Client.handleFileRead_outcome c w hopen hok
  | handleFileWrite => exact Client.handleFileWrite_outcome c w hopen hok
  | handleFileDelete => exact Client.handleFileDelete_outcome c w hopen hok
  | handleFileList => exact Client.handleFileList_outcome c w hopen hok
  | handleFileDownload => exact Client.handleFileDownload_outcome c w hopen hok
  | handleRegRead => exact Client.handleRegRead_outcome c w hopen hok
  | handleRegWrite => exact Client.handleRegWrite_outcome c w hopen hok
  | handleRegDelete => exact Client.handleRegDelete_outcome c w hopen hok
  | handleRegList => exact Client.handleRegList_outcome c w hopen hok

theorem Client.route_tag (h : Handler) : Client.route h.tag = some h := by
  cases h <;> rfl

theorem Handler.exists_tag (t : MessageType) (ht : t ∈ capabilityTypes) :
    ∃ h : Handler, h.tag = t := by
  simp only [capabilityTypes, List.mem_cons, List.mem_singleton, List.not_mem_nil,
    or_false] at ht
  rcases ht with h | h | h | h | h | h | h | h | h | h | h | h | h <;> subst h
  · exact ⟨.handleCommand, rfl⟩
  · exact ⟨.handleScreenshot, rfl⟩
  · exact ⟨.handleWebcam, rfl⟩
  · exact ⟨.handleShowImage, rfl⟩
  · exact ⟨.handleFileRead, rfl⟩
  · exact ⟨.handleFileWrite, rfl⟩
  · exact ⟨.handleFileDelete, rfl⟩
  · exact ⟨.handleFileList, rfl⟩
  · exact ⟨.handleFileDownload, rfl⟩
  · exact ⟨.handleRegRead, rfl⟩
  · exact ⟨.handleRegWrite, rfl⟩
  · exact ⟨.handleRegDelete, rfl⟩
  · exact ⟨.handleRegList, rfl⟩

theorem Handler.outcome_of_no_failure (h : Handler) (w : World)
    (hall : ∀ k ∈ h.checks w, k.failed = false)
    (hexec : h = .handleCommand → w.fails .combinedOutput = none) :
    h.outcome w = .success (h.data w) := by
  have hnone : (h.checks w).find? (fun k => k.failed) = none := by
    rw [List.find?_eq_none]
    intro k hk
    simp [hall k hk]
  unfold Handler.outcome
  rw [hnone]
  cases h with
  | handleCommand => simp [hexec rfl]
  | _ => rfl

theorem Handler.outcome_of_failure (h : Handler) (w : World) (k : Check)
    (hk : (h.checks w).find? (fun k => k.failed) = some k) :
    h.outcome w = .failure k.message k.cause := by
  unfold Handler.outcome
  rw [hk]

/-! ## The claims -/

/-- C1: a first frame that decodes to an `auth` envelope whose payload parses
to `authPayload` makes `HandleWebSocket` build a session (at the fresh address
`s.next`) whose ID, Hostname, Username and OS are those of the payload and send
it on `register`; once `Run` has processed that event, `GetClient` of the
payload's `client_id` returns that very session, unchanged, without error. -/
theorem C1_handshake_session_registered (s : Server) (first : Frame) (now : Time)
    (msg : Message) (authPayload : AuthPayload)
    (hdec : ReadJSON first = .ok msg) (htype : msg.Type_ = TypeAuth)
    (hauth : AuthPayload.unmarshal msg.Payload = .ok authPayload) :
    (s.HandleWebSocket true first now).client = some s.next ∧
    (s.HandleWebSocket true first now).event = some (.register s.next) ∧
    ((s.HandleWebSocket true first now).server.heap s.next).ID = authPayload.ClientID ∧
    ((s.HandleWebSocket true first now).server.heap s.next).Hostname = authPayload.Hostname ∧
    ((s.HandleWebSocket true first now).server.heap s.next).Username = authPayload.Username ∧
    ((s.HandleWebSocket true first now).server.heap s.next).OS = authPayload.OS ∧
    ∃ s1, (s.HandleWebSocket true first now).server.Run (.register s.next) = .ok s1 ∧
      s1.GetClient authPayload.ClientID = .ok s.next ∧
      s1.heap s.next = (s.HandleWebSocket true first now).server.heap s.next := by
  have hh : s.HandleWebSocket true first now =
      ⟨{ s with next := s.next + 1 }.store s.next
          { ConnectedClient.zero with
            Conn := WSConn.fresh, Send := MsgChan.make 256, LastSeen := now,
            ID := authPayload.ClientID, Hostname := authPayload.Hostname,
            Username := authPayload.Username, OS := authPayload.OS },
        some s.next, some (.register s.next)⟩ := by
    simp [Server.HandleWebSocket, hdec, htype, hauth]
  rw [hh]
  refine ⟨rfl, rfl, ?_, ?_, ?_, ?_, ?_⟩
  · simp [Server.store]
  · simp [Server.store]
  · simp [Server.store]
  · simp [Server.store]
  · refine ⟨_, rfl, ?_, rfl⟩
    simp [Server.GetClient, Server.store, ClientMap.get_set_same]

theorem C1_handshake_session_registered_witness :
    ReadJSON (authFrame "c1" "h" "u" "linux") =
        .ok ⟨"auth", .text (.obj [("client_id", .str "c1"), ("hostname", .str "h"),
              ("username", .str "u"), ("os", .str "linux")]), 1700000000⟩ ∧
    ((NewServer.HandleWebSocket true (authFrame "c1" "h" "u" "linux") 5).server.heap 0).ID = "c1" :=
  ⟨rfl, (C1_handshake_session_registered NewServer (authFrame "c1" "h" "u" "linux") 5
      ⟨"auth", .text (.obj [("client_id", .str "c1"), ("hostname", .str "h"),
              ("username", .str "u"), ("os", .str "linux")]), 1700000000⟩
      ⟨"c1", "h", "u", "linux"⟩ rfl rfl rfl).2.2.1⟩

/-- C2: from any registry state, when `Run` processes `register(a)` and then
`register(b)` for two sessions with the same ID, the map holds exactly one entry
under that ID and it is `b`; `GetClients` (the registry filing each session
under its own ID, as `Run` does) holds exactly one session with that ID, namely
`b`; the heap, and so `b`'s hostname, username and OS, is untouched; `GetClient`
of the ID returns `b`; and the entries under every other ID are unchanged. -/
theorem C2_register_same_id_replaces (s : Server) (a b : Ptr)
    (hid : (s.heap a).ID = (s.heap b).ID) :
    ∃ s2, s.RunAll [.register a, .register b] = .ok s2 ∧
      s2.clients.filter (fun e => e.1 == (s.heap b).ID) = [((s.heap b).ID, b)] ∧
      (s.Keyed → s2.GetClients.filter (fun p => (s2.heap p).ID == (s.heap b).ID) = [b]) ∧
      s2.heap = s.heap ∧
      s2.GetClient (s.heap b).ID = .ok b ∧
      (∀ k, k ≠ (s.heap b).ID → s2.clients.get k = s.clients.get k) ∧
      s2.clients.delete (s.heap b).ID = s.clients.delete (s.heap b).ID := by
  refine ⟨{ s with clients := (s.clients.set (s.heap a).ID a).set (s.heap b).ID b }, rfl,
    ?_, ?_, rfl, ?_, ?_, ?_⟩
  · show List.filter (fun e => e.1 == (s.heap b).ID)
      ((s.clients.set (s.heap a).ID a).set (s.heap b).ID b) = [((s.heap b).ID, b)]
    rw [hid]
    unfold ClientMap.set
    rw [ClientMap.delete_cons, if_pos rfl, ClientMap.delete_delete]
    rw [List.filter_cons]
    simp only [beq_self_eq_true, if_true]
    congr 1
    rw [List.filter_eq_nil_iff]
    intro e he
    rw [ClientMap.mem_delete] at he
    simp [he.2]
  · intro hk
    show List.filter (fun p => (s.heap p).ID == (s.heap b).ID)
      (List.map (fun e => e.2) ((s.clients.set (s.heap a).ID a).set (s.heap b).ID b)) = [b]
    rw [hid]
    unfold ClientMap.set
    rw [ClientMap.delete_cons, if_pos rfl, ClientMap.delete_delete]
    rw [List.map_cons, List.filter_cons]
    simp only [beq_self_eq_true, if_true]
    congr 1
    rw [List.filter_eq_nil_iff]
    intro p hp
    rw [List.mem_map] at hp
    obtain ⟨e, he, rfl⟩ := hp
    rw [ClientMap.mem_delete] at he
    have := hk e he.1
    simp [this, he.2]
  · simp [Server.GetClient, ClientMap.get_set_same]
  · intro k hne
    show ((s.clients.set (s.heap a).ID a).set (s.heap b).ID b).get k = s.clients.get k
    rw [ClientMap.get_set_ne _ _ _ _ hne, hid, ClientMap.get_set_ne _ _ _ _ hne]
  · show ((s.clients.set (s.heap a).ID a).set (s.heap b).ID b).delete (s.heap b).ID = _
    rw [ClientMap.delete_set, hid, ClientMap.delete_set]

theorem C2_register_same_id_replaces_witness :
    (twoPending.heap 1).ID = (twoPending.heap 2).ID ∧ twoPending.Keyed ∧
    ∃ s2, twoPending.RunAll [.register 1, .register 2] = .ok s2 ∧
      s2.clients.filter (fun e => e.1 == (twoPending.heap 2).ID) =
        [((twoPending.heap 2).ID, 2)] ∧
      (twoPending.Keyed →
        s2.GetClients.filter (fun p => (s2.heap p).ID == (twoPending.heap 2).ID) = [2]) ∧
      s2.heap = twoPending.heap ∧
      s2.GetClient (twoPending.heap 2).ID = .ok 2 ∧
      (∀ k, k ≠ (twoPending.heap 2).ID → s2.clients.get k = twoPending.clients.get k) ∧
      s2.clients.delete (twoPending.heap 2).ID = twoPending.clients.delete (twoPending.heap 2).ID :=
  have hk : twoPending.Keyed := by
    have hc : twoPending.clients = [("c1", 0)] := rfl
    intro e he
    rw [hc, List.mem_singleton] at he
    subst he
    rfl
  ⟨rfl, hk, C2_register_same_id_replaces twoPending 1 2 rfl⟩

/-- C3: `SendCommand` to an identity with no registry entry returns the
not-found error and leaves the whole state (registry map and every session's
queue) as it was. -/
theorem C3_send_to_absent_identity (s : Server) (clientID : String) (msg : Message)
    (habsent : s.clients.get clientID = none) :
    s.SendCommand clientID msg = .ok (s, some (.clientNotFound clientID)) := by
  simp [Server.SendCommand, Server.GetClient, habsent]

theorem C3_send_to_absent_identity_witness :
    registeredState.clients.get "ghost" = none ∧
    registeredState.SendCommand "ghost" whoami =
      .ok (registeredState, some (.clientNotFound "ghost")) :=
  ⟨by decide, C3_send_to_absent_identity registeredState "ghost" whoami (by decide)⟩

/-- C4: for a registered session whose queue is as `HandleWebSocket` made it
(capacity 256, empty, open) and is never drained, consecutive `SendCommand`
calls never panic; the first 256 return `nil`, every later one returns the
timeout error, the queue holds exactly the first 256 envelopes (so later calls
leave it unchanged and it never holds more than 256), and the registry map is
unchanged. -/
theorem C4_undrained_queue_times_out (s : Server) (clientID : String) (client : Ptr)
    (msgs : List Message)
    (hreg : s.clients.get clientID = some client)
    (hfresh : (s.heap client).Send = MsgChan.make 256) :
    ∃ s1, s.SendAll clientID msgs =
        .ok (s1, List.replicate (min msgs.length 256) none ++
                 List.replicate (msgs.length - 256) (some (.sendTimeout clientID))) ∧
      (s1.heap client).Send.buf = msgs.take 256 ∧
      (s1.heap client).Send.buf.length ≤ 256 ∧
      s1.clients = s.clients := by
  obtain ⟨s1, h1, h2, _, _, h5⟩ := Server.SendAll_undrained msgs s clientID client 256 hreg
    (by rw [hfresh]; rfl) (by rw [hfresh]; rfl)
  refine ⟨s1, h1, ?_, ?_, h5⟩
  · rw [h2, hfresh]; rfl
  · rw [h2, hfresh]; simp [MsgChan.make]

theorem C4_undrained_queue_times_out_witness :
    registeredState.clients.get "c1" = some 0 ∧
    (registeredState.heap 0).Send = MsgChan.make 256 ∧
    ∃ s1, registeredState.SendAll "c1" (List.replicate 300 whoami) =
        .ok (s1, List.replicate (min (List.replicate 300 whoami).length 256) none ++
                 List.replicate ((List.replicate 300 whoami).length - 256)
                   (some (.sendTimeout "c1"))) ∧
      (s1.heap 0).Send.buf = (List.replicate 300 whoami).take 256 ∧
      (s1.heap 0).Send.buf.length ≤ 256 ∧
      s1.clients = registeredState.clients :=
  ⟨by decide, rfl,
    C4_undrained_queue_times_out registeredState "c1" 0 (List.replicate 300 whoami)
      (by decide) rfl⟩

/-- C5: for a registered session with an open queue and every interleaving of
`SendCommand` calls addressed to it with steps of its writer pump: a
`SendCommand` that returns `nil` appends its envelope at the tail of the
session's queue; the interleaving never panics; and the envelopes the pump has
written to the transport are a leading segment, in order, of what was written
or queued at the start followed by the envelopes whose `SendCommand` returned
`nil` (while the pump runs, written plus queued is exactly that sequence); for
a session that starts with nothing written or queued, they are a leading
segment of the envelopes whose `SendCommand` returned `nil`. -/
theorem C5_outbound_fifo (s : Server) (clientID : String) (client : Ptr)
    (ops : List SessionOp)
    (hreg : s.clients.get clientID = some client)
    (hopen : (s.heap client).Send.closed = false) :
    (∀ msg s1, s.SendCommand clientID msg = .ok (s1, none) →
        (s1.heap client).Send.buf = (s.heap client).Send.buf ++ [msg]) ∧
    ∃ r, SessionRun.steps clientID client ⟨s, true, []⟩ ops = .ok r ∧
      envelopes (r.server.heap client).Conn.written <+:
        envelopes (s.heap client).Conn.written ++ (s.heap client).Send.buf ++ r.accepted ∧
      (r.pumpRunning = true →
        envelopes (r.server.heap client).Conn.written ++ (r.server.heap client).Send.buf =
          envelopes (s.heap client).Conn.written ++ (s.heap client).Send.buf ++ r.accepted) ∧
      (envelopes (s.heap client).Conn.written = [] → (s.heap client).Send.buf = [] →
        envelopes (r.server.heap client).Conn.written <+: r.accepted) := by
  constructor
  · intro msg s1 h
    by_cases hroom : (s.heap client).Send.buf.length < (s.heap client).Send.cap
    · rw [Server.SendCommand_room s clientID client msg hreg hopen hroom] at h
      simp only [Except.ok.injEq, Prod.mk.injEq, and_true] at h
      subst h
      simp [Server.store]
    · rw [Server.SendCommand_full s clientID client msg hreg hopen hroom] at h
      simp at h
  · obtain ⟨r, hsteps, lost, heq, hlost⟩ :=
      SessionRun.steps_fifo clientID client
        (envelopes (s.heap client).Conn.written ++ (s.heap client).Send.buf) ops ⟨s, true, []⟩
        hreg hopen ⟨[], by simp, fun _ => rfl⟩
    refine ⟨r, hsteps, ⟨lost ++ (r.server.heap client).Send.buf, ?_⟩, ?_, ?_⟩
    · rw [← List.append_assoc]; exact heq
    · intro hrun
      have := hlost hrun
      subst this
      simpa using heq
    · intro hw hb
      refine ⟨lost ++ (r.server.heap client).Send.buf, ?_⟩
      rw [← List.append_assoc, heq, hw, hb]
      rfl

theorem C5_outbound_fifo_witness :
    registeredState.clients.get "c1" = some 0 ∧
    (registeredState.heap 0).Send.closed = false ∧
    ∃ r, SessionRun.steps "c1" 0 ⟨registeredState, true, []⟩
        [.send whoami, .pump .recv true 50, .send whoami, .pump .recv false 60, .send whoami] =
          .ok r ∧
      envelopes (r.server.heap 0).Conn.written <+:
        envelopes (registeredState.heap 0).Conn.written ++ (registeredState.heap 0).Send.buf ++
          r.accepted ∧
      (r.pumpRunning = true →
        envelopes (r.server.heap 0).Conn.written ++ (r.server.heap 0).Send.buf =
          envelopes (registeredState.heap 0).Conn.written ++
            (registeredState.heap 0).Send.buf ++ r.accepted) ∧
      (envelopes (registeredState.heap 0).Conn.written = [] →
        (registeredState.heap 0).Send.buf = [] →
        envelopes (r.server.heap 0).Conn.written <+: r.accepted) :=
  ⟨by decide, rfl,
    (C5_outbound_fifo registeredState "c1" 0
      [.send whoami, .pump .recv true 50, .send whoami, .pump .recv false 60, .send whoami]
      (by decide) rfl).2⟩

/-- C6: processing `unregister(s)` when the registry has no entry under the
session's ID changes nothing (no map change, no queue closed) and raises no
panic; and processing `unregister(s)` twice in a row has the outcome of
processing it once. -/
theorem C6_unregister_idempotent (s : Server) (client : Ptr) :
    (s.clients.get (s.heap client).ID = none → s.Run (.unregister client) = .ok s) ∧
    (s.RunAll [.unregister client, .unregister client] = s.Run (.unregister client)) ∧
    (∀ s1, s.Run (.unregister client) = .ok s1 →
      s1.Run (.unregister client) = .ok s1 ∧
      s1.clients = s.clients.delete (s.heap client).ID) := by
  have hsecond : ∀ s1, s.Run (.unregister client) = .ok s1 →
      s1.Run (.unregister client) = .ok s1 ∧
      s1.clients = s.clients.delete (s.heap client).ID := by
    intro s1 h1
    simp only [Server.Run] at h1
    cases hg : s.clients.get (s.heap client).ID with
    | none =>
      rw [hg] at h1
      cases h1
      simp [Server.Run, hg, ClientMap.delete_of_get_none _ _ hg]
    | some q =>
      rw [hg] at h1
      cases hc : (s.heap client).Send.close with
      | error e => rw [hc] at h1; cases h1
      | ok ch =>
        rw [hc] at h1
        cases h1
        simp [Server.Run, Server.store, ClientMap.get_delete_same]
  refine ⟨?_, ?_, hsecond⟩
  · intro hg
    simp [Server.Run, hg]
  · cases h1 : s.Run (.unregister client) with
    | error e => simp [Server.RunAll, h1]
    | ok s1 => simp [Server.RunAll, h1, (hsecond s1 h1).1]

theorem C6_unregister_idempotent_witness :
    NewServer.clients.get (NewServer.heap 0).ID = none ∧
    NewServer.Run (.unregister 0) = .ok NewServer ∧
    registeredState.RunAll [.unregister 0, .unregister 0] = registeredState.Run (.unregister 0) :=
  ⟨rfl, (C6_unregister_idempotent NewServer 0).1 rfl,
    (C6_unregister_idempotent registeredState 0).2.1⟩

/-- C7 fails on the code: two agents authenticate with the same `client_id`
"c1" (sessions 0 and 1, both admitted); the second connection's reader pump ends
first and `Run` processes its unregister event, which deletes the entry and
closes queue 1; then session 0's reader pump ends and `Run` processes its
unregister event: no entry is found under "c1", so nothing is closed and the
outbound queue of session 0 stays open. -/
theorem C7_replaced_session_queue_left_open :
    ∃ s, sameIdScenario = .ok s ∧
      (s.heap 0).ID = "c1" ∧ (s.heap 1).ID = "c1" ∧
      s.clients = [] ∧
      (s.heap 1).Send.closed = true ∧
      (s.heap 0).Conn.closed = true ∧
      (s.heap 0).Send.closed = false :=
  ⟨_, rfl, rfl, rfl, rfl, rfl, rfl, rfl⟩

/-- C8: a first frame that fails to decode as an envelope, or whose type is not
`auth`, or whose payload does not parse as an auth payload, makes
`HandleWebSocket` close the connection without writing anything to it, send no
register event and leave the registry map and every other heap cell as they
were; and a register event is sent exactly when none of the three holds. -/
theorem C8_bad_first_frame_dropped (s : Server) (first : Frame) (now : Time) :
    (firstFrameRejected first →
      (s.HandleWebSocket true first now).client = some s.next ∧
      ((s.HandleWebSocket true first now).server.heap s.next).Conn.closed = true ∧
      ((s.HandleWebSocket true first now).server.heap s.next).Conn.written = [] ∧
      (s.HandleWebSocket true first now).server.clients = s.clients ∧
      (∀ q, q ≠ s.next → (s.HandleWebSocket true first now).server.heap q = s.heap q)) ∧
    (firstFrameRejected first ↔ (s.HandleWebSocket true first now).event = none) := by
  unfold firstFrameRejected
  cases hr : ReadJSON first with
  | error e =>
    simp [Server.HandleWebSocket, hr, Server.store, WSConn.Close, WSConn.fresh]
    intro q hq; simp [hq]
  | ok msg =>
    by_cases ht : msg.Type_ = TypeAuth
    · cases ha : AuthPayload.unmarshal msg.Payload with
      | error e =>
        simp [Server.HandleWebSocket, hr, ht, ha, Server.store, WSConn.Close, WSConn.fresh]
        intro q hq; simp [hq]
      | ok authPayload =>
        simp [Server.HandleWebSocket, hr, ht, ha]
    · simp [Server.HandleWebSocket, hr, ht, Server.store, WSConn.Close, WSConn.fresh]
      intro q hq; simp [hq]

theorem C8_bad_first_frame_dropped_witness :
    firstFrameRejected (.value bogusFrame) ∧
    (NewServer.HandleWebSocket true (.value bogusFrame) 10).event = none ∧
    ((NewServer.HandleWebSocket true (.value bogusFrame) 10).server.heap 0).Conn.closed = true :=
  have hrej : firstFrameRejected (.value bogusFrame) :=
    Or.inr (Or.inl ⟨⟨"bogus", .text (.obj []), 0⟩, rfl, by decide⟩)
  ⟨hrej, (C8_bad_first_frame_dropped NewServer (.value bogusFrame) 10).2.1 hrej,
    ((C8_bad_first_frame_dropped NewServer (.value bogusFrame) 10).1 hrej).2.1⟩

/-- C9: for an envelope that can be encoded (its timestamp being an `int64`),
decoding the JSON produced by encoding it succeeds and gives an envelope with
the same type tag, the same timestamp and a payload that denotes the same JSON
value. -/
theorem C9_encode_decode_roundtrip (m : Message) (j : JSON)
    (hts : isInt64 m.Timestamp = true) (henc : m.marshal = .ok j) :
    ∃ m1, ReadJSON (.value j) = .ok m1 ∧ m1.Type_ = m.Type_ ∧
      m1.Timestamp = m.Timestamp ∧ m1.Payload.denotes = m.Payload.denotes := by
  obtain ⟨t, p, n⟩ := m
  cases p with
  | nil =>
    simp only [Message.marshal, Except.ok.injEq] at henc
    subst henc
    exact ⟨_, ReadJSON_canonical t .null n hts, rfl, rfl, rfl⟩
  | text v =>
    simp only [Message.marshal, Except.ok.injEq] at henc
    subst henc
    exact ⟨_, ReadJSON_canonical t v n hts, rfl, rfl, rfl⟩
  | garbage => simp [Message.marshal] at henc

theorem C9_encode_decode_roundtrip_witness :
    isInt64 whoami.Timestamp = true ∧
    whoami.marshal = .ok (.obj [("type", .str "command"),
      ("payload", .obj [("command", .str "whoami")]), ("timestamp", .int 1700000000)]) ∧
    ∃ m1, ReadJSON (.value (.obj [("type", .str "command"),
        ("payload", .obj [("command", .str "whoami")]), ("timestamp", .int 1700000000)])) =
          .ok m1 ∧
      m1.Type_ = whoami.Type_ ∧ m1.Timestamp = whoami.Timestamp ∧
      m1.Payload.denotes = whoami.Payload.denotes :=
  ⟨by decide, rfl, C9_encode_decode_roundtrip whoami _ (by decide) rfl⟩

/-- C10 as stated fails: the frame `bogusFrame` is well formed, its type tag
`bogus` is none of the 17 recognized tags, and decoding it succeeds. -/
theorem C10_unrecognized_tag_decodes :
    frameTypeTag bogusFrame = some "bogus" ∧ "bogus" ∉ recognizedTypes ∧
    ∃ m, ReadJSON (.value bogusFrame) = .ok m ∧ m.Type_ = "bogus" :=
  ⟨by decide, by decide, ⟨_, rfl, rfl⟩⟩

/-- C10, amended: decoding does not compare the type tag with the recognized
tags.  A frame with members type `t`, payload `p` and an `int64` timestamp `n`
decodes to the envelope with type `t` for every string `t`; in any object
frame, replacing the string under `type` by another string never changes
whether decoding succeeds; and decoding a frame fails exactly when the frame
cannot be read as JSON, or is a JSON value that is neither an object nor
`null`, or is an object with a member whose key selects `type` and whose value
is neither a string nor `null`, or whose key selects `timestamp` and whose
value is neither `null` nor an integer literal in the range of `int64`. -/
theorem C10_decode_accepts_any_tag (t t1 : String) (p : JSON) (n : Int)
    (pre post : List (String × JSON)) (hn : isInt64 n = true) :
    ReadJSON (.value (.obj [("type", .str t), ("payload", p), ("timestamp", .int n)])) =
      .ok ⟨t, .text p, n⟩ ∧
    (ReadJSON (.value (.obj (pre ++ ("type", .str t) :: post)))).isOk =
      (ReadJSON (.value (.obj (pre ++ ("type", .str t1) :: post)))).isOk ∧
    (∀ frame : Frame, (ReadJSON frame).isOk = !frameRejected frame) := by
  refine ⟨ReadJSON_canonical t p n hn, ?_, ReadJSON_isOk⟩
  simp only [ReadJSON, Message.unmarshal]
  rw [Message.setFields_append, Message.setFields_append]
  cases Message.zero.setFields pre with
  | error e => rfl
  | ok m =>
    simp only [Message.setFields, Message.setField, findField_type, storeString, Except.map,
      if_true]
    exact Message.setFields_isOk_indep post _ _

theorem C10_decode_accepts_any_tag_witness :
    isInt64 0 = true ∧
    ReadJSON (.value (.obj [("type", .str "bogus"), ("payload", .obj []), ("timestamp", .int 0)])) =
      .ok ⟨"bogus", .text (.obj []), 0⟩ ∧
    (ReadJSON (.value (.obj [("type", .str "command"),
      ("timestamp", .int 9223372036854775808)]))).isOk = false ∧
    (ReadJSON (.value (.obj [("type", .str "command"),
      ("timestamp", .real "1.5")]))).isOk = false ∧
    (ReadJSON (.value (.obj [("type", .str "bogus"), ("timestamp", .null),
      ("note", .int 9223372036854775808)]))).isOk = true :=
  ⟨by decide, (C10_decode_accepts_any_tag "bogus" "auth" (.obj []) 0 [] [] (by decide)).1,
    ((C10_decode_accepts_any_tag "bogus" "auth" (.obj []) 0 [] [] (by decide)).2.2 _).trans rfl,
    ((C10_decode_accepts_any_tag "bogus" "auth" (.obj []) 0 [] [] (by decide)).2.2 _).trans rfl,
    ((C10_decode_accepts_any_tag "bogus" "auth" (.obj []) 0 [] [] (by decide)).2.2 _).trans rfl⟩

/-- C11 as stated fails: session 0 is Active (registered, its reader pump
started); a malformed frame arrives at time 50.  The reader pump sends the
unregister event and closes the connection, nothing is written to the sender,
and once `Run` has processed the event the session is out of the registry and
its queue is closed. -/
theorem C11_malformed_frame_unregisters :
    (∃ e, ReadJSON malformedFrame = .error e) ∧
    activeState.clients.get "c1" = some 0 ∧
    (activeState.readPump 0 malformedFrame 50).2 = some (.unregister 0) ∧
    ((activeState.readPump 0 malformedFrame 50).1.heap 0).Conn.written = [] ∧
    ((activeState.readPump 0 malformedFrame 50).1.heap 0).Conn.closed = true ∧
    ∃ s, (activeState.readPump 0 malformedFrame 50).1.deliver
        (activeState.readPump 0 malformedFrame 50).2 = .ok s ∧
      s.clients.get "c1" = none ∧ (s.heap 0).Send.closed = true :=
  ⟨⟨_, rfl⟩, rfl, rfl, rfl, rfl, _, rfl, rfl, rfl⟩

/-- C11, amended: for every session and every inbound frame that `ReadJSON`
rejects, the reader pump ends: it sends the unregister event of the session and
closes the connection, writes nothing to it and leaves the registry map as it
is; and when the session is the registry's entry under its ID with an open
queue, `Run` processing that event removes the entry and closes the queue. -/
theorem C11_malformed_frame_ends_reader (s : Server) (client : Ptr) (frame : Frame)
    (now : Time) (e : JSONError) (hbad : ReadJSON frame = .error e) :
    (s.readPump client frame now).2 = some (.unregister client) ∧
    ((s.readPump client frame now).1.heap client).Conn.closed = true ∧
    ((s.readPump client frame now).1.heap client).Conn.written =
      (s.heap client).Conn.written ∧
    (s.readPump client frame now).1.clients = s.clients ∧
    (s.clients.get (s.heap client).ID = some client → (s.heap client).Send.closed = false →
      ∃ s2, (s.readPump client frame now).1.Run (.unregister client) = .ok s2 ∧
        s2.clients.get (s.heap client).ID = none ∧ (s2.heap client).Send.closed = true) := by
  have hr : s.readPump client frame now =
      (s.store client { s.heap client with Conn := (s.heap client).Conn.Close },
        some (.unregister client)) := by
    simp [Server.readPump, hbad]
  rw [hr]
  refine ⟨rfl, by simp [Server.store, WSConn.Close], by simp [Server.store, WSConn.Close], rfl,
    ?_⟩
  intro hreg hopen
  refine ⟨_, by simp [Server.Run, Server.store, hreg, MsgChan.close, hopen]; rfl, ?_, ?_⟩
  · simp [Server.store, ClientMap.get_delete_same]
  · simp [Server.store]

theorem C11_malformed_frame_ends_reader_witness :
    ReadJSON malformedFrame = .error (.unmarshalType "type") ∧
    (activeState.readPump 0 malformedFrame 50).2 = some (.unregister 0) :=
  ⟨rfl, (C11_malformed_frame_ends_reader activeState 0 malformedFrame 50 _ rfl).1⟩

/-- C12: for an inbound envelope whose type tag is none of the 13 capability
tags, the `switch` of `handleMessage` selects no handler and the agent's state,
in particular what it has written to the connection, is unchanged, so a later
envelope is handled exactly as if the first had not arrived; `bogus`, `auth`,
`heartbeat`, `response` and `error` are such tags. -/
theorem C12_unknown_type_ignored (c : Client) (w : World) (msg : Message)
    (hnot : msg.Type_ ∉ capabilityTypes) :
    Client.route msg.Type_ = none ∧
    c.handleMessage w msg = c ∧
    (∀ w2 later, (c.handleMessage w msg).handleMessage w2 later = c.handleMessage w2 later) ∧
    (∀ t ∈ ["bogus", TypeAuth, TypeHeartbeat, TypeResponse, TypeError],
      t ∉ capabilityTypes) := by
  have hroute : Client.route msg.Type_ = none := by
    cases hr : Client.route msg.Type_ with
    | none => rfl
    | some h => exact absurd ((Client.route_capability _).2 ⟨h, hr⟩) hnot
  have hsame : c.handleMessage w msg = c := by
    simp [Client.handleMessage, hroute]
  refine ⟨hroute, hsame, fun w2 later => by rw [hsame], by decide⟩

theorem C12_unknown_type_ignored_witness :
    bogusMessage.Type_ ∉ capabilityTypes ∧
    agent0.handleMessage posixWorld bogusMessage = agent0 ∧
    (agent0.handleMessage posixWorld bogusMessage).handleMessage posixWorld
        ⟨TypeCommand, .text (.obj [("command", .str "whoami")]), 1700000070⟩ =
      agent0.handleMessage posixWorld
        ⟨TypeCommand, .text (.obj [("command", .str "whoami")]), 1700000070⟩ :=
  ⟨by decide, (C12_unknown_type_ignored agent0 posixWorld bogusMessage (by decide)).2.1,
    (C12_unknown_type_ignored agent0 posixWorld bogusMessage (by decide)).2.2.1 posixWorld _⟩

/-- C13 as stated fails: a `reg_read` request handled by a non-Windows agent
makes it send one envelope whose type is `error` (payload `{code, message}`),
not `response`. -/
theorem C13_unsupported_platform_sends_error_envelope :
    regReadRequest.Type_ ∈ capabilityTypes ∧
    posixWorld.windows = false ∧
    (agent0.handleMessage posixWorld regReadRequest).conn.written =
      [.json ⟨TypeError, .text (.obj [("code", .str "ERROR"), ("message",
        .str "Registry operations are only supported on Windows: unsupported platform")]),
        100⟩] ∧
    TypeError ≠ TypeResponse :=
  ⟨by decide, rfl, rfl, by decide⟩

/-- C13, amended: for every inbound envelope with one of the 13 capability tags
and every outcome of its handler, the agent writes exactly one envelope (the
connection being open and the transport accepting the write), and it is the
envelope that reports the outcome of the handler serving the tag.  When none of
the failures of the handler's table occurs (and, for a command, the execution
does not fail), it is a `response` envelope with `success = true` and the
handler's data.  When a command's execution fails, it is a `response` envelope
with `success = false`, the output and the error text.  When a failure of the
table occurs (a payload that does not parse, a failed outside call, a refused
registry key or data type, a registry operation on a build that is not for
Windows), it is an `error` envelope with payload `{code: "ERROR", message}`
whose message is the message of the first such failure, followed by ": " and
its cause if it has one.  So `success = false` is sent for no failure other
than a command's failed execution. -/
theorem C13_one_reply_per_capability (c : Client) (w : World) (msg : Message)
    (hcap : msg.Type_ ∈ capabilityTypes) (hopen : c.conn.closed = false)
    (hok : w.transportOk = true) :
    (∃ m, (c.handleMessage w msg).conn.written = c.conn.written ++ [.json m] ∧
      isReplyEnvelope w.now m) ∧
    (∃ h : Handler, h.tag = msg.Type_ ∧
      (c.handleMessage w msg).conn.written =
        c.conn.written ++ [.json ((h.outcome w).envelope w.now)]) ∧
    (∀ h : Handler, h.tag = msg.Type_ → (∀ k ∈ h.checks w, k.failed = false) →
      (h = .handleCommand → w.fails .combinedOutput = none) →
      (c.handleMessage w msg).conn.written = c.conn.written ++
        [.json ⟨TypeResponse, .text (ResponsePayload.marshal true (h.data w) ""), w.now⟩]) ∧
    (∀ (h : Handler) (k : Check), h.tag = msg.Type_ →
      (h.checks w).find? (fun k => k.failed) = some k →
      (c.handleMessage w msg).conn.written = c.conn.written ++
        [.json ⟨TypeError, .text (ErrorPayload.marshal "ERROR"
          (match k.cause with
            | some cause => k.message ++ ": " ++ cause
            | none => k.message)), w.now⟩]) ∧
    (msg.Type_ = TypeCommand → w.fails .unmarshal = none → w.fails .combinedOutput = none →
      (c.handleMessage w msg).conn.written = c.conn.written ++
        [.json ⟨TypeResponse, .text (ResponsePayload.marshal true w.output ""), w.now⟩]) ∧
    (∀ err, msg.Type_ = TypeCommand → w.fails .unmarshal = none →
      w.fails .combinedOutput = some err →
      (c.handleMessage w msg).conn.written = c.conn.written ++
        [.json ⟨TypeResponse, .text (ResponsePayload.marshal false w.output err), w.now⟩]) ∧
    (∀ err, msg.Type_ = TypeCommand → w.fails .unmarshal = some err →
      (c.handleMessage w msg).conn.written = c.conn.written ++
        [.json ⟨TypeError, .text (ErrorPayload.marshal "ERROR"
          ("Failed to parse command" ++ ": " ++ err)), w.now⟩]) ∧
    (w.windows = false →
      msg.Type_ ∈ [TypeRegRead, TypeRegWrite, TypeRegDelete, TypeRegList] →
      (c.handleMessage w msg).conn.written = c.conn.written ++
        [.json ⟨TypeError, .text (ErrorPayload.marshal "ERROR"
          ("Registry operations are only supported on Windows" ++ ": " ++
            "unsupported platform")), w.now⟩]) ∧
    (∃ m, (c.handleMessage w msg).conn.written = c.conn.written ++ [.json m] ∧
      ((∃ data, m = ⟨TypeResponse, .text (ResponsePayload.marshal true data ""), w.now⟩) ∨
       (msg.Type_ = TypeCommand ∧ ∃ err, w.fails .combinedOutput = some err ∧
          m = ⟨TypeResponse, .text (ResponsePayload.marshal false w.output err), w.now⟩) ∨
       (∃ message,
          m = ⟨TypeError, .text (ErrorPayload.marshal "ERROR" message), w.now⟩))) := by
  have hrun : ∀ h : Handler, h.tag = msg.Type_ →
      (c.handleMessage w msg).conn.written =
        c.conn.written ++ [.json ((h.outcome w).envelope w.now)] := by
    intro h ht
    simp only [Client.handleMessage, ← ht, Client.route_tag]
    exact Client.invoke_outcome c w h hopen hok
  obtain ⟨h, hr⟩ := (Client.route_capability _).1 hcap
  refine ⟨?_, ?_, ?_, ?_, ?_, ?_, ?_, ?_, ?_⟩
  · simp only [Client.handleMessage, hr]
    exact Client.invoke_once c w h hopen hok
  · obtain ⟨h1, ht⟩ := Handler.exists_tag _ hcap
    exact ⟨h1, ht, hrun h1 ht⟩
  · intro h1 ht hall hexec
    rw [hrun h1 ht, Handler.outcome_of_no_failure h1 w hall hexec]
    rfl
  · intro h1 k ht hk
    rw [hrun h1 ht, Handler.outcome_of_failure h1 w k hk]
    cases hc : k.cause <;> rfl
  · intro ht h1 h2
    have hr2 : Client.route msg.Type_ = some .handleCommand := by rw [ht]; rfl
    simp only [Client.handleMessage, hr2, Client.invoke, Client.handleCommand, h1, h2]
    exact Client.sendResponse_written c w _ _ _ hopen hok
  · intro err ht h1 h2
    have hr2 : Client.route msg.Type_ = some .handleCommand := by rw [ht]; rfl
    simp only [Client.handleMessage, hr2, Client.invoke, Client.handleCommand, h1, h2]
    exact Client.sendResponse_written c w _ _ _ hopen hok
  · intro err ht h1
    have hr2 : Client.route msg.Type_ = some .handleCommand := by rw [ht]; rfl
    simp only [Client.handleMessage, hr2, Client.invoke, Client.handleCommand, h1]
    exact Client.sendError_written c w _ _ hopen hok
  · intro hw ht
    simp only [List.mem_cons, List.mem_singleton, List.not_mem_nil, or_false] at ht
    rcases ht with ht | ht | ht | ht
    · have hr2 : Client.route msg.Type_ = some .handleRegRead := by rw [ht]; rfl
      simp only [Client.handleMessage, hr2, Client.invoke, Client.handleRegRead, hw,
        Client.handleRegUnsupported, Bool.not_false, if_true]
      exact Client.sendError_written c w _ _ hopen hok
    · have hr2 : Client.route msg.Type_ = some .handleRegWrite := by rw [ht]; rfl
      simp only [Client.handleMessage, hr2, Client.invoke, Client.handleRegWrite, hw,
        Client.handleRegUnsupported, Bool.not_false, if_true]
      exact Client.sendError_written c w _ _ hopen hok
    · have hr2 : Client.route msg.Type_ = some .handleRegDelete := by rw [ht]; rfl
      simp only [Client.handleMessage, hr2, Client.invoke, Client.handleRegDelete, hw,
        Client.handleRegUnsupported, Bool.not_false, if_true]
      exact Client.sendError_written c w _ _ hopen hok
    · have hr2 : Client.route msg.Type_ = some .handleRegList := by rw [ht]; rfl
      simp only [Client.handleMessage, hr2, Client.invoke, Client.handleRegList, hw,
        Client.handleRegUnsupported, Bool.not_false, if_true]
      exact Client.sendError_written c w _ _ hopen hok
  · obtain ⟨m, hm, hshape⟩ := Client.invoke_shape c w h hopen hok
    refine ⟨m, by simp only [Client.handleMessage, hr]; exact hm, ?_⟩
    rcases hshape with h1 | ⟨hh, h2⟩ | h3
    · exact Or.inl h1
    · subst hh
      exact Or.inr (Or.inl ⟨Client.route_handleCommand _ hr, h2⟩)
    · exact Or.inr (Or.inr h3)

theorem C13_one_reply_per_capability_witness :
    regReadRequest.Type_ ∈ capabilityTypes ∧ agent0.conn.closed = false ∧
    posixWorld.transportOk = true ∧
    (∃ m, (agent0.handleMessage posixWorld regReadRequest).conn.written =
        agent0.conn.written ++ [.json m] ∧ isReplyEnvelope posixWorld.now m) ∧
    Handler.handleRegRead.tag = regReadRequest.Type_ ∧
    (Handler.handleRegRead.checks posixWorld).find? (fun k => k.failed) =
      some unsupportedPlatform ∧
    (agent0.handleMessage posixWorld regReadRequest).conn.written =
      [.json ⟨TypeError, .text (.obj [("code", .str "ERROR"), ("message",
        .str "Registry operations are only supported on Windows: unsupported platform")]),
        100⟩] :=
  ⟨by decide, rfl, rfl,
    (C13_one_reply_per_capability agent0 posixWorld regReadRequest (by decide) rfl rfl).1,
    rfl, rfl,
    (C13_one_reply_per_capability agent0 posixWorld regReadRequest (by decide) rfl
      rfl).2.2.2.1 .handleRegRead unsupportedPlatform rfl rfl⟩

/-- C14: in every reachable registry state, `GetClients` returns as many
sessions as the registry has entries (one per key), no two of them share an ID,
a session is in the list exactly when `GetClient` of its ID returns that same
session, and `GetClient(id)` returns the not-found error exactly when no listed
session has ID `id`. -/
theorem C14_list_and_lookup_agree (s : Server) (h : s.Reachable) :
    s.GetClients.length = s.clients.length ∧
    (s.clients.map (fun e => e.1)).Nodup ∧
    (s.GetClients.map (fun p => (s.heap p).ID)).Nodup ∧
    (∀ p, p ∈ s.GetClients ↔ s.GetClient (s.heap p).ID = .ok p) ∧
    (∀ id, s.GetClient id = .error (.clientNotFound id) ↔
      ∀ p ∈ s.GetClients, (s.heap p).ID ≠ id) := by
  obtain ⟨⟨hk, _⟩, hnd⟩ := Server.Reachable.invariant s h
  have hids : s.GetClients.map (fun p => (s.heap p).ID) = s.clients.map (fun e => e.1) := by
    unfold Server.GetClients
    rw [List.map_map]
    exact List.map_congr_left (fun e he => hk e he)
  refine ⟨by simp [Server.GetClients], hnd, by rw [hids]; exact hnd, ?_, ?_⟩
  · intro p
    constructor
    · intro hp
      obtain ⟨e, he, hep⟩ := List.mem_map.1 hp
      obtain ⟨k, q⟩ := e
      simp only at hep
      subst hep
      have hkey : (s.heap q).ID = k := hk (k, q) he
      rw [hkey]
      simp [Server.GetClient, ClientMap.get_of_mem s.clients k q hnd he]
    · intro hg
      unfold Server.GetClient at hg
      cases hget : s.clients.get (s.heap p).ID with
      | none => rw [hget] at hg; cases hg
      | some q =>
        rw [hget] at hg
        cases hg
        exact List.mem_map.2 ⟨_, ClientMap.mem_of_get _ _ _ hget, rfl⟩
  · intro id
    constructor
    · intro hg p hp hid
      obtain ⟨e, he, hep⟩ := List.mem_map.1 hp
      have hnone : s.clients.get id = none := by
        unfold Server.GetClient at hg
        cases hget : s.clients.get id with
        | none => rfl
        | some q => rw [hget] at hg; cases hg
      have := (ClientMap.get_eq_none_iff _ _).1 hnone e he
      apply this
      rw [← hk e he, hep, hid]
    · intro hall
      have hnone : s.clients.get id = none := by
        rw [ClientMap.get_eq_none_iff]
        intro e he hid
        exact hall e.2 (List.mem_map.2 ⟨e, he, rfl⟩) ((hk e he).trans hid)
      simp [Server.GetClient, hnone]

theorem C14_list_and_lookup_agree_witness :
    registeredState.Reachable ∧
    registeredState.GetClients.length = registeredState.clients.length ∧
    (∀ p, p ∈ registeredState.GetClients ↔
      registeredState.GetClient (registeredState.heap p).ID = .ok p) :=
  have hr : registeredState.Reachable :=
    Server.Reachable.run (NewServer.HandleWebSocket true (authFrame "c1" "h1" "u1" "linux") 10).server
      registeredState (.register 0)
      (Server.Reachable.connect NewServer true (authFrame "c1" "h1" "u1" "linux") 10
        Server.Reachable.init)
      (by decide) rfl
  ⟨hr, (C14_list_and_lookup_agree registeredState hr).1,
    (C14_list_and_lookup_agree registeredState hr).2.2.2.1⟩

/-- C15 as stated fails: session 0's reader pump started at time 10 (read
deadline 70); a heartbeat frame read at time 50 sets `LastSeen` to 50 but the
read deadline stays 70, not 110. -/
theorem C15_frame_keeps_read_deadline :
    (∃ msg, ReadJSON heartbeatFrame = .ok msg) ∧
    (activeState.heap 0).Conn.readDeadline = some 70 ∧
    ((activeState.readPump 0 heartbeatFrame 50).1.heap 0).LastSeen = 50 ∧
    ((activeState.readPump 0 heartbeatFrame 50).1.heap 0).Conn.readDeadline = some 70 ∧
    ((activeState.readPump 0 heartbeatFrame 50).1.heap 0).Conn.readDeadline ≠ some (50 + 60) :=
  ⟨⟨_, rfl⟩, rfl, rfl, rfl, by decide⟩

/-- C15, amended: for every session and every inbound frame that decodes as an
envelope (whatever its type) read at time `now`, the reader pump sets the
session's `LastSeen` to `now`, sends no event and leaves the read deadline as
it was.  The read deadline is set to 60 seconds ahead only when the session's
reader pump starts and when a pong of the session arrives: every other step of
the controller (an iteration of any reader pump on any frame, an iteration of
any writer pump, an event processed by `Run`, a `SendCommand` call or its
`select`, a connection attempt, the start of another session's reader pump and
another session's pong) leaves it unchanged, and a new session starts without
a read deadline. -/
theorem C15_frame_refreshes_last_seen (s : Server) (client : Ptr) (frame : Frame)
    (now : Time) (msg : Message) (hdec : ReadJSON frame = .ok msg) :
    ((s.readPump client frame now).1.heap client).LastSeen = now ∧
    ((s.readPump client frame now).1.heap client).Conn.readDeadline =
      (s.heap client).Conn.readDeadline ∧
    (s.readPump client frame now).2 = none ∧
    ((s.readPumpStart client now).heap client).Conn.readDeadline = some (now + 60) ∧
    ((s.pongHandler client now).heap client).Conn.readDeadline = some (now + 60) ∧
    (∀ (q : Ptr) (f : Frame) (t : Time),
      ((s.readPump q f t).1.heap client).Conn.readDeadline =
        (s.heap client).Conn.readDeadline) ∧
    (∀ (q : Ptr) (case : PumpCase) (transportOk : Bool) (t : Time),
      ((s.writePump q case transportOk t).1.heap client).Conn.readDeadline =
        (s.heap client).Conn.readDeadline) ∧
    (∀ (ev : Event) (s1 : Server), s.Run ev = .ok s1 →
      (s1.heap client).Conn.readDeadline = (s.heap client).Conn.readDeadline) ∧
    (∀ (clientID : String) (m : Message) (s1 : Server) (r : Option ServerError),
      s.SendCommand clientID m = .ok (s1, r) →
      (s1.heap client).Conn.readDeadline = (s.heap client).Conn.readDeadline) ∧
    (∀ (q : Ptr) (clientID : String) (m : Message) (s1 : Server) (r : Option ServerError),
      s.sendSelect q clientID m = .ok (s1, r) →
      (s1.heap client).Conn.readDeadline = (s.heap client).Conn.readDeadline) ∧
    (∀ (upgradeOk : Bool) (first : Frame) (t : Time), client ≠ s.next →
      ((s.HandleWebSocket upgradeOk first t).server.heap client).Conn.readDeadline =
        (s.heap client).Conn.readDeadline) ∧
    (∀ (first : Frame) (t : Time),
      ((s.HandleWebSocket false first t).server.heap client).Conn.readDeadline =
        (s.heap client).Conn.readDeadline ∧
      ((s.HandleWebSocket true first t).server.heap s.next).Conn.readDeadline = none) ∧
    (∀ (q : Ptr) (t : Time), q ≠ client →
      ((s.readPumpStart q t).heap client).Conn.readDeadline =
        (s.heap client).Conn.readDeadline ∧
      ((s.pongHandler q t).heap client).Conn.readDeadline =
        (s.heap client).Conn.readDeadline) := by
  refine ⟨?_, ?_, ?_, ?_, ?_, ?_, ?_, ?_, ?_, ?_, ?_, ?_, ?_⟩
  · simp [Server.readPump, hdec, Server.store]
  · simp [Server.readPump, hdec, Server.store]
  · simp [Server.readPump, hdec]
  · simp [Server.readPumpStart, Server.store]
  · simp [Server.pongHandler, Server.store]
  · exact fun q f t => Server.readPump_readDeadline s q client f t
  · exact fun q case transportOk t => Server.writePump_readDeadline s q client case transportOk t
  · exact fun ev s1 h => Server.Run_readDeadline s s1 ev client h
  · exact fun clientID m s1 r h => Server.SendCommand_readDeadline s s1 client clientID m r h
  · exact fun q clientID m s1 r h => Server.sendSelect_readDeadline s s1 q client clientID m r h
  · exact fun upgradeOk first t h =>
      Server.HandleWebSocket_readDeadline s upgradeOk first t client h
  · exact fun first t =>
      ⟨by simp [Server.HandleWebSocket], Server.HandleWebSocket_new_readDeadline s first t⟩
  · intro q t hq
    have hq1 : ¬ client = q := fun h => hq h.symm
    simp [Server.readPumpStart, Server.pongHandler, Server.store, hq1]

theorem C15_frame_refreshes_last_seen_witness :
    ReadJSON heartbeatFrame =
      .ok ⟨"heartbeat", .text (.obj [("client_id", .str "c1")]), 1700000030⟩ ∧
    ((activeState.readPump 0 heartbeatFrame 50).1.heap 0).LastSeen = 50 ∧
    ((activeState.readPump 0 heartbeatFrame 50).1.heap 0).Conn.readDeadline = some 70 ∧
    ((activeState.writePump 0 .tick true 50).1.heap 0).Conn.readDeadline = some 70 ∧
    ((activeState.pongHandler 0 50).heap 0).Conn.readDeadline = some 110 :=
  ⟨rfl, (C15_frame_refreshes_last_seen activeState 0 heartbeatFrame 50 _ rfl).1,
    (C15_frame_refreshes_last_seen activeState 0 heartbeatFrame 50 _ rfl).2.1.trans rfl,
    ((C15_frame_refreshes_last_seen activeState 0 heartbeatFrame 50 _
      rfl).2.2.2.2.2.2.1 0 .tick true 50).trans rfl,
    (C15_frame_refreshes_last_seen activeState 0 heartbeatFrame 50 _ rfl).2.2.2.2.1⟩

/-- C16 fails on the code: one agent is registered as "c1"; a removal of its
session and a `SendCommand` lookup on "c1" run concurrently.  In both
sequential orders of the two operations `SendCommand` returns: `nil` with the
envelope queued when it comes first, "client not found" when the removal comes
first.  In the execution where the removal runs between the lookup of
`SendCommand` and its `select` (the read lock is released in between), the
call panics with a send on a closed channel, which is the outcome of neither
sequential order: the lookup observed a session that was removed before it
was used. -/
theorem C16_send_interleaving_matches_no_sequential_order :
    (∃ s, sendThenRemove = .ok (s, none) ∧ s.clients = [] ∧
      (s.heap 0).Send.buf.length = 1 ∧ (s.heap 0).Send.closed = true) ∧
    (∃ s, removeThenSend = .ok (s, some (.clientNotFound "c1")) ∧ s.clients = [] ∧
      (s.heap 0).Send.buf.length = 0 ∧ (s.heap 0).Send.closed = true) ∧
    (∃ s, oneSession = .ok s ∧ s.GetClient "c1" = .ok 0 ∧
      ∃ s1, (s.readPump 0 .failed 30).1.deliver (s.readPump 0 .failed 30).2 = .ok s1 ∧
        s1.sendSelect 0 "c1" whoami = .error .sendOnClosedChannel) ∧
    sendRaceScenario = .error .sendOnClosedChannel ∧
    (∀ s r, sendRaceScenario ≠ .ok (s, r)) :=
  ⟨⟨_, rfl, rfl, rfl, rfl⟩, ⟨_, rfl, rfl, rfl, rfl⟩, ⟨_, rfl, rfl, _, rfl, rfl⟩, rfl,
    fun s r h => by
      have h1 : sendRaceScenario = .error .sendOnClosedChannel := rfl
      rw [h1] at h
      cases h⟩

/-- C17 fails on the code: with one session, registered once and unregistered
once after its registration, no queue is closed twice and the registry never
holds a session with a closed queue, yet a `SendCommand` that found the session
sends on a closed queue: between its lookup and its `select`, `Run` processed
the unregister event and closed the queue, and the send panics. -/
theorem C17_send_after_unregister_panics :
    disciplined [] [] [.register 0, .unregister 0] = true ∧
    (∃ s, oneSession = .ok s ∧ s.GetClient "c1" = .ok 0 ∧ (s.heap 0).Send.closed = false ∧
      ∃ s1, (s.readPump 0 .failed 30).1.deliver (s.readPump 0 .failed 30).2 = .ok s1 ∧
        s1.clients = [] ∧ (s1.heap 0).Send.closed = true) ∧
    sendRaceScenario = .error .sendOnClosedChannel :=
  ⟨by decide, ⟨_, rfl, rfl, rfl, _, rfl, rfl, rfl⟩, rfl⟩

/-- C18 fails on the code: two agents authenticate with the same `client_id`
"c1"; session 0 is registered first and session 1 replaces it.  When session
0's reader pump ends and `Run` processes `unregister` of session 0, the entry
under "c1" (which is session 1) is deleted although session 1 is still
connected with an open queue, so `GetClient` no longer finds it. -/
theorem C18_unregister_removes_replacement :
    ∃ s2 s, twoRegistered = .ok s2 ∧ s2.clients.get "c1" = some 1 ∧
      replacedScenario = .ok s ∧
      (s.heap 0).ID = "c1" ∧ (s.heap 1).ID = "c1" ∧
      (s.heap 1).Conn.closed = false ∧ (s.heap 1).Send.closed = false ∧
      s.clients.get "c1" = none ∧
      s.GetClient "c1" = .error (.clientNotFound "c1") :=
  ⟨_, _, rfl, rfl, rfl, rfl, rfl, rfl, rfl, rfl, rfl⟩

/-- C19: a chat message from a sender outside `adminIDs` is answered with one
chat message and a callback query from such a sender with nothing; neither
makes any call of `Server.SendCommand`, `GetClient` or `GetClients`, and the
controller state (registry and every queue) is what it was; and `isAdmin(u)`
holds exactly when `u` is an element of `adminIDs`. -/
theorem C19_non_admin_reaches_no_server_call (b : Bot) (s : Server) (now : Time) :
    (∀ message : ChatMessage, message.fromID ∉ b.adminIDs →
      b.handleMessage s message = .ok (s, [.apiSend message.chatID])) ∧
    (∀ callback : CallbackQuery, callback.fromID ∉ b.adminIDs →
      b.handleCallback s now callback = .ok (s, [])) ∧
    (∀ message : ChatMessage, message.fromID ∉ b.adminIDs →
      ∀ r, b.handleMessage s message = .ok r →
        r.1 = s ∧ ∀ call ∈ r.2, call.isServerCall = false) ∧
    (∀ u, b.isAdmin u = true ↔ u ∈ b.adminIDs) := by
  have hadm : ∀ u, b.isAdmin u = true ↔ u ∈ b.adminIDs :=
    fun u => isAdminLoop_iff u b.adminIDs
  have hmsg : ∀ message : ChatMessage, message.fromID ∉ b.adminIDs →
      b.handleMessage s message = .ok (s, [.apiSend message.chatID]) := by
    intro message hnot
    have : b.isAdmin message.fromID = false := by
      cases h : b.isAdmin message.fromID with
      | false => rfl
      | true => exact absurd ((hadm _).1 h) hnot
    simp [Bot.handleMessage, this]
  refine ⟨hmsg, ?_, ?_, hadm⟩
  · intro callback hnot
    have : b.isAdmin callback.fromID = false := by
      cases h : b.isAdmin callback.fromID with
      | false => rfl
      | true => exact absurd ((hadm _).1 h) hnot
    simp [Bot.handleCallback, this]
  · intro message hnot r hr
    rw [hmsg message hnot] at hr
    cases hr
    exact ⟨rfl, by simp [BotCall.isServerCall]⟩

theorem C19_non_admin_reaches_no_server_call_witness :
    (7 : Int) ∉ demoBot.adminIDs ∧
    demoBot.handleCallback registeredState 100 ⟨"cb1", 7, 9, "screenshot:c1"⟩ =
      .ok (registeredState, []) ∧
    (∃ r, demoBot.handleCallback registeredState 100 ⟨"cb2", 42, 9, "screenshot:c1"⟩ = .ok r ∧
      r.2.map BotCall.isServerCall = [true, false, false]) :=
  ⟨by decide,
    (C19_non_admin_reaches_no_server_call demoBot registeredState 100).2.1
      ⟨"cb1", 7, 9, "screenshot:c1"⟩ (by decide),
    ⟨_, rfl, rfl⟩⟩

/-- C20: `ParseAdminIDs` fails exactly when some comma-separated part, once its
surrounding white space is trimmed, is non-empty and is not a base-10 integer
in the `int64` range; when it succeeds it returns the values of the non-empty
trimmed parts in input order; an input made only of commas and white space
gives the empty list without error; and for every list of `int64` values,
parsing their decimal renderings joined by "," gives that list back. -/
theorem C20_ParseAdminIDs_spec (idsStr : String) :
    ((∃ e, ParseAdminIDs idsStr = .error e) ↔
      ∃ part ∈ splitAll ',' idsStr.data,
        TrimSpace part ≠ [] ∧ ¬ ∃ n, IsDecimalInt64 (TrimSpace part) n) ∧
    (∀ ids, ParseAdminIDs idsStr = .ok ids →
      List.Forall₂ IsDecimalInt64
        (((splitAll ',' idsStr.data).map TrimSpace).filter (fun part => decide (part ≠ [])))
        ids) ∧
    ((∀ c ∈ idsStr.data, c = ',' ∨ isSpace c = true) → ParseAdminIDs idsStr = .ok []) ∧
    (∀ ids : List Int, (∀ n ∈ ids, isInt64 n = true) →
      ParseAdminIDs (String.mk (joinWith ',' (ids.map renderInt))) = .ok ids) := by
  refine ⟨?_, ?_, ?_, ?_⟩
  · unfold ParseAdminIDs
    rw [parseAdminLoop_error_iff]
    constructor
    · rintro ⟨part, hp, hne, hnone⟩
      exact ⟨part, hp, hne, (ParseInt_eq_none _).1 hnone⟩
    · rintro ⟨part, hp, hne, hnot⟩
      exact ⟨part, hp, hne, (ParseInt_eq_none _).2 hnot⟩
  · intro ids h
    obtain ⟨vals, hv, hf⟩ := parseAdminLoop_ok _ [] ids h
    rw [List.nil_append] at hv
    subst hv
    exact hf.imp (fun _ _ hp => (ParseInt_eq_some _ _).1 hp)
  · intro h
    unfold ParseAdminIDs
    apply parseAdminLoop_blank
    intro part hp
    apply TrimSpace_of_all_space
    intro c hc
    obtain ⟨hmem, hne⟩ := mem_of_mem_splitAll ',' idsStr.data part c hp hc
    rcases h c hmem with h1 | h1
    · exact absurd h1 hne
    · exact h1
  · intro ids h
    unfold ParseAdminIDs
    cases ids with
    | nil => rfl
    | cons n rest =>
      show parseAdminLoop [] (splitAll ',' (joinWith ',' ((n :: rest).map renderInt))) = _
      rw [splitAll_joinWith ',' _ (by simp)
        (by
          intro p hp
          obtain ⟨x, hx, rfl⟩ := List.mem_map.1 hp
          exact (renderInt_spec x (h x hx)).2.2.1)]
      have := parseAdminLoop_render (n :: rest) [] h
      simpa using this

theorem C20_ParseAdminIDs_spec_witness :
    (∀ n ∈ [(12 : Int), -7, 0, 9223372036854775807], isInt64 n = true) ∧
    String.mk (joinWith ',' ([(12 : Int), -7, 0, 9223372036854775807].map renderInt)) =
      "12,-7,0,9223372036854775807" ∧
    ParseAdminIDs (String.mk (joinWith ','
      ([(12 : Int), -7, 0, 9223372036854775807].map renderInt))) =
        .ok [12, -7, 0, 9223372036854775807] ∧
    ParseAdminIDs " , ," = .ok [] :=
  ⟨by decide, by decide,
    (C20_ParseAdminIDs_spec "").2.2.2 [12, -7, 0, 9223372036854775807] (by decide),
    (C20_ParseAdminIDs_spec " , ,").2.2.1 (by decide)⟩

/-- C21: `parseRegistryKey` fails with the invalid-format error exactly when
the path holds no backslash.  Otherwise, with `root` the text before the first
backslash and `subKey` everything after it, it fails with the unknown-root
error exactly when the upper-cased `root` is none of the ten known names, and
else returns the root of the matching name together with `subKey` unchanged.
A root text that equals a known name, full or abbreviated, up to the case of
its letters gives that name's root, so a root's abbreviation and its full name
give the same result in any letter case. -/
theorem C21_parseRegistryKey_spec (keyPath : String) :
    ((∃ p, parseRegistryKey keyPath = .error (.invalidFormat p)) ↔
      backslash ∉ keyPath.data) ∧
    (backslash ∉ keyPath.data →
      parseRegistryKey keyPath = .error (.invalidFormat keyPath)) ∧
    (backslash ∈ keyPath.data →
      ∃ root subKey, keyPath.data = root ++ backslash :: subKey ∧ backslash ∉ root ∧
        ((∃ r, parseRegistryKey keyPath = .error (.unknownRoot r)) ↔
          ∀ entry ∈ rootTable, ToUpper (String.mk root) ≠ entry.1) ∧
        ((∀ entry ∈ rootTable, ToUpper (String.mk root) ≠ entry.1) →
          parseRegistryKey keyPath = .error (.unknownRoot (String.mk root))) ∧
        (∀ entry ∈ rootTable, ToUpper (String.mk root) = entry.1 →
          parseRegistryKey keyPath = .ok (entry.2, String.mk subKey))) ∧
    (∀ entry ∈ rootTable, ∀ root subKey : String,
      root.data.map Char.toUpper = entry.1.data →
      parseRegistryKey (keyPathOf root subKey) = .ok (entry.2, subKey)) ∧
    (∀ full ∈ rootTable, ∀ short ∈ rootTable, full.2 = short.2 →
      ∀ root1 root2 subKey : String,
        root1.data.map Char.toUpper = full.1.data →
        root2.data.map Char.toUpper = short.1.data →
        parseRegistryKey (keyPathOf root1 subKey) =
          parseRegistryKey (keyPathOf root2 subKey)) := by
  have hcase : ∀ entry ∈ rootTable, ∀ root subKey : String,
      root.data.map Char.toUpper = entry.1.data →
      parseRegistryKey (keyPathOf root subKey) = .ok (entry.2, subKey) := by
    intro entry he root subKey hmap
    obtain ⟨hup, hno⟩ := ToUpper_of_same_letters root entry he hmap
    have hsplit : splitFirst backslash (keyPathOf root subKey).data =
        some (root.data, subKey.data) := splitFirst_append backslash _ _ hno
    exact parseRegistryKey_known _ _ _ hsplit entry he hup
  refine ⟨?_, ?_, ?_, hcase, ?_⟩
  · constructor
    · rintro ⟨p, hp⟩
      rw [← splitFirst_eq_none_iff]
      cases hs : splitFirst backslash keyPath.data with
      | none => rfl
      | some rs =>
        obtain ⟨root, subKey⟩ := rs
        by_cases hk : ∀ entry ∈ rootTable, ToUpper (String.mk root) ≠ entry.1
        · rw [parseRegistryKey_unknown keyPath root subKey hs hk] at hp
          cases hp
        · simp only [not_forall, ne_eq, not_not] at hk
          obtain ⟨entry, he, hup⟩ := hk
          rw [parseRegistryKey_known keyPath root subKey hs entry he hup] at hp
          cases hp
    · intro hno
      have hs := (splitFirst_eq_none_iff backslash keyPath.data).2 hno
      have hs2 : splitFirst (Char.ofNat 92) keyPath.data = none := hs
      exact ⟨keyPath, by unfold parseRegistryKey; rw [hs2]⟩
  · intro hno
    have hs := (splitFirst_eq_none_iff backslash keyPath.data).2 hno
    have hs2 : splitFirst (Char.ofNat 92) keyPath.data = none := hs
    unfold parseRegistryKey
    rw [hs2]
  · intro hin
    cases hs : splitFirst backslash keyPath.data with
    | none => exact absurd hin ((splitFirst_eq_none_iff _ _).1 hs)
    | some rs =>
      obtain ⟨root, subKey⟩ := rs
      obtain ⟨hdata, hroot⟩ := splitFirst_eq_some backslash _ _ _ hs
      refine ⟨root, subKey, hdata, hroot, ?_, parseRegistryKey_unknown keyPath root subKey hs,
        fun entry he hup => parseRegistryKey_known keyPath root subKey hs entry he hup⟩
      constructor
      · rintro ⟨r, hr⟩ entry he hup
        rw [parseRegistryKey_known keyPath root subKey hs entry he hup] at hr
        cases hr
      · intro hk
        exact ⟨_, parseRegistryKey_unknown keyPath root subKey hs hk⟩
  · intro full hf short hsh hsame root1 root2 subKey h1 h2
    rw [hcase full hf root1 subKey h1, hcase short hsh root2 subKey h2, hsame]

theorem C21_parseRegistryKey_spec_witness :
    backslash ∉ "HKLM/Software".data ∧
    parseRegistryKey "HKLM/Software" = .error (.invalidFormat "HKLM/Software") ∧
    (("HKLM", RootKey.LOCAL_MACHINE) ∈ rootTable ∧
      "hKlm".data.map Char.toUpper = "HKLM".data ∧
      parseRegistryKey (keyPathOf "hKlm" "Software\\Microsoft") =
        .ok (.LOCAL_MACHINE, "Software\\Microsoft")) ∧
    parseRegistryKey (keyPathOf "hkey_local_machine" "Software\\Microsoft") =
      parseRegistryKey (keyPathOf "Hklm" "Software\\Microsoft") :=
  ⟨by decide, (C21_parseRegistryKey_spec "HKLM/Software").2.1 (by decide),
    ⟨by decide, by decide,
      (C21_parseRegistryKey_spec "").2.2.2.1 ("HKLM", .LOCAL_MACHINE) (by decide) "hKlm"
        "Software\\Microsoft" (by decide)⟩,
    (C21_parseRegistryKey_spec "").2.2.2.2 ("HKEY_LOCAL_MACHINE", .LOCAL_MACHINE) (by decide)
      ("HKLM", .LOCAL_MACHINE) (by decide) rfl "hkey_local_machine" "Hklm"
      "Software\\Microsoft" (by decide) (by decide)⟩

end HAXinceL2
